import Mathlib

/-!
# SQLite-backed SRAM snapshots: a verification development

A shallow embedding of `support/sqlite_sram/sqlite_sram.cpp` (snapshot store, migration
runner, flush scheduler and autosave-trigger detector) together with theorems about it.

Conventions of the embedding.

* A `std::vector<uint8_t>` is a `List Nat` (one entry per byte).
* A C string the code inspects or compares is a `List Nat` of its bytes (without the
  terminating NUL); SQL text and tags, which the code only passes on, are `String`s.
* The SQLite engine is modelled at the level of the statements the code sends to it: a
  database is the committed content of its tables, a connection adds the working copy of an
  open transaction.  Every call into SQLite or into the file layer can fail for reasons the
  program does not control (I/O error, lock timeout, constraint violation); each such call
  takes a Boolean saying whether it fails, collected in the `...Faults` records, and the
  theorems quantify over them.
-/

namespace SqliteSram

/-! ## Constants (`sqlite_sram.cpp` lines 23-25) -/

/-- Number of slots, `SQLITE_SRAM_MAX_SLOTS`. -/
def SQLITE_SRAM_MAX_SLOTS : Nat := 16

/-- Retention limit for untagged snapshots, `SQLITE_SRAM_HISTORY_LIMIT`. -/
def SQLITE_SRAM_HISTORY_LIMIT : Nat := 50

/-- Delay before a failed flush is retried, `SQLITE_SRAM_RETRY_MS`. -/
def SQLITE_SRAM_RETRY_MS : Nat := 60000

/-- Contents of a byte vector. -/
abbrev Bytes := List Nat

/-- Bytes of a C string, without the terminating NUL. -/
abbrev CStr := List Nat

/-- The C string literal with the given ASCII text. -/
def cstr (s : String) : CStr := s.toList.map Char.toNat

/-- The C library function `strcmp`, reduced to the sign of its result: the strings are
compared byte by byte and a proper initial segment comes first. -/
def strcmp : CStr → CStr → Int
  | [], [] => 0
  | [], _ :: _ => -1
  | _ :: _, [] => 1
  | a :: as, b :: bs => if a = b then strcmp as bs else if a < b then -1 else 1

/-! ## CRC32 -/

/-- One bit step of the reflected CRC-32 with polynomial `0xEDB88320`. -/
def crc32_bit (c : Nat) : Nat :=
  if c % 2 = 1 then (c >>> 1) ^^^ 0xEDB88320 else c >>> 1

/-- Eight bit steps after mixing one input byte into the low byte of the register. -/
def crc32_byte (c b : Nat) : Nat :=
  crc32_bit (crc32_bit (crc32_bit (crc32_bit (crc32_bit (crc32_bit (crc32_bit (crc32_bit
    (c ^^^ (b % 256)))))))))

/-- Modelled from the spec: `mz_crc32` of miniz (`miniz.h` is not under src/), the standard
CRC32 the spec names: the register starts from the complement of `crc`, absorbs the bytes in
order, and is complemented again. -/
def mz_crc32 (crc : Nat) (data : Bytes) : Nat :=
  (data.foldl crc32_byte ((crc % 2 ^ 32) ^^^ 0xFFFFFFFF)) ^^^ 0xFFFFFFFF

/-- Initial value `MZ_CRC32_INIT`. -/
def MZ_CRC32_INIT : Nat := 0

/-- Embedding of `sqlite_sram_crc32` (lines 65-69): `0` for a null pointer or a zero size,
otherwise `(uint32_t)mz_crc32(MZ_CRC32_INIT, data, size)`. -/
def sqlite_sram_crc32 (data : Bytes) : Nat :=
  if data.length = 0 then 0 else mz_crc32 MZ_CRC32_INIT data % 2 ^ 32

/-! ## The database -/

/-- One migration, `sqlite_sram_migration_t` (`migrations.h`). -/
structure sqlite_sram_migration_t where
  name : CStr
  sql : String
deriving DecidableEq, Repr

/-- The generated table `g_sqlite_sram_migrations` (`sqlite_sram_migrations_autogen.h`). -/
def g_sqlite_sram_migrations : List sqlite_sram_migration_t :=
  [ ⟨cstr "202602180001_create_snapshots.sql",
      "\nCREATE TABLE IF NOT EXISTS snapshots (\n\tid INTEGER PRIMARY KEY,\n\tts_ms INTEGER NOT NULL,\n\tcrc32 INTEGER NOT NULL,\n\tsram BLOB NOT NULL\n);\n"⟩,
    ⟨cstr "202602180002_add_snapshots_tag.sql",
      "\nALTER TABLE snapshots ADD COLUMN tag TEXT DEFAULT NULL;\n"⟩ ]

/-- One row of table `snapshots`
(`id INTEGER PRIMARY KEY, ts_ms, crc32 INTEGER, sram BLOB, tag TEXT DEFAULT NULL`).
Integer columns are SQLite 64-bit integers; `tag = none` is SQL `NULL`. -/
structure Snapshot where
  id : Int
  ts_ms : Int
  crc32 : Int
  sram : Bytes
  tag : Option String
deriving DecidableEq, Repr

/-- One row of the ledger `schema_migrations(name TEXT PRIMARY KEY, applied_ts_ms)`. -/
structure LedgerRow where
  name : CStr
  applied_ts_ms : Int
deriving DecidableEq, Repr

/-- Content of one sidecar database.  `schema` lists the migration statements whose effect
is part of the database, oldest first; `ledger` is `none` while table `schema_migrations`
does not exist. -/
structure Db where
  schema : List String
  ledger : Option (List LedgerRow)
  snapshots : List Snapshot
deriving DecidableEq, Repr

/-- A database file that was just created. -/
def Db.empty : Db := ⟨[], none, []⟩

/-- The statements the code passes to `sqlite3_exec`. -/
inductive Stmt where
  | begin_immediate
  | commit
  | rollback
  | create_ledger
  | trim (limit : Nat)
  | pragma (text : String)
  | migration (sql : String)
deriving DecidableEq, Repr

/-- An open connection: the committed database, the working copy of the open transaction
(if any), and the list of statements passed to `sqlite3_exec` so far (oldest first). -/
structure Conn where
  db : Db
  txn : Option Db
  trace : List Stmt
deriving DecidableEq, Repr

/-- The content a statement on this connection sees. -/
def Conn.view (c : Conn) : Db := c.txn.getD c.db

/-- Replace the visible content: inside a transaction only the working copy changes,
outside one the statement commits on its own. -/
def Conn.write (c : Conn) (d : Db) : Conn :=
  match c.txn with
  | some _ => { c with txn := some d }
  | none => { c with db := d }

/-- A connection as `sqlite3_open_v2` returns it. -/
def Conn.onDb (d : Db) : Conn := ⟨d, none, []⟩

/-- Order of `ORDER BY id DESC`. -/
def idDesc (a b : Snapshot) : Prop := b.id ≤ a.id

instance : DecidableRel idDesc := fun a b => inferInstanceAs (Decidable (b.id ≤ a.id))

instance : IsTotal Snapshot idDesc := ⟨fun a b => by unfold idDesc; omega⟩

instance : IsTrans Snapshot idDesc := ⟨fun a b c => by unfold idDesc; omega⟩

/-- Rows in the order `ORDER BY id DESC` delivers them. -/
def orderByIdDesc (rows : List Snapshot) : List Snapshot :=
  rows.insertionSort idDesc

/-- Rows with `tag IS NULL`. -/
def untagged (rows : List Snapshot) : List Snapshot :=
  rows.filter (fun r => r.tag.isNone)

/-- Result of `SELECT id FROM snapshots WHERE tag IS NULL ORDER BY id DESC LIMIT limit`. -/
def recentUntaggedIds (limit : Nat) (rows : List Snapshot) : List Int :=
  ((orderByIdDesc (untagged rows)).take limit).map (fun r => r.id)

/-- Effect of `DELETE FROM snapshots WHERE tag IS NULL AND id NOT IN (SELECT id FROM
snapshots WHERE tag IS NULL ORDER BY id DESC LIMIT limit)`: the rows that stay. -/
def trimRows (limit : Nat) (rows : List Snapshot) : List Snapshot :=
  rows.filter (fun r => !(r.tag.isNone && !((recentUntaggedIds limit rows).contains r.id)))

/-- Largest id in the table, `none` for an empty table. -/
def maxId : List Snapshot → Option Int
  | [] => none
  | r :: rs =>
      match maxId rs with
      | none => some r.id
      | some m => some (max r.id m)

/-- Largest row id of a SQLite table, `2^63 - 1`. -/
def MAX_ROWID : Int := 9223372036854775807

/-- No row of the table has the largest row id: every id is below `2^63 - 1`. -/
def RowIdsBelowMax (rows : List Snapshot) : Prop := ∀ r ∈ rows, r.id < MAX_ROWID

instance (rows : List Snapshot) : Decidable (RowIdsBelowMax rows) :=
  inferInstanceAs (Decidable (∀ r ∈ rows, r.id < MAX_ROWID))

/-- One more than the largest id in the table, `1` for an empty table. -/
def sequentialRowId (rows : List Snapshot) : Int :=
  match maxId rows with
  | some m => m + 1
  | none => 1

/-- Row id SQLite gives to a row inserted without an explicit id into a table declared
`id INTEGER PRIMARY KEY` (no `AUTOINCREMENT`): `1` for an empty table, and one more than
the largest id while that is below `2^63 - 1`.  Once the largest id is `2^63 - 1` the
engine tries positive ids at random and takes one that is not in use; `random_rowid` is
the candidate its search ends with.  The result is `none` when that candidate is no
unused positive id: the engine found none and the `INSERT` fails with `SQLITE_FULL`. -/
def nextRowId (random_rowid : Int) (rows : List Snapshot) : Option Int :=
  match maxId rows with
  | none => some 1
  | some m =>
      if m < MAX_ROWID then some (m + 1)
      else if 1 ≤ random_rowid ∧ random_rowid ≤ MAX_ROWID ∧
          random_rowid ∉ rows.map (fun r => r.id) then some random_rowid
      else none

/-- Embedding of `sqlite_sram_exec` (lines 71-82): run one statement, report success.
`fails` says whether SQLite reports an error for reasons outside the model. -/
def sqlite_sram_exec (fails : Bool) (c : Conn) (s : Stmt) : Bool × Conn :=
  let c := { c with trace := c.trace ++ [s] }
  match s with
  | .begin_immediate =>
      if fails || c.txn.isSome then (false, c) else (true, { c with txn := some c.db })
  | .commit =>
      match c.txn with
      | none => (false, c)
      | some d => if fails then (false, c) else (true, { c with db := d, txn := none })
  | .rollback =>
      (c.txn.isSome, { c with txn := none })
  | .create_ledger =>
      if fails then (false, c)
      else match c.view.ledger with
        | some _ => (true, c)
        | none => (true, c.write { c.view with ledger := some [] })
  | .trim limit =>
      if fails then (false, c)
      else (true, c.write { c.view with snapshots := trimRows limit c.view.snapshots })
  | .pragma _ =>
      (!fails, c)
  | .migration sql =>
      if fails then (false, c)
      else (true, c.write { c.view with schema := c.view.schema ++ [sql] })

/-! ## Snapshot store -/

/-- Failures that can hit the SQLite calls of `sqlite_sram_insert`, and the candidate the
engine ends with when it has to pick the row id at random (see `nextRowId`). -/
structure InsertFaults where
  begin_fails : Bool
  prepare_fails : Bool
  step_fails : Bool
  trim_fails : Bool
  commit_fails : Bool
  random_rowid : Int
deriving DecidableEq, Repr

/-- No call fails.  The candidate `0` is no valid row id: an `INSERT` that has to pick its
row id at random finds none. -/
def InsertFaults.none : InsertFaults := ⟨false, false, false, false, false, 0⟩

/-- Effect of a successful `INSERT INTO snapshots(ts_ms, crc32, sram) VALUES(?, ?, ?)`:
a new row with the id the engine assigned and `tag` at its default `NULL`. -/
def insertSnapshotRow (c : Conn) (id ts_ms crc : Int) (data : Bytes) : Conn :=
  c.write { c.view with
    snapshots := c.view.snapshots ++ [⟨id, ts_ms, crc, data, none⟩] }

/-- Embedding of `sqlite_sram_insert` (lines 250-292).  `now` is the value of
`sqlite_sram_timestamp_ms()`.  The step of the `INSERT` can fail for engine reasons and
also when the column constraint `sram BLOB NOT NULL` rejects the bound value:
`sqlite3_bind_blob` binds `NULL` when `data.data()` is a null pointer, which an empty
vector may return.  `step_fails` covers both.  The step also fails when the engine finds
no row id for the new row (`nextRowId`). -/
def sqlite_sram_insert (f : InsertFaults) (now : Int) (c : Conn) (data : Bytes) :
    Bool × Conn :=
  let b := sqlite_sram_exec f.begin_fails c .begin_immediate
  if !b.1 then (false, b.2)
  else
    let data_crc := sqlite_sram_crc32 data
    let s1 : Bool × Conn :=
      if f.prepare_fails then (false, b.2)
      else if f.step_fails then (false, b.2)
      else
        match nextRowId f.random_rowid b.2.view.snapshots with
        | none => (false, b.2)
        | some id => (true, insertSnapshotRow b.2 id now data_crc data)
    let s2 : Bool × Conn :=
      if s1.1 then sqlite_sram_exec f.trim_fails s1.2 (.trim SQLITE_SRAM_HISTORY_LIMIT)
      else s1
    let s3 : Bool × Conn :=
      if s2.1 then sqlite_sram_exec f.commit_fails s2.2 .commit else s2
    if !s3.1 then (false, (sqlite_sram_exec false s3.2 .rollback).2)
    else (true, s3.2)

/-- Value of `(uint32_t)sqlite3_column_int64(...)` for the `crc32` column of a row. -/
def storedCrc (r : Snapshot) : Nat := (r.crc32 % 2 ^ 32).toNat

/-- Failures that can hit the SQLite calls of `sqlite_sram_latest_matches`: preparing the
query, the call of `sqlite3_step`, and `sqlite3_column_blob` returning a null pointer for
the row delivered. -/
structure MatchFaults where
  prepare_fails : Bool
  step_fails : Bool
  blob_null : Bool
deriving DecidableEq, Repr

/-- No call fails. -/
def MatchFaults.none : MatchFaults := ⟨false, false, false⟩

/-- Embedding of `sqlite_sram_latest_matches` (lines 216-248); the result is the pair of
the return value and `*matches`.  The query is
`SELECT crc32, sram FROM snapshots ORDER BY id DESC LIMIT 1`. -/
def sqlite_sram_latest_matches (f : MatchFaults) (c : Conn) (data : Bytes) : Bool × Bool :=
  let data_crc := sqlite_sram_crc32 data
  if f.prepare_fails then (false, false)
  else if f.step_fails then (false, false)
  else
    match (orderByIdDesc c.view.snapshots).head? with
    | none => (true, false)
    | some r =>
        let stored_crc := storedCrc r
        let blob_size := r.sram.length
        if stored_crc = data_crc ∧ blob_size = data.length ∧
            (blob_size = 0 ∨
              (f.blob_null = false ∧ r.sram.take blob_size = data.take blob_size)) then
          (true, true)
        else (true, false)

/-- Failures that can hit `sqlite_sram_load_latest`: opening the file (both attempts),
preparing the query, the `k`-th call of `sqlite3_step`, and `sqlite3_column_blob` returning
a null pointer for the row delivered by the `k`-th step. -/
structure LoadFaults where
  open_fails : Bool
  prepare_fails : Bool
  step_fails : Nat → Bool
  blob_null : Nat → Bool

/-- No call fails. -/
def LoadFaults.none : LoadFaults := ⟨false, false, fun _ => false, fun _ => false⟩

/-- Outcome of the row loop: whether it ended without an engine error, and the row it
stopped at, if any. -/
structure ScanResult where
  ok : Bool
  row : Option Snapshot
deriving DecidableEq, Repr

/-- The `while (1)` loop of `sqlite_sram_load_latest` (lines 332-368) over the rows the
query still has to deliver, `k` being the number of `sqlite3_step` calls made so far. -/
def load_scan (f : LoadFaults) : Nat → List Snapshot → ScanResult
  | k, [] => if f.step_fails k then ⟨false, none⟩ else ⟨true, none⟩
  | k, r :: rest =>
      if f.step_fails k then ⟨false, none⟩
      else
        let blob_size := r.sram.length
        let stored_crc := storedCrc r
        if blob_size > 0 ∧ f.blob_null k then load_scan f (k + 1) rest
        else
          let calc_crc := sqlite_sram_crc32 r.sram
          if calc_crc ≠ stored_crc then load_scan f (k + 1) rest
          else ⟨true, some r⟩

/-- What `sqlite_sram_load_latest` hands back: the return value, `*found` and `data`. -/
structure LoadResult where
  ok : Bool
  found : Bool
  data : Bytes
deriving DecidableEq, Repr

/-- Embedding of `sqlite_sram_load_latest` (lines 294-379).  `file` is the content of the
database file at `db_path`, `none` when `stat` fails because the file does not exist. -/
def sqlite_sram_load_latest (f : LoadFaults) (file : Option Db) : LoadResult :=
  match file with
  | none => ⟨true, false, []⟩
  | some db =>
      if f.open_fails then ⟨false, false, []⟩
      else if f.prepare_fails then ⟨false, false, []⟩
      else
        let s := load_scan f 0 (orderByIdDesc db.snapshots)
        match s.row with
        | some r => ⟨s.ok, true, r.sram⟩
        | none => ⟨s.ok, false, []⟩

/-- The row `sqlite_sram_insert` writes when the engine assigns it the id `id`. -/
def insertedRowAt (id now : Int) (data : Bytes) : Snapshot :=
  ⟨id, now, sqlite_sram_crc32 data, data, none⟩

/-- The row `sqlite_sram_insert` writes into a table holding `rows` none of which has the
largest row id: its id is one more than the largest id in use. -/
def insertedRow (now : Int) (rows : List Snapshot) (data : Bytes) : Snapshot :=
  ⟨sequentialRowId rows, now, sqlite_sram_crc32 data, data, none⟩

/-- A table listed by ascending id. -/
def Ascending (rows : List Snapshot) : Prop := rows.Pairwise (fun a b => a.id < b.id)

/-- One call of `sqlite_sram_insert` for each element of `datas`, in order, no call
failing: the connection afterwards and the rows written, oldest first. -/
def insertAll (now : Int) : Conn → List Bytes → Conn × List Snapshot
  | c, [] => (c, [])
  | c, B :: rest =>
      let r := sqlite_sram_insert InsertFaults.none now c B
      let out := insertAll now r.2 rest
      (out.1, insertedRow now c.db.snapshots B :: out.2)

/-- A row passes the integrity check of `sqlite_sram_load_latest` when the CRC32 recomputed
over its payload equals the stored one. -/
def Snapshot.intact (r : Snapshot) : Prop := sqlite_sram_crc32 r.sram = storedCrc r

instance (r : Snapshot) : Decidable r.intact :=
  inferInstanceAs (Decidable (sqlite_sram_crc32 r.sram = storedCrc r))

/-! ## Migration engine -/

/-- Failures that can hit the SQLite calls made for one migration: the ledger query of
`sqlite_sram_migration_applied`, `BEGIN IMMEDIATE`, the migration SQL, the ledger insert of
`sqlite_sram_record_migration`, and `COMMIT`. -/
structure MigrationFaults where
  query_fails : Bool
  begin_fails : Bool
  sql_fails : Bool
  record_fails : Bool
  commit_fails : Bool
deriving DecidableEq, Repr

/-- No call fails. -/
def MigrationFaults.none : MigrationFaults := ⟨false, false, false, false, false⟩

/-- Whether one of the calls that apply a migration fails. -/
def MigrationFaults.any_step (f : MigrationFaults) : Bool :=
  f.begin_fails || f.sql_fails || f.record_fails || f.commit_fails

/-- Environment of one run of `sqlite_sram_apply_migrations`: the failure of the
`CREATE TABLE IF NOT EXISTS schema_migrations` statement, the failures met while handling
the migration of a given name, and the value of `sqlite_sram_timestamp_ms()` when that
migration is recorded. -/
structure ApplyEnv where
  create_fails : Bool
  faults : CStr → MigrationFaults
  clock : CStr → Int

/-- Nothing fails and the clock reads `0`. -/
def ApplyEnv.none : ApplyEnv := ⟨false, fun _ => MigrationFaults.none, fun _ => 0⟩

/-- Embedding of `sqlite_sram_migration_applied` (lines 84-106); the result is the pair of
the return value and `*applied`.  Preparing the query fails when the ledger table does not
exist. -/
def sqlite_sram_migration_applied (fails : Bool) (c : Conn) (name : CStr) : Bool × Bool :=
  match c.view.ledger with
  | none => (false, false)
  | some rows =>
      if fails then (false, false)
      else (true, rows.any (fun r => r.name == name))

/-- Embedding of `sqlite_sram_record_migration` (lines 108-123).  The step fails when the
primary key `name` is already present. -/
def sqlite_sram_record_migration (fails : Bool) (now : Int) (c : Conn) (name : CStr) :
    Bool × Conn :=
  match c.view.ledger with
  | none => (false, c)
  | some rows =>
      if fails || rows.any (fun r => r.name == name) then (false, c)
      else (true, c.write { c.view with ledger := some (rows ++ [⟨name, now⟩]) })

/-- Comparator of the sort, `strcmp(a->name, b->name) < 0`. -/
def nameLt (a b : sqlite_sram_migration_t) : Prop := strcmp a.name b.name < 0

instance : DecidableRel nameLt :=
  fun a b => inferInstanceAs (Decidable (strcmp a.name b.name < 0))

/-- Order in which `std::sort` leaves two entries: the comparator does not put the second
before the first. -/
def nameLe (a b : sqlite_sram_migration_t) : Prop := ¬ nameLt b a

instance : DecidableRel nameLe := fun a b => inferInstanceAs (Decidable (¬ nameLt b a))

/-- The vector `ordered` after `std::sort` (lines 131-141).  (`std::sort` may leave entries
of equal name in either order; the duplicate check stops the run in that case.) -/
def orderedMigrations (ms : List sqlite_sram_migration_t) : List sqlite_sram_migration_t :=
  ms.insertionSort nameLe

/-- The duplicate check (lines 143-150): whether two neighbours of the sorted vector have
the same name. -/
def hasDuplicateName : List sqlite_sram_migration_t → Bool
  | a :: b :: rest => decide (strcmp a.name b.name = 0) || hasDuplicateName (b :: rest)
  | _ => false

/-- The loop over `ordered` (lines 152-174). -/
def apply_loop (env : ApplyEnv) : Conn → List sqlite_sram_migration_t → Bool × Conn
  | c, [] => (true, c)
  | c, m :: rest =>
      let f := env.faults m.name
      let q := sqlite_sram_migration_applied f.query_fails c m.name
      if !q.1 then (false, c)
      else if q.2 then apply_loop env c rest
      else
        let b := sqlite_sram_exec f.begin_fails c .begin_immediate
        if !b.1 then (false, b.2)
        else
          let e := sqlite_sram_exec f.sql_fails b.2 (.migration m.sql)
          let r := if e.1 then sqlite_sram_record_migration f.record_fails (env.clock m.name)
                      e.2 m.name
                   else e
          let k := if r.1 then sqlite_sram_exec f.commit_fails r.2 .commit else r
          if !k.1 then (false, (sqlite_sram_exec false k.2 .rollback).2)
          else apply_loop env k.2 rest

/-- Embedding of `sqlite_sram_apply_migrations` (lines 125-177), with the table
`g_sqlite_sram_migrations` passed as `ms`. -/
def sqlite_sram_apply_migrations (env : ApplyEnv) (ms : List sqlite_sram_migration_t)
    (c : Conn) : Bool × Conn :=
  let e := sqlite_sram_exec env.create_fails c .create_ledger
  if !e.1 then (false, e.2)
  else
    let ordered := orderedMigrations ms
    if hasDuplicateName ordered then (false, e.2)
    else apply_loop env e.2 ordered

/-- Names recorded in the ledger a connection sees. -/
def Db.ledgerNames (d : Db) : List CStr := (d.ledger.getD []).map (fun r => r.name)

/-- Rows of the ledger, the empty list while the table does not exist. -/
def Db.ledgerRows (d : Db) : List LedgerRow := d.ledger.getD []

/-- The migrations a run has to apply on a database: those of the sorted vector whose name
is not in the ledger. -/
def pendingMigrations (ms : List sqlite_sram_migration_t) (d : Db) :
    List sqlite_sram_migration_t :=
  (orderedMigrations ms).filter (fun m => !(d.ledgerNames.contains m.name))

/-- The statements passed to `sqlite3_exec` that are migration SQL. -/
def migrationStmts (tr : List Stmt) : List String :=
  tr.filterMap (fun s => match s with
    | .migration sql => some sql
    | _ => none)

/-- The ledger row `sqlite_sram_record_migration` writes for a migration. -/
def ledgerRowOf (env : ApplyEnv) (m : sqlite_sram_migration_t) : LedgerRow :=
  ⟨m.name, env.clock m.name⟩

/-- Summary of one run of the loop over the sorted vector: its result, the migrations it
committed, and the migrations whose SQL it passed to `sqlite3_exec`. -/
structure LoopPlan where
  ok : Bool
  applied : List sqlite_sram_migration_t
  attempted : List sqlite_sram_migration_t
deriving DecidableEq, Repr

/-- The summary of the loop read off the failure flags and the names already in the
ledger, without running the loop; `apply_loop_plan` proves that the loop follows it. -/
def loopPlan (env : ApplyEnv) (names : List CStr) : List sqlite_sram_migration_t → LoopPlan
  | [] => ⟨true, [], []⟩
  | m :: rest =>
      let f := env.faults m.name
      if f.query_fails then ⟨false, [], []⟩
      else if names.contains m.name then loopPlan env names rest
      else if f.begin_fails then ⟨false, [], []⟩
      else if f.sql_fails || f.record_fails || f.commit_fails then ⟨false, [], [m]⟩
      else
        let p := loopPlan env names rest
        ⟨p.ok, m :: p.applied, m :: p.attempted⟩

/-! ## Slots and the flush scheduler -/

/-- Largest `int`, `INT_MAX`. -/
def INT_MAX : Int := 2147483647

/-- Largest `uint32_t`, `UINT32_MAX`. -/
def UINT32_MAX : Nat := 4294967295

/-- Modelled from the spec: `fileTYPE` of `file_io.h` (not under src/), the random-access
backing-store handle: the fields the code reads or writes (`filp` as the fact of being
non-null) and `content`, the bytes of the file behind the handle. -/
structure fileTYPE where
  filp : Bool
  size : Int
  offset : Int
  type : Nat
  path : CStr
  content : Bytes
deriving DecidableEq, Repr

/-- One slot record, `sqlite_sram_slot_t` (lines 27-35); `img = none` is the null
pointer. -/
structure sqlite_sram_slot_t where
  enabled : Bool
  dirty : Bool
  flush_timer : Nat
  img : Option fileTYPE
  save_path : CStr
  db_path : CStr
deriving DecidableEq, Repr

/-- A zeroed slot record. -/
def sqlite_sram_slot_t.zero : sqlite_sram_slot_t := ⟨false, false, 0, none, [], []⟩

/-- The state the module works on: the array `g_slots` (only indices below
`SQLITE_SRAM_MAX_SLOTS` are ever used) and the sidecar database files by path, `none` for
a path without a file. -/
structure World where
  g_slots : Nat → sqlite_sram_slot_t
  files : CStr → Option Db

/-- Store a slot record. -/
def World.setSlot (w : World) (slot : Nat) (s : sqlite_sram_slot_t) : World :=
  { w with g_slots := fun i => if i = slot then s else w.g_slots i }

/-- Store the content of a database file. -/
def World.setFile (w : World) (path : CStr) (d : Option Db) : World :=
  { w with files := fun p => if p = path then d else w.files p }

/-- Collaborators of the scheduler: the timer primitive `GetTimer` of `hardware.h` and the
two configuration values `cfg.sqlite_sram_enable` and `cfg.sqlite_sram_autosave_interval`
(none of them under src/), taken as parameters. -/
structure Env where
  GetTimer : Nat → Nat
  sqlite_sram_enable : Nat
  sqlite_sram_autosave_interval : Nat

/-- Embedding of `sqlite_sram_interval_ms` (lines 50-56). -/
def sqlite_sram_interval_ms (env : Env) : Nat :=
  let interval_sec := env.sqlite_sram_autosave_interval % 2 ^ 32
  let interval_sec := if interval_sec = 0 then 300 else interval_sec
  let interval_sec :=
    if interval_sec > UINT32_MAX / 1000 then UINT32_MAX / 1000 else interval_sec
  (interval_sec * 1000) % 2 ^ 32

/-- Embedding of `sqlite_sram_runtime_enabled` (lines 732-739), compiled with
`SQLITE_SRAM_SNAPSHOTS`. -/
def sqlite_sram_runtime_enabled (env : Env) : Bool :=
  decide (env.sqlite_sram_enable ≠ 0)

/-- Failures that can hit the file calls of `sqlite_sram_read_image`: `FileSeek` to the
start, and `FileReadAdv` returning fewer bytes than asked for. -/
structure ReadFaults where
  seek_fails : Bool
  read_fails : Bool
deriving DecidableEq, Repr

/-- No call fails. -/
def ReadFaults.none : ReadFaults := ⟨false, false⟩

/-- Modelled from the spec: `FileReadAdv` of `file_io.h` (not under src/), the byte-exact
read primitive, called at offset `0`: the bytes read, at most `length` of them, none when
the call fails. -/
def FileReadAdv (fails : Bool) (img : fileTYPE) (length : Nat) : Bytes :=
  if fails then [] else img.content.take length

/-- Embedding of `sqlite_sram_read_image` (lines 381-407): the return value and `data`. -/
def sqlite_sram_read_image (f : ReadFaults) (img : Option fileTYPE) : Bool × Bytes :=
  match img with
  | none => (false, [])
  | some im =>
      if !im.filp then (false, [])
      else if im.size < 0 ∨ im.size > INT_MAX then (false, [])
      else
        let image_size := im.size.toNat
        if f.seek_fails then (false, [])
        else if image_size > 0 then
          let got := FileReadAdv f.read_fails im image_size
          if got.length = image_size then (true, got) else (false, [])
        else (true, [])

/-- Failures that can hit `sqlite_sram_open_db`: `sqlite3_open_v2`, the `k`-th `PRAGMA`
of `sqlite_sram_prepare_db`, and the run of the migrations. -/
structure OpenFaults where
  open_fails : Bool
  pragma_fails : Nat → Bool
  apply : ApplyEnv

/-- No call fails. -/
def OpenFaults.none : OpenFaults := ⟨false, fun _ => false, ApplyEnv.none⟩

/-- Embedding of `sqlite_sram_prepare_db` (lines 179-187). -/
def sqlite_sram_prepare_db (f : OpenFaults) (c : Conn) : Bool × Conn :=
  let p0 := sqlite_sram_exec (f.pragma_fails 0) c (.pragma "journal_mode=PERSIST")
  if !p0.1 then (false, p0.2)
  else
    let p1 := sqlite_sram_exec (f.pragma_fails 1) p0.2 (.pragma "synchronous=FULL")
    if !p1.1 then (false, p1.2)
    else
      let p2 := sqlite_sram_exec (f.pragma_fails 2) p1.2 (.pragma "auto_vacuum=NONE")
      if !p2.1 then (false, p2.2)
      else
        let p3 := sqlite_sram_exec (f.pragma_fails 3) p2.2 (.pragma "temp_store=MEMORY")
        if !p3.1 then (false, p3.2)
        else
          let p4 := sqlite_sram_exec (f.pragma_fails 4) p3.2
            (.pragma "journal_size_limit=1048576")
          if !p4.1 then (false, p4.2)
          else sqlite_sram_apply_migrations f.apply g_sqlite_sram_migrations p4.2

/-- Embedding of `sqlite_sram_open_db` (lines 189-214).  `file` is the content of the
database file at `db_path` before the call.  The result is the open connection (`none`
when the call returns `false`) and the content of the file after the call; the flags
`SQLITE_OPEN_READWRITE | SQLITE_OPEN_CREATE` create a missing file, and a connection closed
on the failure path leaves what it committed. -/
def sqlite_sram_open_db (f : OpenFaults) (file : Option Db) (db_path : CStr) :
    Option Conn × Option Db :=
  if db_path.length = 0 then (none, file)
  else if f.open_fails then (none, file)
  else
    let tmp_db := Conn.onDb (file.getD Db.empty)
    let p := sqlite_sram_prepare_db f tmp_db
    if !p.1 then (none, some p.2.db)
    else (some p.2, some p.2.db)

/-- Everything outside the program that one flush attempt depends on: the failures of its
calls and the value of `sqlite_sram_timestamp_ms()` for the row it may insert. -/
structure FlushFaults where
  read : ReadFaults
  opening : OpenFaults
  compare : MatchFaults
  insert : InsertFaults
  now : Int

/-- No call fails and the clock reads `0`. -/
def FlushFaults.none : FlushFaults :=
  ⟨ReadFaults.none, OpenFaults.none, MatchFaults.none, InsertFaults.none, 0⟩

/-- The slot record after a failed attempt: `flush_timer = GetTimer(SQLITE_SRAM_RETRY_MS)`,
nothing else changed. -/
def retryLater (env : Env) (state : sqlite_sram_slot_t) : sqlite_sram_slot_t :=
  { state with flush_timer := env.GetTimer SQLITE_SRAM_RETRY_MS % 2 ^ 32 }

/-- Embedding of `sqlite_sram_try_flush` (lines 679-717). -/
def sqlite_sram_try_flush (env : Env) (f : FlushFaults) (w : World) (slot : Nat) : World :=
  if slot ≥ SQLITE_SRAM_MAX_SLOTS then w
  else
    let state := w.g_slots slot
    if !state.enabled || !state.dirty || state.img.isNone then w
    else
      let rd := sqlite_sram_read_image f.read state.img
      if !rd.1 then w.setSlot slot (retryLater env state)
      else
        let o := sqlite_sram_open_db f.opening (w.files state.db_path) state.db_path
        match o.1 with
        | none => (w.setFile state.db_path o.2).setSlot slot (retryLater env state)
        | some db =>
            let lm := sqlite_sram_latest_matches f.compare db rd.2
            let ins : Bool × Conn :=
              if lm.1 && !lm.2 then sqlite_sram_insert f.insert f.now db rd.2
              else (lm.1, db)
            let w1 := w.setFile state.db_path (some ins.2.db)
            if !ins.1 then w1.setSlot slot (retryLater env state)
            else w1.setSlot slot { state with dirty := false, flush_timer := 0 }

/-- Embedding of `sqlite_sram_mark_save_dirty` (lines 865-879). -/
def sqlite_sram_mark_save_dirty (env : Env) (w : World) (slot : Nat) : World :=
  if !sqlite_sram_runtime_enabled env then w
  else if slot ≥ SQLITE_SRAM_MAX_SLOTS then w
  else
    let state := w.g_slots slot
    if !state.enabled then w
    else
      w.setSlot slot { state with
        dirty := true
        flush_timer :=
          if state.flush_timer = 0 then env.GetTimer (sqlite_sram_interval_ms env) % 2 ^ 32
          else state.flush_timer }

/-- The first step of a flush attempt on a slot: the result of reading its image. -/
def flush_read (f : FlushFaults) (w : World) (slot : Nat) : Bool × Bytes :=
  sqlite_sram_read_image f.read (w.g_slots slot).img

/-- The second step of a flush attempt on a slot: the result of opening its database. -/
def flush_open (f : FlushFaults) (w : World) (slot : Nat) : Option Conn × Option Db :=
  sqlite_sram_open_db f.opening (w.files (w.g_slots slot).db_path) (w.g_slots slot).db_path

/-- The rows of `snapshots` in the database file at a path, none when there is no file. -/
def World.snapshotsAt (w : World) (path : CStr) : List Snapshot :=
  ((w.files path).getD Db.empty).snapshots

/-- Whether every step of a flush attempt on a slot succeeds: reading the image, opening
the database, comparing with the latest row and, if that row differs, inserting. -/
def flush_steps_ok (f : FlushFaults) (w : World) (slot : Nat) : Bool :=
  (flush_read f w slot).1 &&
    match (flush_open f w slot).1 with
    | none => false
    | some db =>
        if (sqlite_sram_latest_matches f.compare db (flush_read f w slot).2).1 &&
            !(sqlite_sram_latest_matches f.compare db (flush_read f w slot).2).2
        then (sqlite_sram_insert f.insert f.now db (flush_read f w slot).2).1
        else (sqlite_sram_latest_matches f.compare db (flush_read f w slot).2).1

/-- Two flush attempts on a slot in a row, the slot being marked dirty in between. -/
def flushTwice (env : Env) (f1 f2 : FlushFaults) (w : World) (slot : Nat) : World :=
  sqlite_sram_try_flush env f2
    (sqlite_sram_mark_save_dirty env (sqlite_sram_try_flush env f1 w slot) slot) slot

/-! ## Autosave trigger detector -/

/-- The C library function `tolower` in the `"C"` locale, on an `unsigned char` value. -/
def tolower (c : Nat) : Nat := if 65 ≤ c ∧ c ≤ 90 then c + 32 else c

/-- The inner `while` of `sqlite_sram_ci_contains` started at one position of the text:
whether it runs to the end of the needle.  The first argument is the text from that
position on, the second what is left of the needle. -/
def ci_match_here : CStr → CStr → Bool
  | _, [] => true
  | [], _ :: _ => false
  | t :: ts, n :: ns => if tolower t = tolower n then ci_match_here ts ns else false

/-- The `for` loop of `sqlite_sram_ci_contains` over the start positions of the text. -/
def ci_scan (needle : CStr) : CStr → Bool
  | [] => false
  | t :: ts => if ci_match_here (t :: ts) needle then true else ci_scan needle ts

/-- Embedding of `sqlite_sram_ci_contains` (lines 547-559). -/
def sqlite_sram_ci_contains (text needle : CStr) : Bool :=
  if needle.length = 0 then false else ci_scan needle text

/-- The statement `if (cond) score += delta;`. -/
def add_if (cond : Bool) (delta : Int) (score : Int) : Int :=
  if cond then score + delta else score

/-- Embedding of `sqlite_sram_export_trigger_score` (lines 561-594). -/
def sqlite_sram_export_trigger_score (label : CStr) : Int :=
  if label.length = 0 then -1000
  else
    let has_load := sqlite_sram_ci_contains label (cstr "load") ||
      sqlite_sram_ci_contains label (cstr "restore")
    if has_load then -1000
    else
      let has_save := sqlite_sram_ci_contains label (cstr "save")
      let has_write := sqlite_sram_ci_contains label (cstr "write")
      let has_sram := sqlite_sram_ci_contains label (cstr "sram")
      let has_nvram := sqlite_sram_ci_contains label (cstr "nvram")
      let has_backup_ram := sqlite_sram_ci_contains label (cstr "backup ram")
      let has_memory_card := sqlite_sram_ci_contains label (cstr "memory card") ||
        sqlite_sram_ci_contains label (cstr "memcard")
      let has_save_ram := sqlite_sram_ci_contains label (cstr "save ram")
      let has_storage :=
        has_sram || has_nvram || has_backup_ram || has_memory_card || has_save_ram
      if !(has_save || has_write) then -1000
      else if !(has_storage || has_sram || has_nvram) then -1000
      else
        let score : Int := 0
        let score := add_if has_save 100 score
        let score := add_if has_write 80 score
        let score := add_if has_sram 30 score
        let score := add_if has_nvram 30 score
        let score := add_if has_backup_ram 30 score
        let score := add_if has_memory_card 20 score
        let score := add_if has_save_ram 20 score
        let score := add_if (sqlite_sram_ci_contains label (cstr "state")) (-80) score
        let score := add_if (sqlite_sram_ci_contains label (cstr "setting")) (-80) score
        let score := add_if (sqlite_sram_ci_contains label (cstr "config")) (-80) score
        score

/-- The text `snprintf(dst, size, "%s", src)` leaves in `dst`: at most `size - 1` bytes. -/
def snprintf_s (size : Nat) (src : CStr) : CStr := src.take (size - 1)

/-- The `while` of line 608: skip leading two-byte `H`/`D`/`h`/`d` markers while more than
two bytes are left. -/
def skip_markers : CStr → CStr
  | a :: b :: c :: rest =>
      if a = 72 ∨ a = 68 ∨ a = 104 ∨ a = 100 then skip_markers (c :: rest)
      else a :: b :: c :: rest
  | e => e

/-- Line 609: skip a two-byte `P` prefix unless a comma follows it. -/
def skip_page (entry : CStr) : CStr :=
  if entry.head? = some 80 ∧ entry.length > 2 ∧ entry.get? 2 ≠ some 44 then entry.drop 2
  else entry

/-- The running best of `sqlite_sram_find_export_trigger`: `best_score`, `best_opt`,
`best_label`, `best_ex`. -/
structure Best where
  score : Int
  opt : CStr
  label : CStr
  ex : Bool
deriving DecidableEq, Repr

/-- What the body of the loop extracts from one descriptor before it compares scores:
`none` where the body leaves by `continue` (wrong control type, rejected label, empty option
id), otherwise the score, `opt`, `label` and `ex`.  `substrcpy` is the field extractor of
`user_io.h` (not under src/), taken as a parameter: `substrcpy s idx` is the text
`substrcpy(dst, s, idx)` writes. -/
def trigger_candidate (substrcpy : CStr → Nat → CStr) (entry0 : CStr) : Option Best :=
  let entry := skip_page (skip_markers entry0)
  if !(entry.head? = some 84 ∨ entry.head? = some 116 ∨ entry.head? = some 82 ∨
      entry.head? = some 114) then none
  else
    let label := substrcpy entry 1
    let score := sqlite_sram_export_trigger_score label
    if score ≤ -1000 then none
    else
      let ex := decide (entry.head? = some 116 ∨ entry.head? = some 114)
      let opt := substrcpy (entry.drop 1) 0
      if opt.length = 0 then none
      else some ⟨score, opt, label, ex⟩

/-- One pass through the body of the loop (lines 605-629). -/
def trigger_step (substrcpy : CStr → Nat → CStr) (best : Best) (entry : CStr) : Best :=
  match trigger_candidate substrcpy entry with
  | none => best
  | some cand =>
      if cand.score ≤ best.score then best
      else ⟨cand.score, snprintf_s 32 cand.opt, snprintf_s 96 cand.label, cand.ex⟩

/-- The three outputs of `sqlite_sram_find_export_trigger`. -/
structure Trigger where
  opt : CStr
  ex : Bool
  label : CStr
deriving DecidableEq, Repr

/-- Embedding of `sqlite_sram_find_export_trigger` (lines 596-638).  `entries` are the
descriptors `user_io_get_confstr(i)` returns for `i = 2, 3, ...` up to the first null
pointer; the result is `none` when the function returns `false`. -/
def sqlite_sram_find_export_trigger (substrcpy : CStr → Nat → CStr) (entries : List CStr)
    (opt_size label_size : Nat) : Option Trigger :=
  let best := entries.foldl (trigger_step substrcpy) ⟨-1000, [], [], false⟩
  if best.score ≤ -1000 then none
  else some ⟨snprintf_s opt_size best.opt, best.ex, snprintf_s label_size best.label⟩

/-- Modelled from the spec: `substrcpy` of `user_io.h` (not under src/), which splits the
descriptor text into its comma-separated fields and copies the field of the given index. -/
def substrcpy_field : CStr → Nat → CStr
  | [], _ => []
  | ch :: rest, 0 => if ch = 44 then [] else ch :: substrcpy_field rest 0
  | ch :: rest, idx + 1 =>
      if ch = 44 then substrcpy_field rest idx else substrcpy_field rest (idx + 1)

/-! ### The scoring rule as the specification words it -/

/-- Case-insensitive substring test: some stretch of the text equals the needle once both
are put in lower case. -/
def ciSubstring (text needle : CStr) : Prop :=
  (needle.map tolower) <:+: (text.map tolower)

instance (text needle : CStr) : Decidable (ciSubstring text needle) :=
  inferInstanceAs (Decidable ((needle.map tolower) <:+: (text.map tolower)))

/-- The scoring rule of the specification: reject (`-1000`) a label containing "load" or
"restore", or neither "save" nor "write", or none of the storage words; otherwise add the
weights of the words present and subtract 80 for each of "state", "setting", "config". -/
def scoreRule (label : CStr) : Int :=
  let has := fun (w : String) => ciSubstring label (cstr w)
  if has "load" ∨ has "restore" then -1000
  else if ¬ (has "save" ∨ has "write") then -1000
  else if ¬ (has "sram" ∨ has "nvram" ∨ has "backup ram" ∨ has "memory card" ∨
      has "memcard" ∨ has "save ram") then -1000
  else
    (if has "save" then 100 else 0) + (if has "write" then 80 else 0) +
    (if has "sram" then 30 else 0) + (if has "nvram" then 30 else 0) +
    (if has "backup ram" then 30 else 0) +
    (if has "memory card" ∨ has "memcard" then 20 else 0) +
    (if has "save ram" then 20 else 0) -
    (if has "state" then 80 else 0) - (if has "setting" then 80 else 0) -
    (if has "config" then 80 else 0)

/-! ## Writing the backing store -/

/-- Modelled from the spec: `FileSeek(img, offset, SEEK_SET)` of `file_io.h` (not under
src/), the seek primitive: the return value and the handle afterwards. -/
def FileSeek (fails : Bool) (img : fileTYPE) (offset : Int) : Bool × fileTYPE :=
  if fails then (false, img) else (true, { img with offset := offset })

/-- Content of a file after `bytes` are written at position `offset`: the bytes before
stay, a gap is filled with zeros, the bytes behind the written stretch stay. -/
def writeAt (content : Bytes) (offset : Nat) (bytes : Bytes) : Bytes :=
  content.take offset ++ List.replicate (offset - content.length) 0 ++ bytes ++
    content.drop (offset + bytes.length)

/-- Modelled from the spec: `FileWriteAdv(img, buf, length, -1)` of `file_io.h` (not under
src/), the byte-exact write primitive: it writes the buffer at the current offset and
moves the offset behind it; the result is the number of bytes written, `-1` when the call
fails, and the handle afterwards. -/
def FileWriteAdv (fails : Bool) (img : fileTYPE) (buf : Bytes) : Int × fileTYPE :=
  if fails then (-1, img)
  else
    (buf.length,
      { img with
        content := writeAt img.content img.offset.toNat buf
        offset := img.offset + buf.length
        size := max img.size (img.offset + buf.length) })

/-- Modelled from the spec: `FileClose` of `file_io.h` (not under src/): the handle has no
open file any more. -/
def FileClose (img : fileTYPE) : fileTYPE := { img with filp := false }

/-- Modelled from the spec: `FileOpenEx(img, path, O_CREAT | O_RDWR | O_TRUNC | O_SYNC, 1,
0)` of `file_io.h` (not under src/), which creates or truncates the file: on success the
handle is an open regular file of length zero. -/
def FileOpenEx_trunc (fails : Bool) (img : fileTYPE) : Bool × fileTYPE :=
  if fails then (false, { img with filp := false })
  else (true, ⟨true, 0, 0, 0, img.path, []⟩)

/-- Failures that can hit the file calls of one write to the backing store: the `FileSeek`
before it, the `k`-th `FileWriteAdv`, and the `FileSeek` back to the start. -/
structure WriteFaults where
  seek_fails : Bool
  write_fails : Nat → Bool
  seek_back_fails : Bool

/-- No call fails. -/
def WriteFaults.none : WriteFaults := ⟨false, fun _ => false, false⟩

/-- Embedding of `sqlite_sram_write_image` (lines 409-421) for a handle that is not null
(its only caller has checked that): the return value and the handle afterwards. -/
def sqlite_sram_write_image (f : WriteFaults) (img : fileTYPE) (data : Bytes) :
    Bool × fileTYPE :=
  if !img.filp then (false, img)
  else
    let s := FileSeek f.seek_fails img 0
    if !s.1 then (false, s.2)
    else
      let w : Bool × fileTYPE :=
        if data.length ≠ 0 then
          let r := FileWriteAdv (f.write_fails 0) s.2 data
          (decide (r.1 = data.length), r.2)
        else (true, s.2)
      if !w.1 then (false, w.2)
      else FileSeek f.seek_back_fails w.2 0

/-- Size of the buffer `ff_buf`. -/
def FF_BUF_SIZE : Nat := 4096

/-- The loop `while (remaining > 0)` that writes `0xFF` in chunks of at most
`sizeof(ff_buf)` bytes (lines 437-442 and 814-824).  The first argument bounds the number
of passes still allowed; every pass writes at least one byte, so a bound of `remaining`
is never used up (`ff_loop_fuel`).  `k` counts the calls of `FileWriteAdv` made so far. -/
def ff_loop (write_fails : Nat → Bool) : Nat → Nat → fileTYPE → Nat → Bool × fileTYPE
  | 0, _, img, remaining => (decide (remaining = 0), img)
  | fuel + 1, k, img, remaining =>
      if remaining > 0 then
        let chunk := if remaining > FF_BUF_SIZE then FF_BUF_SIZE else remaining
        let r := FileWriteAdv (write_fails k) img (List.replicate chunk 255)
        if r.1 ≠ chunk then (false, r.2)
        else ff_loop write_fails fuel (k + 1) r.2 (remaining - chunk)
      else (true, img)

/-- Embedding of `sqlite_sram_fill_ff` (lines 423-445) for a handle that is not null: the
return value and the handle afterwards. -/
def sqlite_sram_fill_ff (f : WriteFaults) (img : fileTYPE) (total_bytes : Int) :
    Bool × fileTYPE :=
  if !img.filp || decide (total_bytes ≤ 0) then (false, img)
  else
    let s := FileSeek f.seek_fails img 0
    if !s.1 then (false, s.2)
    else
      let l := ff_loop f.write_fails total_bytes.toNat 0 s.2 total_bytes.toNat
      if !l.1 then (false, l.2)
      else FileSeek f.seek_back_fails l.2 0

/-! ## Slot manager -/

/-- Embedding of `sqlite_sram_configure_slot` (lines 523-536); `none` is a null pointer. -/
def sqlite_sram_configure_slot (w : World) (slot : Nat) (img : Option fileTYPE)
    (save_path : Option CStr) : World :=
  if slot ≥ SQLITE_SRAM_MAX_SLOTS then w
  else
    let state : sqlite_sram_slot_t := { sqlite_sram_slot_t.zero with img := img }
    match save_path with
    | none => w.setSlot slot state
    | some path =>
        if path.length = 0 then w.setSlot slot state
        else
          w.setSlot slot { state with
            enabled := true
            save_path := snprintf_s 2048 path
            db_path := snprintf_s 2080 (path ++ cstr ".sqlite3") }

/-- Embedding of `sqlite_sram_run_db_migrations` (lines 507-521): the return value and
the content of the database file afterwards. -/
def sqlite_sram_run_db_migrations (f : OpenFaults) (file : Option Db) (db_path : CStr) :
    Bool × Option Db :=
  if db_path.length = 0 then (false, file)
  else if file.isNone then (true, file)
  else
    let o := sqlite_sram_open_db f file db_path
    (o.1.isSome, o.2)

/-- Everything outside the program that the legacy import depends on: the flat file at
`save_path` as `FileOpenEx` would open it (`none` when `FileExists` says there is none),
the failures of its calls, and the clock for the row it inserts. -/
structure LegacyFaults where
  legacy_file : Option fileTYPE
  open_fails : Bool
  read_fails : Bool
  opening : OpenFaults
  insert : InsertFaults
  now : Int

/-- No legacy file, no call fails. -/
def LegacyFaults.none : LegacyFaults :=
  ⟨Option.none, false, false, OpenFaults.none, InsertFaults.none, 0⟩

/-- Embedding of `sqlite_sram_migrate_legacy_save` (lines 447-505): the return value and
the content of the database file afterwards (`none` once `remove` has deleted it). -/
def sqlite_sram_migrate_legacy_save (f : LegacyFaults) (file : Option Db)
    (save_path db_path : CStr) : Bool × Option Db :=
  if save_path.length = 0 ∨ db_path.length = 0 then (true, file)
  else if file.isSome then (true, file)
  else
    match f.legacy_file with
    | none => (true, file)
    | some legacy_file =>
        if f.open_fails then (false, file)
        else if legacy_file.size < 0 ∨ legacy_file.size > INT_MAX then (false, file)
        else
          let legacy_size := legacy_file.size.toNat
          let rd : Bool × Bytes :=
            if legacy_size > 0 then
              let got := FileReadAdv f.read_fails legacy_file legacy_size
              (decide (got.length = legacy_size), got)
            else (true, [])
          if !rd.1 then (false, file)
          else
            let o := sqlite_sram_open_db f.opening file db_path
            match o.1 with
            | none => (false, o.2)
            | some db =>
                let ins := sqlite_sram_insert f.insert f.now db rd.2
                if !ins.1 then (false, none)
                else (true, some ins.2.db)

/-- Decimal digits of a `uint8_t`, as `%u` prints it. -/
def decimal (n : Nat) : CStr :=
  if n < 10 then [48 + n]
  else if n < 100 then [48 + n / 10, 48 + n % 10]
  else [48 + n / 100, 48 + n / 10 % 10, 48 + n % 10]

/-- Everything outside the program that one mount depends on: the failures of creating
the temporary file, of the migration check, of the legacy import, of loading the latest
snapshot, of restoring it, of padding it (seek, `k`-th chunk, seek back) and of filling a
fresh image. -/
structure MountFaults where
  open_tmp_fails : Bool
  migrations : OpenFaults
  legacy : LegacyFaults
  load : LoadFaults
  restore : WriteFaults
  pad : WriteFaults
  fill : WriteFaults

/-- No legacy file, no call fails. -/
def MountFaults.none : MountFaults :=
  ⟨false, OpenFaults.none, LegacyFaults.none, LoadFaults.none, WriteFaults.none,
    WriteFaults.none, WriteFaults.none⟩

/-- The content of the sidecar database file of a mount right before the latest snapshot
is loaded: after the migration check (lines 768-771) and the legacy import (lines
773-776). -/
def mount_prepared_file (m : MountFaults) (w : World) (save_path : CStr) : Option Db :=
  let db_path := snprintf_s 2080 (save_path ++ cstr ".sqlite3")
  let mg := sqlite_sram_run_db_migrations m.migrations (w.files db_path) db_path
  (sqlite_sram_migrate_legacy_save m.legacy mg.2 save_path db_path).2

/-- What `sqlite_sram_load_latest` returns inside a mount (lines 778-783). -/
def mount_latest (m : MountFaults) (w : World) (save_path : CStr) : LoadResult :=
  sqlite_sram_load_latest m.load (mount_prepared_file m w save_path)

/-- The failure exit of a mount after the temporary file was opened: `FileClose(img)`,
`sqlite_sram_configure_slot(slot, img, nullptr)`, `return false`. -/
def mount_abort (w : World) (slot : Nat) (img : fileTYPE) : Bool × World :=
  (false, sqlite_sram_configure_slot w slot (some (FileClose img)) none)

/-- The success exit of a mount: the slot, which points to the handle, sees the handle as
the mount left it. -/
def mount_done (w : World) (slot : Nat) (img : fileTYPE) : Bool × World :=
  (true, w.setSlot slot { w.g_slots slot with img := some img })

/-- The second half of `sqlite_sram_mount_virtual` (lines 785-845): the loaded snapshot
`ld` is written to the freshly opened handle `img` and padded, or the handle is filled, or
marked as dynamically sized.  The length of a loaded snapshot comes from
`sqlite3_column_bytes`, an `int`, so the cast `(int)latest.size()` keeps its value. -/
def mount_restore (m : MountFaults) (w : World) (slot : Nat) (img : fileTYPE)
    (ld : LoadResult) (pre_size : Int) : Bool × World :=
  let have_snapshot := ld.found && !ld.data.isEmpty
  if have_snapshot then
    let wi := sqlite_sram_write_image m.restore img ld.data
    if !wi.1 then mount_abort w slot wi.2
    else if pre_size > ld.data.length then
      let s := FileSeek m.pad.seek_fails wi.2 ld.data.length
      if !s.1 then mount_abort w slot s.2
      else
        let remaining := (pre_size - ld.data.length).toNat
        let l := ff_loop m.pad.write_fails remaining 0 s.2 remaining
        if !l.1 then mount_abort w slot l.2
        else mount_done w slot (FileSeek m.pad.seek_back_fails l.2 0).2
    else mount_done w slot wi.2
  else if pre_size > 0 then
    let fl := sqlite_sram_fill_ff m.fill img pre_size
    if !fl.1 then mount_abort w slot fl.2
    else mount_done w slot fl.2
  else mount_done w slot { img with type := 2 }

/-- Embedding of `sqlite_sram_mount_virtual` (lines 749-853), compiled with
`SQLITE_SRAM_SNAPSHOTS`: the return value and the world afterwards.  `none` is a null
pointer.  The slot record holds a pointer to the handle `img`; here it holds the content
of the handle as the call leaves it. -/
def sqlite_sram_mount_virtual (env : Env) (m : MountFaults) (w : World) (slot : Nat)
    (save_path : Option CStr) (pre_size : Int) (img : Option fileTYPE) : Bool × World :=
  if !sqlite_sram_runtime_enabled env then (false, w)
  else
    match save_path, img with
    | some path, some im =>
        if slot ≥ SQLITE_SRAM_MAX_SLOTS ∨ path.length = 0 then (false, w)
        else
          let w1 := sqlite_sram_configure_slot w slot (some im) (some path)
          let tmp_path := snprintf_s 64
            (cstr "/tmp/mister_sram_slot_" ++ decimal slot ++ cstr ".bin")
          let o := FileOpenEx_trunc m.open_tmp_fails im
          if !o.1 then (false, sqlite_sram_configure_slot w1 slot (some o.2) none)
          else
            let im1 : fileTYPE := { o.2 with path := tmp_path }
            let db_path := (w1.g_slots slot).db_path
            let w2 := w1.setFile db_path (mount_prepared_file m w path)
            mount_restore m w2 slot im1 (mount_latest m w path) pre_size
    | _, _ => (false, w)

/-- Embedding of `sqlite_sram_unmount_slot` (lines 855-863). -/
def sqlite_sram_unmount_slot (w : World) (slot : Nat) : World :=
  if slot ≥ SQLITE_SRAM_MAX_SLOTS then w
  else sqlite_sram_configure_slot w slot none none

/-- Embedding of `sqlite_sram_flush_slot` (lines 881-890). -/
def sqlite_sram_flush_slot (env : Env) (f : FlushFaults) (w : World) (slot : Nat) : World :=
  if !sqlite_sram_runtime_enabled env then w
  else if slot ≥ SQLITE_SRAM_MAX_SLOTS then w
  else sqlite_sram_try_flush env f w slot

/-! ## Reset and poll -/

/-- The record `sqlite_sram_autosave_t` (lines 37-45). -/
structure sqlite_sram_autosave_t where
  scanned : Bool
  found : Bool
  ex : Bool
  timer : Nat
  opt : CStr
  label : CStr
deriving DecidableEq, Repr

/-- The record after `memset(&g_autosave, 0, sizeof(g_autosave))`. -/
def sqlite_sram_autosave_t.zero : sqlite_sram_autosave_t := ⟨false, false, false, 0, [], []⟩

/-- The whole state of the module: the world `g_slots` lives in, `g_autosave`, and the
calls of `user_io_status_set(opt, value, ex)` made so far. -/
structure Machine where
  world : World
  g_autosave : sqlite_sram_autosave_t
  status_set : List (CStr × Nat × Bool)

/-- The state at program start: `g_slots` and `g_autosave` are zero-initialised, no
database file exists. -/
def Machine.zero : Machine :=
  ⟨⟨fun _ => sqlite_sram_slot_t.zero, fun _ => none⟩, sqlite_sram_autosave_t.zero, []⟩

/-- Everything outside the program that one poll depends on: `CheckTimer` of `hardware.h`,
the descriptors of the core configuration string with `substrcpy`, and the failures that
hit a flush of slot `i`. -/
structure PollEnv where
  CheckTimer : Nat → Bool
  confstr : List CStr
  substrcpy : CStr → Nat → CStr
  flush : Nat → FlushFaults

/-- Embedding of `sqlite_sram_any_slot_enabled` (lines 538-545). -/
def sqlite_sram_any_slot_enabled (w : World) : Bool :=
  (List.range SQLITE_SRAM_MAX_SLOTS).any (fun i => (w.g_slots i).enabled)

/-- Embedding of `sqlite_sram_poll_export_trigger` (lines 640-677). -/
def sqlite_sram_poll_export_trigger (env : Env) (pe : PollEnv) (s : Machine) : Machine :=
  if !sqlite_sram_any_slot_enabled s.world then
    { s with g_autosave := { s.g_autosave with timer := 0 } }
  else
    let a : sqlite_sram_autosave_t :=
      if !s.g_autosave.scanned then
        match sqlite_sram_find_export_trigger pe.substrcpy pe.confstr 32 96 with
        | some t =>
            { s.g_autosave with
              scanned := true, found := true, opt := t.opt, ex := t.ex, label := t.label }
        | none => { s.g_autosave with scanned := true, found := false }
      else s.g_autosave
    if !a.found then { s with g_autosave := a }
    else if a.timer = 0 then
      { s with
        g_autosave := { a with timer := env.GetTimer (sqlite_sram_interval_ms env) % 2 ^ 32 } }
    else if !pe.CheckTimer a.timer then { s with g_autosave := a }
    else
      { s with
        g_autosave := { a with timer := env.GetTimer (sqlite_sram_interval_ms env) % 2 ^ 32 }
        status_set := s.status_set ++ [(a.opt, 1, a.ex), (a.opt, 0, a.ex)] }

/-- One pass of the loop of `sqlite_sram_poll_flush` (lines 723-726). -/
def poll_flush_step (env : Env) (pe : PollEnv) (w : World) (i : Nat) : World :=
  let state := w.g_slots i
  if !state.enabled || !state.dirty || state.flush_timer = 0 then w
  else if !pe.CheckTimer state.flush_timer then w
  else sqlite_sram_try_flush env (pe.flush i) w i

/-- Embedding of `sqlite_sram_poll_flush` (lines 719-728). -/
def sqlite_sram_poll_flush (env : Env) (pe : PollEnv) (w : World) : World :=
  (List.range SQLITE_SRAM_MAX_SLOTS).foldl (poll_flush_step env pe) w

/-- Embedding of `sqlite_sram_poll` (lines 892-898). -/
def sqlite_sram_poll (env : Env) (pe : PollEnv) (s : Machine) : Machine :=
  if !sqlite_sram_runtime_enabled env then s
  else
    let s1 := sqlite_sram_poll_export_trigger env pe s
    { s1 with world := sqlite_sram_poll_flush env pe s1.world }

/-- Embedding of `sqlite_sram_reset` (lines 741-747). -/
def sqlite_sram_reset (s : Machine) : Machine :=
  { s with
    world := { s.world with g_slots := fun _ => sqlite_sram_slot_t.zero }
    g_autosave := sqlite_sram_autosave_t.zero }

/-- One call of a public operation of the module, with everything outside the program
that the call depends on. -/
inductive Op where
  | reset
  | mount (env : Env) (m : MountFaults) (slot : Nat) (save_path : Option CStr)
      (pre_size : Int) (img : Option fileTYPE)
  | unmount (slot : Nat)
  | mark_dirty (env : Env) (slot : Nat)
  | flush (env : Env) (f : FlushFaults) (slot : Nat)
  | poll (env : Env) (pe : PollEnv)

/-- The state after one call. -/
def Op.apply : Op → Machine → Machine
  | Op.reset, s => sqlite_sram_reset s
  | Op.mount env m slot save_path pre_size img, s =>
      { s with world := (sqlite_sram_mount_virtual env m s.world slot save_path pre_size img).2 }
  | Op.unmount slot, s => { s with world := sqlite_sram_unmount_slot s.world slot }
  | Op.mark_dirty env slot, s => { s with world := sqlite_sram_mark_save_dirty env s.world slot }
  | Op.flush env f slot, s => { s with world := sqlite_sram_flush_slot env f s.world slot }
  | Op.poll env pe, s => sqlite_sram_poll env pe s

/-- The state after a sequence of calls, the first of the list first. -/
def runOps (ops : List Op) (s : Machine) : Machine :=
  ops.foldl (fun st op => op.apply st) s

/-- The timer of this call never hands out the value `0`: `GetTimer` returns an unsigned
32-bit number, the one the program stores in `flush_timer`. -/
def Op.timerNeverZero : Op → Prop
  | Op.reset => True
  | Op.unmount _ => True
  | Op.mount env _ _ _ _ _ => ∀ offset, env.GetTimer offset % 2 ^ 32 ≠ 0
  | Op.mark_dirty env _ => ∀ offset, env.GetTimer offset % 2 ^ 32 ≠ 0
  | Op.flush env _ _ => ∀ offset, env.GetTimer offset % 2 ^ 32 ≠ 0
  | Op.poll env _ => ∀ offset, env.GetTimer offset % 2 ^ 32 ≠ 0

/-! ## Concrete inputs used by the examples -/

/-- A table with one tagged row and one untagged row. -/
def exampleTable : Db :=
  ⟨[], some [], [⟨1, 0, 0, [9], some "keep"⟩, ⟨2, 0, 0, [8], none⟩]⟩

/-- A table whose newest row was written for the payload `[4, 5, 6]` and then had its last
payload byte flipped; the older row is intact. -/
def corruptedNewest : Db :=
  ⟨[], some [], [⟨1, 0, 1438416925, [1, 2, 3], none⟩, ⟨2, 0, 1817977022, [4, 5, 7], none⟩]⟩

/-- Three migrations listed out of name order. -/
def exampleMigrations : List sqlite_sram_migration_t :=
  [⟨cstr "003_c", "C"⟩, ⟨cstr "002_b", "B"⟩, ⟨cstr "001_a", "A"⟩]

/-- Three migrations of which the first and the last share a name. -/
def duplicateMigrations : List sqlite_sram_migration_t :=
  [⟨cstr "001_a", "A"⟩, ⟨cstr "002_b", "B"⟩, ⟨cstr "001_a", "C"⟩]

/-- An environment in which only the `COMMIT` of migration `002_b` fails. -/
def commitFailsAtB : ApplyEnv :=
  ⟨false,
    fun n => if n = cstr "002_b" then ⟨false, false, false, false, true⟩
      else MigrationFaults.none,
    fun _ => 0⟩

/-- A timer that reads `1000`, snapshots enabled, default autosave interval. -/
def exampleEnv : Env := ⟨fun offset => 1000 + offset, 1, 0⟩

/-- A backing store of three bytes. -/
def exampleImage : fileTYPE := ⟨true, 3, 0, 0, cstr "/tmp/mister_sram_slot_0.bin", [1, 2, 3]⟩

/-- A world in which slot 0 is enabled, dirty and bound to `exampleImage`, and no sidecar
database exists yet. -/
def exampleWorld : World :=
  ⟨fun i => if i = 0 then
      ⟨true, true, 5, some exampleImage, cstr "game.sav", cstr "game.sav.sqlite3"⟩
    else sqlite_sram_slot_t.zero,
    fun _ => none⟩

/-- The same world with a sidecar database whose newest row already holds the content of
`exampleImage` (as after a mount that restored it). -/
def restoredWorld : World :=
  { exampleWorld with
    files := fun p => if p = cstr "game.sav.sqlite3" then
        some ⟨[], some [], [⟨1, 0, 1438416925, [1, 2, 3], none⟩]⟩
      else none }

/-- A table whose only row has the largest row id, `2^63 - 1`, and holds `[9, 9]` with its
CRC. -/
def saturatedTable : Db :=
  ⟨[], some [], [⟨MAX_ROWID, 0, 3922137362, [9, 9], none⟩]⟩

/-- A table of 50 untagged rows that have the 50 largest row ids, `2^63 - 50` to
`2^63 - 1`, each holding `[9, 9]` with its CRC. -/
def saturatedFullTable : Db :=
  ⟨[], some [],
    (List.range 50).map (fun i => ⟨MAX_ROWID - 49 + i, 0, 3922137362, [9, 9], none⟩)⟩

/-- No call of an insert fails, and the engine's random search for a row id ends with the
candidate `id`. -/
def randomRowId (id : Int) : InsertFaults := { InsertFaults.none with random_rowid := id }

/-- No call of a flush attempt fails, and the engine's random search for a row id ends
with the candidate `id`. -/
def flushPicking (id : Int) : FlushFaults :=
  { FlushFaults.none with insert := randomRowId id }

/-- A flush attempt in which no call fails except that `sqlite3_column_blob` returns a null
pointer to the comparison with the latest row. -/
def blobNullFlush : FlushFaults := { FlushFaults.none with compare := ⟨false, false, true⟩ }

/-- The world `exampleWorld` with the sidecar database `saturatedTable`. -/
def saturatedWorld : World :=
  { exampleWorld with
    files := fun p => if p = cstr "game.sav.sqlite3" then some saturatedTable else none }

/-- A flush attempt in which reading the image fails. -/
def readFails : FlushFaults := { FlushFaults.none with read := ⟨false, true⟩ }

/-- The candidates of a descriptor list, in list order: what the loop extracts from the
entries it does not skip. -/
def triggerCandidates (substrcpy : CStr → Nat → CStr) (entries : List CStr) : List Best :=
  entries.filterMap (trigger_candidate substrcpy)

/-- A label of 100 bytes: "Save SRAM" followed by 91 times the letter x. -/
def longLabel : CStr := cstr "Save SRAM" ++ List.replicate 91 120

/-- A trigger descriptor with option id "1" and the label `longLabel`. -/
def longEntry : CStr := cstr "T1," ++ longLabel

/-- A world without slots whose sidecar database for `game.sav` holds one row with a blob
of length zero and the checksum `0` that `sqlite_sram_crc32` gives an empty blob. -/
def emptySnapshotWorld : World :=
  ⟨fun _ => sqlite_sram_slot_t.zero,
    fun p => if p = cstr "game.sav.sqlite3" then
        some ⟨[], some [], [⟨1, 0, 0, [], none⟩]⟩
      else none⟩

/-- The scheduling state of a slot record is consistent: a dirty slot is enabled, and a
slot is dirty exactly when its flush deadline is armed. -/
def slotOk (s : sqlite_sram_slot_t) : Prop :=
  (s.dirty = true → s.enabled = true) ∧ (s.dirty = true ↔ s.flush_timer ≠ 0)

/-- A timer that always reads `1000`, snapshots enabled, default autosave interval. -/
def steadyEnv : Env := ⟨fun _ => 1000, 1, 0⟩

/-- A poll in which every deadline has passed, the core offers no configuration
descriptors, and no call of a flush fails. -/
def duePoll : PollEnv := ⟨fun _ => true, [], substrcpy_field, fun _ => FlushFaults.none⟩

/-! # Theorems -/

/-! ## Snapshot store: ids, order, trim -/

theorem maxId_ge {rows : List Snapshot} {r : Snapshot} (h : r ∈ rows) :
    ∃ m, maxId rows = some m ∧ r.id ≤ m := by
  induction rows with
  | nil => simp at h
  | cons a rs ih =>
    rcases List.mem_cons.1 h with rfl | h'
    · cases hm : maxId rs with
      | none => exact ⟨r.id, by simp [maxId, hm], le_refl _⟩
      | some m => exact ⟨max r.id m, by simp [maxId, hm], le_max_left _ _⟩
    · obtain ⟨m, hm, hle⟩ := ih h'
      exact ⟨max a.id m, by simp [maxId, hm], le_trans hle (le_max_right _ _)⟩

theorem lt_sequentialRowId {rows : List Snapshot} {r : Snapshot} (h : r ∈ rows) :
    r.id < sequentialRowId rows := by
  obtain ⟨m, hm, hle⟩ := maxId_ge h
  simp only [sequentialRowId, hm]
  omega

theorem orderByIdDesc_sorted (rows : List Snapshot) : (orderByIdDesc rows).Sorted idDesc :=
  List.sorted_insertionSort idDesc rows

theorem orderByIdDesc_perm (rows : List Snapshot) : (orderByIdDesc rows).Perm rows :=
  List.perm_insertionSort idDesc rows

theorem mem_orderByIdDesc {rows : List Snapshot} {r : Snapshot} :
    r ∈ orderByIdDesc rows ↔ r ∈ rows :=
  (orderByIdDesc_perm rows).mem_iff

/-- A row whose id is strictly above every other row comes first in `ORDER BY id DESC`. -/
theorem orderByIdDesc_head {rows : List Snapshot} {x : Snapshot} (hx : x ∈ rows)
    (hmax : ∀ y ∈ rows, y ≠ x → y.id < x.id) :
    ∃ tl, orderByIdDesc rows = x :: tl := by
  have hs := orderByIdDesc_sorted rows
  cases hl : orderByIdDesc rows with
  | nil =>
    have := mem_orderByIdDesc.2 hx
    rw [hl] at this
    simp at this
  | cons h tl =>
    rw [hl] at hs
    have hh : h ∈ rows := mem_orderByIdDesc.1 (by rw [hl]; exact List.mem_cons_self _ _)
    have hxm : x ∈ h :: tl := by rw [← hl]; exact mem_orderByIdDesc.2 hx
    rcases List.mem_cons.1 hxm with rfl | hxt
    · exact ⟨tl, rfl⟩
    · have h1 : idDesc h x := List.rel_of_sorted_cons hs x hxt
      by_cases he : h = x
      · exact ⟨tl, by rw [he]⟩
      · have := hmax h hh he
        unfold idDesc at h1
        omega

theorem maxId_mem {rows : List Snapshot} {m : Int} (h : maxId rows = some m) :
    ∃ r ∈ rows, r.id = m := by
  induction rows generalizing m with
  | nil => simp [maxId] at h
  | cons a rs ih =>
    cases hm : maxId rs with
    | none =>
      simp only [maxId, hm, Option.some.injEq] at h
      exact ⟨a, List.mem_cons_self _ _, h⟩
    | some k =>
      simp only [maxId, hm, Option.some.injEq] at h
      obtain ⟨r, hr, hk⟩ := ih hm
      rcases le_total a.id k with hle | hle
      · exact ⟨r, List.mem_cons_of_mem _ hr, by rw [hk, ← h, max_eq_right hle]⟩
      · exact ⟨a, List.mem_cons_self _ _, by rw [← h, max_eq_left hle]⟩

/-- While no row has the largest row id, the engine assigns one more than the largest id
in use, whatever its random candidate would be. -/
theorem nextRowId_below (random_rowid : Int) {rows : List Snapshot}
    (hb : RowIdsBelowMax rows) :
    nextRowId random_rowid rows = some (sequentialRowId rows) := by
  unfold nextRowId sequentialRowId
  cases hm : maxId rows with
  | none => rfl
  | some m =>
    obtain ⟨r, hr, rfl⟩ := maxId_mem hm
    simp only [if_pos (hb r hr)]

/-- The id the engine assigns is not in use. -/
theorem nextRowId_fresh {random_rowid : Int} {rows : List Snapshot} {id : Int}
    (h : nextRowId random_rowid rows = some id) : id ∉ rows.map (fun r => r.id) := by
  unfold nextRowId at h
  cases hm : maxId rows with
  | none =>
    cases rows with
    | nil => simp
    | cons a rs =>
      obtain ⟨m, hm2, -⟩ := maxId_ge (List.mem_cons_self a rs)
      rw [hm] at hm2
      cases hm2
  | some m =>
    rw [hm] at h
    simp only at h
    split at h
    · simp only [Option.some.injEq] at h
      intro hmem
      obtain ⟨r, hr, hid⟩ := List.mem_map.1 hmem
      obtain ⟨m2, hm2, hle⟩ := maxId_ge hr
      rw [hm] at hm2
      cases hm2
      omega
    · split at h
      · rename_i hc
        simp only [Option.some.injEq] at h
        rw [← h]
        exact hc.2.2
      · cases h

/-- A successful insert ran inside its own transaction: the engine assigned the new row
an id, and the committed table is the old one plus the new row, trimmed. -/
theorem insert_ok_at {f : InsertFaults} {now : Int} {c c' : Conn} {B : Bytes}
    (h : sqlite_sram_insert f now c B = (true, c')) :
    c.txn = none ∧ ∃ id, nextRowId f.random_rowid c.db.snapshots = some id ∧
    c' = ⟨{ c.db with
            snapshots := trimRows SQLITE_SRAM_HISTORY_LIMIT
              (c.db.snapshots ++ [insertedRowAt id now B]) }, none,
          c.trace ++ [.begin_immediate, .trim SQLITE_SRAM_HISTORY_LIMIT, .commit]⟩ := by
  obtain ⟨db, txn, tr⟩ := c
  obtain ⟨f1, f2, f3, f4, f5, x⟩ := f
  cases hn : nextRowId x db.snapshots <;>
  cases txn <;> cases f1 <;> cases f2 <;> cases f3 <;> cases f4 <;> cases f5 <;>
    simp [sqlite_sram_insert, sqlite_sram_exec, insertSnapshotRow, Conn.write, Conn.view,
      insertedRowAt, hn] at h ⊢
  exact h.symm

/-- A successful insert into a table none of whose rows has the largest row id: the
committed table is the old one plus the new row, whose id is one more than the largest id
in use, trimmed. -/
theorem insert_ok {f : InsertFaults} {now : Int} {c c' : Conn} {B : Bytes}
    (h : sqlite_sram_insert f now c B = (true, c'))
    (hb : RowIdsBelowMax c.db.snapshots) :
    c.txn = none ∧
    c' = ⟨{ c.db with
            snapshots := trimRows SQLITE_SRAM_HISTORY_LIMIT
              (c.db.snapshots ++ [insertedRow now c.db.snapshots B]) }, none,
          c.trace ++ [.begin_immediate, .trim SQLITE_SRAM_HISTORY_LIMIT, .commit]⟩ := by
  obtain ⟨htx, id, hid, hc⟩ := insert_ok_at h
  rw [nextRowId_below _ hb] at hid
  cases hid
  exact ⟨htx, hc⟩

theorem sqlite_sram_crc32_lt (data : Bytes) : sqlite_sram_crc32 data < 2 ^ 32 := by
  unfold sqlite_sram_crc32
  split
  · norm_num
  · exact Nat.mod_lt _ (by norm_num)

theorem storedCrc_insertedRow (now : Int) (rows : List Snapshot) (B : Bytes) :
    storedCrc (insertedRow now rows B) = sqlite_sram_crc32 B := by
  have h := sqlite_sram_crc32_lt B
  simp only [storedCrc, insertedRow]
  omega

theorem trimRows_subset (limit : Nat) (rows : List Snapshot) {r : Snapshot}
    (h : r ∈ trimRows limit rows) : r ∈ rows :=
  (List.mem_filter.1 h).1

/-- An untagged row whose id is strictly above every other row survives the trim. -/
theorem mem_trimRows_of_max {limit : Nat} (hl : 0 < limit) {rows : List Snapshot}
    {x : Snapshot} (hx : x ∈ rows) (ht : x.tag = none)
    (hmax : ∀ y ∈ rows, y ≠ x → y.id < x.id) : x ∈ trimRows limit rows := by
  have hxu : x ∈ untagged rows := List.mem_filter.2 ⟨hx, by simp [ht]⟩
  obtain ⟨tl, htl⟩ := orderByIdDesc_head hxu
    (fun y hy hne => hmax y (List.mem_filter.1 hy).1 hne)
  refine List.mem_filter.2 ⟨hx, ?_⟩
  obtain ⟨n, rfl⟩ : ∃ n, limit = n + 1 := ⟨limit - 1, by omega⟩
  simp [recentUntaggedIds, htl, ht]

theorem insertedRow_id_max (now : Int) (rows : List Snapshot) (B : Bytes) :
    ∀ y ∈ rows ++ [insertedRow now rows B], y ≠ insertedRow now rows B →
      y.id < (insertedRow now rows B).id := by
  intro y hy hne
  rcases List.mem_append.1 hy with hy | hy
  · exact lt_sequentialRowId hy
  · exact absurd (List.mem_singleton.1 hy) hne

/-- After a successful insert into a table none of whose rows has the largest row id, the
new row is the first that `ORDER BY id DESC` delivers. -/
theorem insert_newest {f : InsertFaults} {now : Int} {c c' : Conn} {B : Bytes}
    (h : sqlite_sram_insert f now c B = (true, c'))
    (hb : RowIdsBelowMax c.db.snapshots) :
    ∃ tl, orderByIdDesc c'.db.snapshots = insertedRow now c.db.snapshots B :: tl := by
  obtain ⟨-, rfl⟩ := insert_ok h hb
  have hmax := insertedRow_id_max now c.db.snapshots B
  apply orderByIdDesc_head
  · exact mem_trimRows_of_max (by decide) (by simp) rfl hmax
  · intro y hy hne
    exact hmax y (trimRows_subset _ _ hy) hne

/-! ## C1 -/

/-- C1 as stated fails.  The only row of `saturatedTable` has the largest row id,
`2^63 - 1`, so the engine gives the inserted row an unused id picked at random, here `5`:
the insert of `[1, 2, 3]` succeeds, the old row stays the first of `ORDER BY id DESC`, and
`sqlite_sram_load_latest` returns the old bytes `[9, 9]`. -/
theorem C1_counterexample :
    (sqlite_sram_insert (randomRowId 5) 7 (Conn.onDb saturatedTable) [1, 2, 3]).1 = true ∧
    (sqlite_sram_insert (randomRowId 5) 7 (Conn.onDb saturatedTable)
        [1, 2, 3]).2.db.snapshots =
      saturatedTable.snapshots ++ [insertedRowAt 5 7 [1, 2, 3]] ∧
    sqlite_sram_load_latest LoadFaults.none
      (some (sqlite_sram_insert (randomRowId 5) 7 (Conn.onDb saturatedTable)
        [1, 2, 3]).2.db) = ⟨true, true, [9, 9]⟩ := by
  decide

/-- C1, amended: whenever `sqlite_sram_insert` succeeds on bytes `B` (empty or not) on a
database none of whose snapshot rows has the largest row id `2^63 - 1`,
`sqlite_sram_load_latest` on the committed database returns success with `found = true`
and exactly `B`, and the row the scan stops at holds `B` and the CRC32 of `B` in column
`crc32`. -/
theorem C1_insert_then_load_latest (f : InsertFaults) (now : Int) (c c' : Conn) (B : Bytes)
    (hb : RowIdsBelowMax c.db.snapshots)
    (h : sqlite_sram_insert f now c B = (true, c')) :
    sqlite_sram_load_latest LoadFaults.none (some c'.db) = ⟨true, true, B⟩ ∧
    ∃ r, load_scan LoadFaults.none 0 (orderByIdDesc c'.db.snapshots) = ⟨true, some r⟩ ∧
      r.sram = B ∧ r.crc32 = (sqlite_sram_crc32 B : Int) := by
  obtain ⟨tl, htl⟩ := insert_newest h hb
  have hs : load_scan LoadFaults.none 0 (orderByIdDesc c'.db.snapshots) =
      ⟨true, some (insertedRow now c.db.snapshots B)⟩ := by
    rw [htl]
    simp [load_scan, LoadFaults.none, storedCrc_insertedRow]
    simp [insertedRow]
  refine ⟨?_, _, hs, rfl, rfl⟩
  simp only [sqlite_sram_load_latest, hs]
  simp [LoadFaults.none, insertedRow]

/-- In a list sorted by descending id, an id is among the first `n` ids exactly when it
occurs and fewer than `n` rows have a larger id. -/
theorem mem_take_ids_iff {S : List Snapshot} (hS : S.Sorted idDesc) (n : Nat) (i : Int) :
    i ∈ (S.take n).map (fun r => r.id) ↔
      i ∈ S.map (fun r => r.id) ∧ (S.filter (fun y => decide (i < y.id))).length < n := by
  induction S generalizing n with
  | nil => simp
  | cons a t ih =>
    have ht : t.Sorted idDesc := hS.of_cons
    have ha : ∀ y ∈ t, y.id ≤ a.id := fun y hy => List.rel_of_sorted_cons hS y hy
    cases n with
    | zero => simp
    | succ n =>
      by_cases hia : i = a.id
      · subst hia
        have hnone : t.filter (fun y => decide (a.id < y.id)) = [] := by
          rw [List.filter_eq_nil_iff]
          intro y hy
          have := ha y hy
          simp
          omega
        simp [hnone]
      · by_cases hit : i ∈ t.map (fun r => r.id)
        · have hlt : i < a.id := by
            obtain ⟨y, hy, rfl⟩ := List.mem_map.1 hit
            have := ha y hy
            omega
          have := ih ht n
          simp only [List.take_succ_cons, List.map_cons, List.mem_cons, hia, false_or,
            List.filter_cons, hlt, decide_True, if_true, List.length_cons]
          rw [this]
          constructor
          · rintro ⟨h1, h2⟩
            exact ⟨h1, by omega⟩
          · rintro ⟨h1, h2⟩
            exact ⟨h1, by omega⟩
        · have h1 : i ∉ (t.take n).map (fun r => r.id) := by
            intro h
            apply hit
            obtain ⟨y, hy, rfl⟩ := List.mem_map.1 h
            exact List.mem_map.2 ⟨y, List.mem_of_mem_take hy, rfl⟩
          simp only [List.take_succ_cons, List.map_cons, List.mem_cons, hia, false_or]
          constructor
          · intro h; exact absurd h h1
          · rintro ⟨h, -⟩; exact absurd h hit

/-- Which rows the trim keeps: the tagged ones, and the untagged ones with fewer than
`limit` untagged rows of larger id. -/
theorem mem_trimRows_iff (limit : Nat) (rows : List Snapshot) (r : Snapshot) :
    r ∈ trimRows limit rows ↔
      r ∈ rows ∧ (r.tag = none →
        ((untagged rows).filter (fun y => decide (r.id < y.id))).length < limit) := by
  unfold trimRows
  rw [List.mem_filter]
  apply and_congr_right
  intro hr
  cases htag : r.tag with
  | some t => simp
  | none =>
    have hru : r ∈ untagged rows := List.mem_filter.2 ⟨hr, by simp [htag]⟩
    have hmem : r.id ∈ (orderByIdDesc (untagged rows)).map (fun r => r.id) :=
      List.mem_map.2 ⟨r, mem_orderByIdDesc.2 hru, rfl⟩
    have hperm : ((orderByIdDesc (untagged rows)).filter
        (fun y => decide (r.id < y.id))).length =
        ((untagged rows).filter (fun y => decide (r.id < y.id))).length :=
      ((orderByIdDesc_perm (untagged rows)).filter _).length_eq
    have := mem_take_ids_iff (orderByIdDesc_sorted (untagged rows)) limit r.id
    simp only [recentUntaggedIds, Option.isNone_none, Bool.true_and, Bool.not_not,
      forall_true_left]
    have hc : ∀ (l : List Int) (x : Int), (l.contains x = true) ↔ x ∈ l := by
      intro l x
      simp
    rw [hc, this, hperm]
    exact ⟨fun h => h.2, fun h => ⟨hmem, h⟩⟩

theorem untagged_trimRows_length_le (limit : Nat) {rows : List Snapshot}
    (hnd : (rows.map (fun r => r.id)).Nodup) :
    (untagged (trimRows limit rows)).length ≤ limit := by
  have hsub : (untagged (trimRows limit rows)).Sublist rows :=
    (List.filter_sublist _).trans (List.filter_sublist _)
  have hnd' : ((untagged (trimRows limit rows)).map (fun r => r.id)).Nodup :=
    hnd.sublist (hsub.map _)
  have hss : (untagged (trimRows limit rows)).map (fun r => r.id) ⊆
      recentUntaggedIds limit rows := by
    intro i hi
    obtain ⟨r, hr, rfl⟩ := List.mem_map.1 hi
    have h1 := List.mem_filter.1 hr
    have h2 := List.mem_filter.1 h1.1
    have ht : r.tag.isNone = true := h1.2
    have h3 := h2.2
    simp only [ht, Bool.true_and, Bool.not_not] at h3
    simpa using h3
  have hlen := (List.subperm_of_subset hnd' hss).length_le
  have htake : (recentUntaggedIds limit rows).length ≤ limit := by
    simp [recentUntaggedIds]
  simp only [List.length_map] at hlen
  omega

theorem tagged_trimRows (limit : Nat) (rows : List Snapshot) :
    (trimRows limit rows).filter (fun r => r.tag.isSome) =
      rows.filter (fun r => r.tag.isSome) := by
  unfold trimRows
  rw [List.filter_filter]
  apply List.filter_congr
  intro r _
  cases r.tag <;> simp

theorem Ascending.nodup_ids {rows : List Snapshot} (h : Ascending rows) :
    (rows.map (fun r => r.id)).Nodup := by
  unfold Ascending at h
  rw [List.Nodup, List.pairwise_map]
  exact h.imp (fun hab => ne_of_lt hab)

/-- On a table listed by ascending id, `ORDER BY id DESC` is the reverse listing. -/
theorem orderByIdDesc_ascending {rows : List Snapshot} (h : Ascending rows) :
    orderByIdDesc rows = rows.reverse := by
  haveI : IsAntisymm Snapshot (fun a b => b.id < a.id) :=
    ⟨fun a b h1 h2 => absurd h1 (not_lt.2 (le_of_lt h2))⟩
  have hnd : ((orderByIdDesc rows).map (fun r => r.id)).Nodup :=
    ((orderByIdDesc_perm rows).map _).nodup_iff.2 h.nodup_ids
  rw [List.Nodup, List.pairwise_map] at hnd
  have hs : (orderByIdDesc rows).Pairwise (fun a b => b.id < a.id) :=
    ((orderByIdDesc_sorted rows).and hnd).imp
      (fun ⟨h1, h2⟩ => lt_of_le_of_ne h1 (Ne.symm h2))
  have hr : rows.reverse.Pairwise (fun a b => b.id < a.id) := List.pairwise_reverse.2 h
  exact List.eq_of_perm_of_sorted
    ((orderByIdDesc_perm rows).trans (List.reverse_perm rows).symm) hs hr

/-- On an untagged table listed by ascending id the trim keeps the last `limit` rows. -/
theorem trimRows_ascending (limit : Nat) {rows : List Snapshot} (h : Ascending rows)
    (hu : ∀ r ∈ rows, r.tag = none) :
    trimRows limit rows = rows.drop (rows.length - limit) := by
  have hun : untagged rows = rows := by
    unfold untagged
    rw [List.filter_eq_self]
    intro r hr
    simp [hu r hr]
  have hids : recentUntaggedIds limit rows =
      ((rows.drop (rows.length - limit)).reverse).map (fun r => r.id) := by
    unfold recentUntaggedIds
    rw [hun, orderByIdDesc_ascending h, List.take_reverse]
  have hsplit := List.take_append_drop (rows.length - limit) rows
  have hpw : (rows.take (rows.length - limit) ++ rows.drop (rows.length - limit)).Pairwise
      (fun a b => a.id < b.id) := by rw [hsplit]; exact h
  rw [List.pairwise_append] at hpw
  obtain ⟨-, -, hcross⟩ := hpw
  have key : ∀ (p : Snapshot → Bool),
      (∀ r ∈ rows.take (rows.length - limit), p r = false) →
      (∀ r ∈ rows.drop (rows.length - limit), p r = true) →
      rows.filter p = rows.drop (rows.length - limit) := by
    intro p hp1 hp2
    conv_lhs => rw [← hsplit]
    rw [List.filter_append, List.filter_eq_nil_iff.2 (by simpa using hp1),
      List.filter_eq_self.2 hp2, List.nil_append]
  unfold trimRows
  rw [hids]
  apply key
  · intro r hr
    have ht := hu r (List.mem_of_mem_take hr)
    simp only [ht, Option.isNone_none, Bool.true_and, Bool.not_not]
    simp only [List.contains_eq_any_beq, List.any_eq_false, List.mem_map, List.mem_reverse,
      beq_iff_eq]
    rintro i ⟨y, hy, rfl⟩ h'
    have := hcross r hr y hy
    omega
  · intro r hr
    have ht := hu r (List.mem_of_mem_drop hr)
    simp only [ht, Option.isNone_none, Bool.true_and, Bool.not_not]
    simp only [List.contains_eq_any_beq, List.any_eq_true, List.mem_map, List.mem_reverse,
      beq_iff_eq]
    exact ⟨r.id, ⟨r, hr, rfl⟩, rfl⟩

theorem insert_none (now : Int) (c : Conn) (B : Bytes) (h : c.txn = none)
    (hb : RowIdsBelowMax c.db.snapshots) :
    sqlite_sram_insert InsertFaults.none now c B =
      (true, ⟨{ c.db with
            snapshots := trimRows SQLITE_SRAM_HISTORY_LIMIT
              (c.db.snapshots ++ [insertedRow now c.db.snapshots B]) }, none,
          c.trace ++ [.begin_immediate, .trim SQLITE_SRAM_HISTORY_LIMIT, .commit]⟩) := by
  obtain ⟨db, txn, tr⟩ := c
  subst h
  have hn := nextRowId_below 0 hb
  simp only at hn
  simp [sqlite_sram_insert, sqlite_sram_exec, insertSnapshotRow, Conn.write, Conn.view,
      InsertFaults.none, insertedRow, hn]

theorem sequentialRowId_le {rows : List Snapshot} {n : Int} (h : ∀ r ∈ rows, r.id ≤ n)
    (hn : 0 ≤ n) : sequentialRowId rows ≤ n + 1 := by
  unfold sequentialRowId
  cases hm : maxId rows with
  | none => simp only; omega
  | some m =>
    obtain ⟨r, hr, rfl⟩ := maxId_mem hm
    have := h r hr
    simp only
    omega

/-- Invariant of a run of inserts, as long as the ids stay below the largest row id: the
table is the last 50 of the rows written so far. -/
theorem insertAll_inv (now : Int) : ∀ (Bs : List Bytes) (c : Conn) (Ins : List Snapshot),
    c.txn = none → Ascending Ins → (∀ r ∈ Ins, r.tag = none) →
    c.db.snapshots = Ins.drop (Ins.length - SQLITE_SRAM_HISTORY_LIMIT) →
    (∀ r ∈ Ins, r.id ≤ (Ins.length : Int)) →
    (Ins.length : Int) + (Bs.length : Int) < MAX_ROWID →
    (insertAll now c Bs).1.txn = none ∧
    Ascending (Ins ++ (insertAll now c Bs).2) ∧
    (∀ r ∈ Ins ++ (insertAll now c Bs).2, r.tag = none) ∧
    (insertAll now c Bs).1.db.snapshots =
      (Ins ++ (insertAll now c Bs).2).drop
        ((Ins ++ (insertAll now c Bs).2).length - SQLITE_SRAM_HISTORY_LIMIT) ∧
    (insertAll now c Bs).2.map (fun r => r.sram) = Bs := by
  intro Bs
  induction Bs with
  | nil =>
    intro c Ins htx hasc hun hdb _ _
    simpa [insertAll] using ⟨htx, hasc, hun, hdb⟩
  | cons B rest ih =>
    intro c Ins htx hasc hun hdb hbd hlen
    have hbelow : RowIdsBelowMax c.db.snapshots := by
      intro r hr
      rw [hdb] at hr
      have := hbd r (List.mem_of_mem_drop hr)
      simp only [List.length_cons, Nat.cast_add, Nat.cast_one] at hlen
      omega
    have hbd2 : ∀ r ∈ Ins ++ [insertedRow now c.db.snapshots B],
        r.id ≤ ((Ins ++ [insertedRow now c.db.snapshots B]).length : Int) := by
      intro r hr
      simp only [List.length_append, List.length_singleton, Nat.cast_add, Nat.cast_one]
      rcases List.mem_append.1 hr with hr | hr
      · have := hbd r hr
        omega
      · rw [List.mem_singleton.1 hr]
        exact sequentialRowId_le
          (fun y hy => hbd y (by rw [hdb] at hy; exact List.mem_of_mem_drop hy))
          (by omega)
    have hlen2 : ((Ins ++ [insertedRow now c.db.snapshots B]).length : Int) +
        (rest.length : Int) < MAX_ROWID := by
      simp only [List.length_append, List.length_singleton, Nat.cast_add, Nat.cast_one]
      simp only [List.length_cons, Nat.cast_add, Nat.cast_one] at hlen
      omega
    have hsplit := List.take_append_drop (Ins.length - SQLITE_SRAM_HISTORY_LIMIT) Ins
    have hpw := hasc
    unfold Ascending at hpw
    rw [← hsplit, List.pairwise_append] at hpw
    obtain ⟨-, hR, hcross⟩ := hpw
    rw [← hdb] at hR hcross
    -- the new row lies above every row written so far
    have hnew : ∀ a ∈ Ins, a.id < (insertedRow now c.db.snapshots B).id := by
      intro a ha
      rw [← hsplit, List.mem_append] at ha
      rcases ha with ha | ha
      · have hne : c.db.snapshots ≠ [] := by
          rw [hdb]
          intro h0
          have hlen := congrArg List.length h0
          have hpos : 0 < Ins.length := by
            cases Ins with
            | nil => simp at ha
            | cons _ _ => simp
          simp [SQLITE_SRAM_HISTORY_LIMIT] at hlen
          omega
        obtain ⟨y, hy⟩ := List.exists_mem_of_ne_nil _ hne
        exact lt_trans (hcross a ha y hy) (lt_sequentialRowId hy)
      · rw [← hdb] at ha
        exact lt_sequentialRowId ha
    have hasc' : Ascending (Ins ++ [insertedRow now c.db.snapshots B]) := by
      unfold Ascending
      rw [List.pairwise_append]
      exact ⟨hasc, by simp, fun a ha b hb => by
        rw [List.mem_singleton.1 hb]; exact hnew a ha⟩
    have hun' : ∀ r ∈ Ins ++ [insertedRow now c.db.snapshots B], r.tag = none := by
      intro r hr
      rcases List.mem_append.1 hr with hr | hr
      · exact hun r hr
      · rw [List.mem_singleton.1 hr]; rfl
    have hascR : Ascending (c.db.snapshots ++ [insertedRow now c.db.snapshots B]) := by
      unfold Ascending
      rw [List.pairwise_append]
      exact ⟨hR, by simp, fun a ha b hb => by
        rw [List.mem_singleton.1 hb]; exact lt_sequentialRowId ha⟩
    have hunR : ∀ r ∈ c.db.snapshots ++ [insertedRow now c.db.snapshots B], r.tag = none := by
      intro r hr
      rcases List.mem_append.1 hr with hr | hr
      · exact hun r (by rw [hdb] at hr; exact List.mem_of_mem_drop hr)
      · rw [List.mem_singleton.1 hr]; rfl
    have hstep := insert_none now c B htx hbelow
    have hdb' : (sqlite_sram_insert InsertFaults.none now c B).2.db.snapshots =
        (Ins ++ [insertedRow now c.db.snapshots B]).drop
          ((Ins ++ [insertedRow now c.db.snapshots B]).length -
            SQLITE_SRAM_HISTORY_LIMIT) := by
      rw [hstep]
      simp only
      rw [trimRows_ascending _ hascR hunR]
      have hlenR : c.db.snapshots.length =
          Ins.length - (Ins.length - SQLITE_SRAM_HISTORY_LIMIT) := by
        rw [hdb, List.length_drop]
      have e1 : c.db.snapshots ++ [insertedRow now c.db.snapshots B] =
          (Ins ++ [insertedRow now c.db.snapshots B]).drop
            (Ins.length - SQLITE_SRAM_HISTORY_LIMIT) := by
        rw [List.drop_append_of_le_length (by omega), ← hdb]
      rw [e1, List.drop_drop]
      congr 1
      simp only [List.length_drop, List.length_append, List.length_singleton,
        SQLITE_SRAM_HISTORY_LIMIT]
      omega
    have htx' : (sqlite_sram_insert InsertFaults.none now c B).2.txn = none := by
      rw [hstep]
    obtain ⟨g1, g2, g3, g4, g5⟩ := ih _ _ htx' hasc' hun' hdb' hbd2 hlen2
    simp only [insertAll]
    rw [List.append_assoc] at g2 g3 g4
    exact ⟨g1, g2, g3, g4, by simp [g5, insertedRow]⟩

/-! ## C2 -/

set_option maxRecDepth 100000 in
/-- C2 as stated fails.  `saturatedFullTable` holds 50 untagged rows with the 50 largest
row ids, so the engine gives the inserted row an unused id picked at random, here `5`,
which lies below all of them: the insert succeeds, and its trim deletes the row just
inserted; the table is left as it was. -/
theorem C2_counterexample :
    (sqlite_sram_insert (randomRowId 5) 7 (Conn.onDb saturatedFullTable) [1, 2, 3]).1 =
      true ∧
    (sqlite_sram_insert (randomRowId 5) 7 (Conn.onDb saturatedFullTable)
        [1, 2, 3]).2.db.snapshots = saturatedFullTable.snapshots ∧
    insertedRowAt 5 7 [1, 2, 3] ∉
      (sqlite_sram_insert (randomRowId 5) 7 (Conn.onDb saturatedFullTable)
        [1, 2, 3]).2.db.snapshots := by
  decide

/-- C2, amended: after a successful `sqlite_sram_insert` into a table with distinct ids,
the engine has assigned the new row an id, and the untagged rows are exactly the untagged
rows (the new one included) that have fewer than 50 untagged rows of larger id, i.e. the
at most 50 untagged rows with the highest ids; their number is at most 50; the tagged rows
are the same as before, in the same order.  When no row had the largest row id `2^63 - 1`
before, the new id is one more than the largest id and the new row is among the untagged
rows that stay.  And 60 successive inserts into an empty table leave exactly the last 50
of the 60 rows written. -/
theorem C2_insert_retention (f : InsertFaults) (now : Int) (c c' : Conn) (B : Bytes)
    (hnd : (c.db.snapshots.map (fun r => r.id)).Nodup)
    (h : sqlite_sram_insert f now c B = (true, c')) :
    (∃ id, nextRowId f.random_rowid c.db.snapshots = some id ∧
      (∀ r, r ∈ untagged c'.db.snapshots ↔
        r ∈ untagged (c.db.snapshots ++ [insertedRowAt id now B]) ∧
        ((untagged (c.db.snapshots ++ [insertedRowAt id now B])).filter
          (fun y => decide (r.id < y.id))).length < 50) ∧
      (RowIdsBelowMax c.db.snapshots →
        id = sequentialRowId c.db.snapshots ∧
        insertedRowAt id now B ∈ untagged c'.db.snapshots)) ∧
    (untagged c'.db.snapshots).length ≤ 50 ∧
    c'.db.snapshots.filter (fun r => r.tag.isSome) =
      c.db.snapshots.filter (fun r => r.tag.isSome) ∧
    (∀ (datas : List Bytes) (c0 : Conn), datas.length = 60 → c0.txn = none →
      c0.db.snapshots = [] →
      (insertAll now c0 datas).2.map (fun r => r.sram) = datas ∧
      (insertAll now c0 datas).1.db.snapshots = (insertAll now c0 datas).2.drop 10 ∧
      (insertAll now c0 datas).1.db.snapshots.length = 50) := by
  obtain ⟨-, id, hid, rfl⟩ := insert_ok_at h
  have hfresh := nextRowId_fresh hid
  refine ⟨⟨id, hid, ?_, ?_⟩, ?_, ?_, ?_⟩
  · intro r
    simp only [untagged, List.mem_filter, mem_trimRows_iff, SQLITE_SRAM_HISTORY_LIMIT]
    constructor
    · rintro ⟨⟨h1, h2⟩, h3⟩
      exact ⟨⟨h1, h3⟩, h2 (by simpa using h3)⟩
    · rintro ⟨⟨h1, h3⟩, h2⟩
      exact ⟨⟨h1, fun _ => h2⟩, h3⟩
  · intro hb
    have hseq : id = sequentialRowId c.db.snapshots := by
      have := nextRowId_below f.random_rowid hb
      rw [hid] at this
      exact Option.some.inj this
    subst hseq
    have hnew : insertedRow now c.db.snapshots B ∈
        trimRows SQLITE_SRAM_HISTORY_LIMIT
          (c.db.snapshots ++ [insertedRow now c.db.snapshots B]) :=
      mem_trimRows_of_max (by decide) (by simp) rfl
        (insertedRow_id_max now c.db.snapshots B)
    exact ⟨rfl, List.mem_filter.2 ⟨hnew, rfl⟩⟩
  · refine untagged_trimRows_length_le _ ?_
    rw [List.map_append, List.nodup_append]
    refine ⟨hnd, by simp, ?_⟩
    intro i hi hi2
    simp only [List.map_cons, List.map_nil, List.mem_singleton, insertedRowAt] at hi2
    rw [hi2] at hi
    exact hfresh hi
  · simp only [tagged_trimRows, List.filter_append]
    simp [insertedRowAt]
  · intro datas c0 hlen htx hemp
    obtain ⟨-, -, -, g4, g5⟩ := insertAll_inv now datas c0 [] htx (by simp [Ascending])
      (by simp) (by simp [hemp]) (by simp) (by simp [hlen, MAX_ROWID])
    have hl : (insertAll now c0 datas).2.length = 60 := by
      have := congrArg List.length g5
      rw [List.length_map] at this
      omega
    simp only [List.nil_append, hl, SQLITE_SRAM_HISTORY_LIMIT] at g4
    refine ⟨g5, g4, ?_⟩
    rw [g4, List.length_drop, hl]

/-- Ids are distinct, so `ORDER BY id DESC` is strictly descending. -/
theorem orderByIdDesc_strict {rows : List Snapshot}
    (hnd : (rows.map (fun r => r.id)).Nodup) :
    (orderByIdDesc rows).Pairwise (fun a b => b.id < a.id) := by
  have hnd' : ((orderByIdDesc rows).map (fun r => r.id)).Nodup :=
    ((orderByIdDesc_perm rows).map _).nodup_iff.2 hnd
  rw [List.Nodup, List.pairwise_map] at hnd'
  exact ((orderByIdDesc_sorted rows).and hnd').imp
    (fun ⟨h1, h2⟩ => lt_of_le_of_ne h1 (Ne.symm h2))

/-- The scan without failures stops at the first intact row. -/
theorem load_scan_found {S : List Snapshot} (hS : S.Pairwise (fun a b => b.id < a.id))
    {r : Snapshot} (hr : r ∈ S) (hi : r.intact)
    (hnewer : ∀ y ∈ S, r.id < y.id → ¬ y.intact) (k : Nat) :
    load_scan LoadFaults.none k S = ⟨true, some r⟩ := by
  induction S generalizing k with
  | nil => simp at hr
  | cons a t ih =>
    rw [List.pairwise_cons] at hS
    by_cases har : a = r
    · subst har
      have : sqlite_sram_crc32 a.sram = storedCrc a := hi
      simp [load_scan, LoadFaults.none, this]
    · have hrt : r ∈ t := by
        rcases List.mem_cons.1 hr with h | h
        · exact absurd h.symm har
        · exact h
      have hlt : r.id < a.id := hS.1 r hrt
      have hna : ¬ sqlite_sram_crc32 a.sram = storedCrc a :=
        hnewer a (List.mem_cons_self _ _) hlt
      have := ih hS.2 hrt (fun y hy => hnewer y (List.mem_cons_of_mem _ hy)) (k + 1)
      simp only [load_scan, LoadFaults.none, Bool.false_eq_true, and_false, if_false, ne_eq,
        hna, not_false_eq_true, if_true]
      exact this

/-- The scan without failures runs to the end when no row is intact. -/
theorem load_scan_none (S : List Snapshot) (h : ∀ y ∈ S, ¬ y.intact) (k : Nat) :
    load_scan LoadFaults.none k S = ⟨true, none⟩ := by
  induction S generalizing k with
  | nil => simp [load_scan, LoadFaults.none]
  | cons a t ih =>
    have hna : ¬ sqlite_sram_crc32 a.sram = storedCrc a := h a (List.mem_cons_self _ _)
    have := ih (fun y hy => h y (List.mem_cons_of_mem _ hy)) (k + 1)
    simp only [load_scan, LoadFaults.none, Bool.false_eq_true, and_false, if_false, ne_eq,
      hna, not_false_eq_true, if_true]
    exact this

/-! ## C3 -/

/-- C3: on a table with distinct ids and with no engine failure, `sqlite_sram_load_latest`
returns success, `found = true` and the payload of the intact row of highest id (every
row of larger id failing the CRC check is skipped); when no row is intact it returns
success with `found = false`; a failure to open the file or to prepare the query gives
the return value `false` instead. -/
theorem C3_load_latest_newest_intact (db : Db)
    (hnd : (db.snapshots.map (fun r => r.id)).Nodup) :
    (∀ r ∈ db.snapshots, r.intact → (∀ y ∈ db.snapshots, r.id < y.id → ¬ y.intact) →
      sqlite_sram_load_latest LoadFaults.none (some db) = ⟨true, true, r.sram⟩) ∧
    ((∀ y ∈ db.snapshots, ¬ y.intact) →
      sqlite_sram_load_latest LoadFaults.none (some db) = ⟨true, false, []⟩) ∧
    (∀ f : LoadFaults, f.open_fails = true ∨ f.prepare_fails = true →
      sqlite_sram_load_latest f (some db) = ⟨false, false, []⟩) := by
  refine ⟨?_, ?_, ?_⟩
  · intro r hr hi hnewer
    have hs := load_scan_found (orderByIdDesc_strict hnd) (mem_orderByIdDesc.2 hr) hi
      (fun y hy => hnewer y (mem_orderByIdDesc.1 hy)) 0
    simp only [sqlite_sram_load_latest, hs]
    simp [LoadFaults.none]
  · intro hno
    have hs := load_scan_none (orderByIdDesc db.snapshots)
      (fun y hy => hno y (mem_orderByIdDesc.1 hy)) 0
    simp only [sqlite_sram_load_latest, hs]
    simp [LoadFaults.none]
  · intro f hf
    rcases hf with hf | hf
    · simp [sqlite_sram_load_latest, hf]
    · simp [sqlite_sram_load_latest, hf]

/-- C1 at a concrete input: three bytes inserted into a fresh database come back. -/
theorem C1_witness :
    sqlite_sram_load_latest LoadFaults.none
      (some (sqlite_sram_insert InsertFaults.none 7 (Conn.onDb Db.empty) [1, 2, 3]).2.db) =
        ⟨true, true, [1, 2, 3]⟩ :=
  (C1_insert_then_load_latest InsertFaults.none 7 (Conn.onDb Db.empty) _ [1, 2, 3]
    (by decide) (by decide)).1

/-- C2 at a concrete input: the tagged row of `exampleTable` survives an insert. -/
theorem C2_witness :
    (sqlite_sram_insert InsertFaults.none 7 (Conn.onDb exampleTable) [1, 2, 3]).2.db.snapshots.filter
        (fun r => r.tag.isSome) =
      exampleTable.snapshots.filter (fun r => r.tag.isSome) :=
  (C2_insert_retention InsertFaults.none 7 (Conn.onDb exampleTable) _ [1, 2, 3]
    (by decide) (by decide)).2.2.1

/-- C3 at a concrete input: the older intact row of `corruptedNewest` is returned. -/
theorem C3_witness :
    sqlite_sram_load_latest LoadFaults.none (some corruptedNewest) = ⟨true, true, [1, 2, 3]⟩ :=
  (C3_load_latest_newest_intact corruptedNewest (by decide)).1
    ⟨1, 0, 1438416925, [1, 2, 3], none⟩ (by decide) (by decide) (by decide)

theorem strcmp_self (a : CStr) : strcmp a a = 0 := by
  induction a with
  | nil => rfl
  | cons x xs ih => simp [strcmp, ih]

theorem strcmp_eq_zero {a b : CStr} (h : strcmp a b = 0) : a = b := by
  induction a generalizing b with
  | nil => cases b <;> simp [strcmp] at h ⊢
  | cons x xs ih =>
    cases b with
    | nil => simp [strcmp] at h
    | cons y ys =>
      simp only [strcmp] at h
      split at h
      · next hxy => rw [hxy, ih h]
      · split at h <;> simp at h

theorem strcmp_swap (a b : CStr) : strcmp b a = - strcmp a b := by
  induction a generalizing b with
  | nil => cases b <;> simp [strcmp]
  | cons x xs ih =>
    cases b with
    | nil => simp [strcmp]
    | cons y ys =>
      simp only [strcmp]
      by_cases hxy : x = y
      · subst hxy
        simp [ih]
      · have hyx : ¬ y = x := fun h => hxy h.symm
        simp only [hxy, hyx, if_false]
        by_cases hlt : x < y
        · have : ¬ y < x := by omega
          simp [hlt, this]
        · have : y < x := by omega
          simp [hlt, this]

/-- The sign of `strcmp` is the lexicographic order on byte strings. -/
theorem strcmp_lt_iff (a b : CStr) : strcmp a b < 0 ↔ a < b := by
  induction a generalizing b with
  | nil =>
    cases b with
    | nil => simp [strcmp]
    | cons y ys => simp only [strcmp]; exact ⟨fun _ => List.nil_lt_cons _ _, fun _ => by omega⟩
  | cons x xs ih =>
    cases b with
    | nil =>
      simp only [strcmp]
      constructor
      · intro h; omega
      · intro h; exact absurd h (List.Lex.not_nil_right _ _)
    | cons y ys =>
      simp only [strcmp]
      by_cases hxy : x = y
      · subst hxy
        simp only [if_true]
        rw [ih]
        exact (List.Lex.cons_iff (r := (· < ·))).symm
      · by_cases hlt : x < y
        · simp only [hxy, hlt, if_false, if_true]
          exact ⟨fun _ => List.Lex.rel hlt, fun _ => by omega⟩
        · simp only [hxy, hlt, if_false]
          constructor
          · intro h; omega
          · intro h
            cases h with
            | cons _ => exact absurd rfl hxy
            | rel h' => exact absurd h' hlt

theorem nameLe_iff (a b : sqlite_sram_migration_t) : nameLe a b ↔ a.name ≤ b.name := by
  unfold nameLe nameLt
  rw [strcmp_lt_iff]
  exact not_lt

theorem orderedMigrations_sorted (ms : List sqlite_sram_migration_t) :
    (orderedMigrations ms).Pairwise (fun a b => a.name ≤ b.name) := by
  haveI : IsTotal sqlite_sram_migration_t nameLe :=
    ⟨fun a b => by rw [nameLe_iff, nameLe_iff]; exact le_total _ _⟩
  haveI : IsTrans sqlite_sram_migration_t nameLe :=
    ⟨fun a b c => by rw [nameLe_iff, nameLe_iff, nameLe_iff]; exact le_trans⟩
  exact (List.sorted_insertionSort nameLe ms).imp (fun h => (nameLe_iff _ _).1 h)

theorem orderedMigrations_perm (ms : List sqlite_sram_migration_t) :
    (orderedMigrations ms).Perm ms :=
  List.perm_insertionSort nameLe ms

/-- A list sorted by name without two equal neighbours is strictly sorted. -/
theorem strict_of_no_duplicate : ∀ {l : List sqlite_sram_migration_t},
    l.Pairwise (fun a b => a.name ≤ b.name) → hasDuplicateName l = false →
    l.Pairwise (fun a b => a.name < b.name)
  | [], _, _ => List.Pairwise.nil
  | [_], _, _ => by simp
  | a :: b :: rest, hs, hd => by
    simp only [hasDuplicateName, Bool.or_eq_false_iff, decide_eq_false_iff_not] at hd
    rw [List.pairwise_cons] at hs
    have ih := strict_of_no_duplicate hs.2 hd.2
    have hab : a.name < b.name := by
      have h1 := hs.1 b (List.mem_cons_self _ _)
      have h2 : a.name ≠ b.name := fun h => hd.1 (by rw [h]; exact strcmp_self _)
      exact lt_of_le_of_ne h1 h2
    rw [List.pairwise_cons]
    refine ⟨?_, ih⟩
    intro c hc
    rcases List.mem_cons.1 hc with rfl | hc'
    · exact hab
    · exact lt_trans hab ((List.pairwise_cons.1 ih).1 c hc')

/-- The duplicate check fires exactly when two migrations share a name. -/
theorem hasDuplicateName_ordered (ms : List sqlite_sram_migration_t) :
    hasDuplicateName (orderedMigrations ms) = true ↔ ¬ (ms.map (fun m => m.name)).Nodup := by
  constructor
  · intro h hnd
    have hnd' : ((orderedMigrations ms).map (fun m => m.name)).Nodup :=
      ((orderedMigrations_perm ms).map _).nodup_iff.2 hnd
    generalize orderedMigrations ms = l at h hnd'
    induction l with
    | nil => simp [hasDuplicateName] at h
    | cons a t ih =>
      cases t with
      | nil => simp [hasDuplicateName] at h
      | cons b rest =>
        simp only [hasDuplicateName, Bool.or_eq_true, decide_eq_true_eq] at h
        rw [List.map_cons, List.nodup_cons] at hnd'
        rcases h with h | h
        · exact hnd'.1 (by rw [strcmp_eq_zero h]; simp)
        · exact ih h hnd'.2
  · intro h
    by_contra hd
    rw [Bool.not_eq_true] at hd
    have hst := strict_of_no_duplicate (orderedMigrations_sorted ms) hd
    apply h
    have : ((orderedMigrations ms).map (fun m => m.name)).Nodup := by
      rw [List.Nodup, List.pairwise_map]
      exact hst.imp (fun hab => ne_of_lt hab)
    exact ((orderedMigrations_perm ms).map _).nodup_iff.1 this

theorem loopPlan_congr (env : ApplyEnv) (n1 n2 : List CStr) :
    ∀ (l : List sqlite_sram_migration_t),
      (∀ m ∈ l, n1.contains m.name = n2.contains m.name) →
      loopPlan env n1 l = loopPlan env n2 l
  | [], _ => rfl
  | m :: rest, h => by
    have hm := h m (List.mem_cons_self _ _)
    have ih := loopPlan_congr env n1 n2 rest (fun x hx => h x (List.mem_cons_of_mem _ hx))
    simp only [loopPlan, hm, ih]

theorem migrationStmts_append (a b : List Stmt) :
    migrationStmts (a ++ b) = migrationStmts a ++ migrationStmts b := by
  simp [migrationStmts, List.filterMap_append]

/-- The loop follows its summary. -/
theorem apply_loop_plan (env : ApplyEnv) : ∀ (l : List sqlite_sram_migration_t) (c : Conn)
    (L : List LedgerRow), c.txn = none → c.db.ledger = some L →
    (l.map (fun m => m.name)).Nodup →
    (apply_loop env c l).1 = (loopPlan env (L.map (fun r => r.name)) l).ok ∧
    (apply_loop env c l).2.txn = none ∧
    (apply_loop env c l).2.db =
      { c.db with
        schema := c.db.schema ++
          (loopPlan env (L.map (fun r => r.name)) l).applied.map (fun m => m.sql)
        ledger := some (L ++
          (loopPlan env (L.map (fun r => r.name)) l).applied.map (ledgerRowOf env)) } ∧
    migrationStmts (apply_loop env c l).2.trace =
      migrationStmts c.trace ++
        (loopPlan env (L.map (fun r => r.name)) l).attempted.map (fun m => m.sql) := by
  intro l
  induction l with
  | nil =>
    intro c L htx hL _
    simp [apply_loop, loopPlan, htx, ← hL]
  | cons m rest ih =>
    intro c L htx hL hnd
    rw [List.map_cons, List.nodup_cons] at hnd
    obtain ⟨⟨sch, led, snaps⟩, txn, tr⟩ := c
    simp only at htx hL
    subst htx
    subst hL
    have hany : (L.any fun r => r.name == m.name) =
        (L.map (fun r => r.name)).contains m.name := by
      rw [Bool.eq_iff_iff]
      simp
    rcases hf : env.faults m.name with ⟨q, b, s, r, k⟩
    cases hc : (L.map (fun r => r.name)).contains m.name
    · -- not yet recorded
      have hno : ¬ ∃ x ∈ L, x.name = m.name := by
        intro hx
        have : (L.map (fun r => r.name)).contains m.name = true := by simpa using hx
        rw [hc] at this
        exact Bool.false_ne_true this
      cases q
      · cases b
        · cases s
          · cases r
            · cases k
              · -- every call succeeds: the migration is committed and the loop goes on
                have hfresh : ∀ x ∈ rest,
                    ((L ++ [ledgerRowOf env m]).map (fun r => r.name)).contains x.name =
                      (L.map (fun r => r.name)).contains x.name := by
                  intro x hx
                  have hne : x.name ≠ m.name := by
                    intro he
                    exact hnd.1 (by rw [← he]; exact List.mem_map.2 ⟨x, hx, rfl⟩)
                  simp [ledgerRowOf, hne]
                have hplan := loopPlan_congr env _ _ rest hfresh
                obtain ⟨g1, g2, g3, g4⟩ := ih
                  ⟨⟨sch ++ [m.sql], some (L ++ [ledgerRowOf env m]), snaps⟩, none,
                    tr ++ [.begin_immediate, .migration m.sql, .commit]⟩
                  (L ++ [ledgerRowOf env m]) rfl rfl hnd.2
                rw [hplan] at g1 g3 g4
                simp only [apply_loop, loopPlan, sqlite_sram_migration_applied,
                  sqlite_sram_exec, sqlite_sram_record_migration, Conn.view, Conn.write, hf,
                  hany, hc]
                simp only [migrationStmts_append] at g4 ⊢
                simp [ledgerRowOf, hno] at g1 g2 g3 g4 ⊢
                refine ⟨g1, g2, ?_, ?_⟩
                · rw [g3]
                · rw [g4]; simp [migrationStmts]
              · simp [apply_loop, loopPlan, sqlite_sram_migration_applied,
                  sqlite_sram_exec, sqlite_sram_record_migration, Conn.view, Conn.write, hf,
                  hany, hc, hno, migrationStmts]
            · simp [apply_loop, loopPlan, sqlite_sram_migration_applied,
                sqlite_sram_exec, sqlite_sram_record_migration, Conn.view, Conn.write, hf,
                hany, hc, hno, migrationStmts]
          · simp [apply_loop, loopPlan, sqlite_sram_migration_applied,
              sqlite_sram_exec, sqlite_sram_record_migration, Conn.view, Conn.write, hf,
              hany, hc, hno, migrationStmts]
        · simp [apply_loop, loopPlan, sqlite_sram_migration_applied,
            sqlite_sram_exec, sqlite_sram_record_migration, Conn.view, Conn.write, hf,
            hany, hc, hno, migrationStmts]
      · simp [apply_loop, loopPlan, sqlite_sram_migration_applied,
          sqlite_sram_exec, sqlite_sram_record_migration, Conn.view, Conn.write, hf,
          hany, hc, hno, migrationStmts]
    · -- already recorded
      have hyes : ∃ x ∈ L, x.name = m.name := by simpa using hc
      cases q
      · obtain ⟨g1, g2, g3, g4⟩ := ih ⟨⟨sch, some L, snaps⟩, none, tr⟩ L rfl rfl hnd.2
        simp only [apply_loop, loopPlan, sqlite_sram_migration_applied, Conn.view, hf,
          hany, hc]
        simpa [hyes] using ⟨g1, g2, g3, g4⟩
      · simp [apply_loop, loopPlan, sqlite_sram_migration_applied,
          sqlite_sram_exec, sqlite_sram_record_migration, Conn.view, Conn.write, hf,
          hany, hc, hyes, migrationStmts]

theorem contains_eq_decide_mem (names : List CStr) (n : CStr) :
    names.contains n = decide (n ∈ names) := by
  rw [Bool.eq_iff_iff]
  simp

/-- A run that ends well committed every migration that was not yet recorded, and passed
the SQL of exactly those to the engine. -/
theorem loopPlan_ok (env : ApplyEnv) (names : List CStr) :
    ∀ (l : List sqlite_sram_migration_t), (loopPlan env names l).ok = true →
      (loopPlan env names l).applied = l.filter (fun m => !(names.contains m.name)) ∧
      (loopPlan env names l).attempted = (loopPlan env names l).applied
  | [], _ => by simp [loopPlan]
  | m :: rest, h => by
    rcases hf : env.faults m.name with ⟨q, b, s, r, k⟩
    by_cases hmem : m.name ∈ names
    · cases q
      · simp only [loopPlan, hf, contains_eq_decide_mem, hmem, decide_True, if_true,
          Bool.false_eq_true, if_false] at h
        have ih := loopPlan_ok env names rest h
        simp only [contains_eq_decide_mem] at ih
        simp [loopPlan, hf, contains_eq_decide_mem, hmem, List.filter_cons, ih.1, ih.2]
      · simp [loopPlan, hf] at h
    · cases q <;> cases b <;> cases s <;> cases r <;> cases k <;>
        simp only [loopPlan, hf, contains_eq_decide_mem, hmem, decide_False, if_true,
          Bool.false_eq_true, if_false, Bool.or_false, Bool.or_true, Bool.or_self] at h
      have ih := loopPlan_ok env names rest h
      simp only [contains_eq_decide_mem] at ih
      simp [loopPlan, hf, contains_eq_decide_mem, hmem, List.filter_cons, ih.1, ih.2]

/-- When every migration is recorded already, nothing is committed or executed, and only
a failing ledger query can make the run fail. -/
theorem loopPlan_all_recorded (env : ApplyEnv) (names : List CStr) :
    ∀ (l : List sqlite_sram_migration_t), (∀ m ∈ l, m.name ∈ names) →
      (loopPlan env names l).applied = [] ∧ (loopPlan env names l).attempted = [] ∧
      ((∀ m ∈ l, (env.faults m.name).query_fails = false) → (loopPlan env names l).ok = true)
  | [], _ => by simp [loopPlan]
  | m :: rest, h => by
    have hm := h m (List.mem_cons_self _ _)
    have ih := loopPlan_all_recorded env names rest (fun x hx => h x (List.mem_cons_of_mem _ hx))
    cases hq : (env.faults m.name).query_fails
    · simp only [loopPlan, hq, contains_eq_decide_mem, hm, decide_True, if_true,
        Bool.false_eq_true, if_false]
      exact ⟨ih.1, ih.2.1, fun hall => ih.2.2 (fun x hx => hall x (List.mem_cons_of_mem _ hx))⟩
    · simp only [loopPlan, hq, if_true, true_and]
      intro hall
      have := hall m (List.mem_cons_self _ _)
      rw [hq] at this
      exact absurd this (by decide)

/-- Whatever fails, the migrations committed form an initial segment of those that were
not yet recorded. -/
theorem loopPlan_applied_prefix (env : ApplyEnv) (names : List CStr) :
    ∀ (l : List sqlite_sram_migration_t),
      (loopPlan env names l).applied <+: l.filter (fun m => !(names.contains m.name))
  | [] => by simp [loopPlan]
  | m :: rest => by
    have ih := loopPlan_applied_prefix env names rest
    simp only [contains_eq_decide_mem] at ih
    rcases hf : env.faults m.name with ⟨q, b, s, r, k⟩
    by_cases hmem : m.name ∈ names
    · cases q <;>
        simp [loopPlan, hf, contains_eq_decide_mem, hmem, List.filter_cons, ih]
    · cases q <;> cases b <;> cases s <;> cases r <;> cases k <;>
        simp [loopPlan, hf, contains_eq_decide_mem, hmem, List.filter_cons,
          List.prefix_cons_inj, ih]

/-- Fail-fast: when `m` is the first migration to meet a failure, and the failure is in
one of the calls that apply it, the run fails, the pending migrations before `m` are
committed and nothing else, and no SQL of a later migration reaches the engine. -/
theorem loopPlan_first_failure (env : ApplyEnv) (names : List CStr)
    (m : sqlite_sram_migration_t) (post : List sqlite_sram_migration_t)
    (hq : (env.faults m.name).query_fails = false)
    (hm : m.name ∉ names)
    (hstep : (env.faults m.name).any_step = true) :
    ∀ (pre : List sqlite_sram_migration_t),
      (∀ x ∈ pre, (env.faults x.name).query_fails = false ∧
        (x.name ∉ names → (env.faults x.name).any_step = false)) →
      (loopPlan env names (pre ++ m :: post)).ok = false ∧
      (loopPlan env names (pre ++ m :: post)).applied =
        pre.filter (fun x => !(names.contains x.name)) ∧
      (loopPlan env names (pre ++ m :: post)).attempted =
        pre.filter (fun x => !(names.contains x.name)) ++
          (if (env.faults m.name).begin_fails then [] else [m])
  | [], _ => by
    rcases hf : env.faults m.name with ⟨q, b, s, r, k⟩
    rw [hf] at hq hstep
    simp only at hq
    subst hq
    cases b <;> cases s <;> cases r <;> cases k <;>
      simp [MigrationFaults.any_step] at hstep <;>
      simp [loopPlan, hf, contains_eq_decide_mem, hm]
  | x :: pre, h => by
    have hx := h x (List.mem_cons_self _ _)
    have ih := loopPlan_first_failure env names m post hq hm hstep pre
      (fun y hy => h y (List.mem_cons_of_mem _ hy))
    simp only [contains_eq_decide_mem] at ih
    rcases hf : env.faults x.name with ⟨q, b, s, r, k⟩
    rw [hf] at hx
    obtain ⟨hxq, hxs⟩ := hx
    simp only at hxq
    subst hxq
    by_cases hmem : x.name ∈ names
    · simp [loopPlan, hf, contains_eq_decide_mem, hmem, List.filter_cons, ih.1, ih.2.1,
        ih.2.2]
    · have hs := hxs hmem
      simp only [MigrationFaults.any_step, Bool.or_eq_false_iff] at hs
      obtain ⟨⟨⟨rfl, rfl⟩, rfl⟩, rfl⟩ := hs
      simp [loopPlan, hf, contains_eq_decide_mem, hmem, List.filter_cons, ih.1, ih.2.1,
        ih.2.2]

/-- The whole run follows the summary of its loop, started from the names the ledger holds
on entry. -/
theorem apply_migrations_plan (env : ApplyEnv) (ms : List sqlite_sram_migration_t) (c : Conn)
    (htx : c.txn = none) (hnd : (ms.map (fun m => m.name)).Nodup)
    (hcreate : env.create_fails = false) :
    (sqlite_sram_apply_migrations env ms c).1 =
      (loopPlan env c.db.ledgerNames (orderedMigrations ms)).ok ∧
    (sqlite_sram_apply_migrations env ms c).2.txn = none ∧
    (sqlite_sram_apply_migrations env ms c).2.db =
      { c.db with
        schema := c.db.schema ++
          (loopPlan env c.db.ledgerNames (orderedMigrations ms)).applied.map (fun m => m.sql)
        ledger := some (c.db.ledgerRows ++
          (loopPlan env c.db.ledgerNames (orderedMigrations ms)).applied.map
            (ledgerRowOf env)) } ∧
    migrationStmts (sqlite_sram_apply_migrations env ms c).2.trace =
      migrationStmts c.trace ++
        (loopPlan env c.db.ledgerNames (orderedMigrations ms)).attempted.map
          (fun m => m.sql) := by
  have hdup : hasDuplicateName (orderedMigrations ms) = false := by
    rw [← Bool.not_eq_true, hasDuplicateName_ordered]
    exact not_not.2 hnd
  have hnd' : ((orderedMigrations ms).map (fun m => m.name)).Nodup :=
    ((orderedMigrations_perm ms).map _).nodup_iff.2 hnd
  obtain ⟨⟨sch, led, snaps⟩, txn, tr⟩ := c
  simp only at htx
  subst htx
  cases led with
  | none =>
    obtain ⟨g1, g2, g3, g4⟩ := apply_loop_plan env (orderedMigrations ms)
      ⟨⟨sch, some [], snaps⟩, none, tr ++ [.create_ledger]⟩ [] rfl rfl hnd'
    simp only [sqlite_sram_apply_migrations, sqlite_sram_exec, hcreate, Conn.view,
      Conn.write, hdup, Db.ledgerNames, Db.ledgerRows]
    have hcl : migrationStmts [Stmt.create_ledger] = [] := rfl
    simp only [migrationStmts_append, hcl, List.append_nil] at g4
    simpa using ⟨g1, g2, g3, g4⟩
  | some L =>
    obtain ⟨g1, g2, g3, g4⟩ := apply_loop_plan env (orderedMigrations ms)
      ⟨⟨sch, some L, snaps⟩, none, tr ++ [.create_ledger]⟩ L rfl rfl hnd'
    simp only [sqlite_sram_apply_migrations, sqlite_sram_exec, hcreate, Conn.view,
      Conn.write, hdup, Db.ledgerNames, Db.ledgerRows]
    have hcl : migrationStmts [Stmt.create_ledger] = [] := rfl
    simp only [migrationStmts_append, hcl, List.append_nil] at g4
    simpa using ⟨g1, g2, g3, g4⟩

theorem apply_migrations_create_fails (env : ApplyEnv) (ms : List sqlite_sram_migration_t)
    (c : Conn) (hcreate : env.create_fails = true) :
    sqlite_sram_apply_migrations env ms c =
      (false, { c with trace := c.trace ++ [.create_ledger] }) := by
  simp [sqlite_sram_apply_migrations, sqlite_sram_exec, hcreate]

theorem pendingMigrations_sorted (ms : List sqlite_sram_migration_t) (d : Db)
    (hnd : (ms.map (fun m => m.name)).Nodup) :
    (pendingMigrations ms d).Pairwise (fun a b => a.name < b.name) := by
  have hdup : hasDuplicateName (orderedMigrations ms) = false := by
    rw [← Bool.not_eq_true, hasDuplicateName_ordered]
    exact not_not.2 hnd
  exact (strict_of_no_duplicate (orderedMigrations_sorted ms) hdup).sublist
    (List.filter_sublist _)

theorem mem_pendingMigrations (ms : List sqlite_sram_migration_t) (d : Db)
    (m : sqlite_sram_migration_t) :
    m ∈ pendingMigrations ms d ↔ m ∈ ms ∧ m.name ∉ d.ledgerNames := by
  unfold pendingMigrations
  rw [List.mem_filter, (orderedMigrations_perm ms).mem_iff, contains_eq_decide_mem]
  simp

/-! ## C5 -/

/-- C5: with pairwise distinct names, a successful `sqlite_sram_apply_migrations` passes to
the engine the SQL of exactly the migrations whose name is not in the ledger, in strictly
ascending name order, commits each and records each; any second call right after leaves
the database as it is and passes no migration SQL to the engine, and it succeeds unless
the ledger statement or a ledger query fails. -/
theorem C5_apply_migrations_idempotent (env : ApplyEnv)
    (ms : List sqlite_sram_migration_t) (c c' : Conn) (htx : c.txn = none)
    (hnd : (ms.map (fun m => m.name)).Nodup)
    (h : sqlite_sram_apply_migrations env ms c = (true, c')) :
    (pendingMigrations ms c.db).Pairwise (fun a b => a.name < b.name) ∧
    (∀ m, m ∈ pendingMigrations ms c.db ↔ m ∈ ms ∧ m.name ∉ c.db.ledgerNames) ∧
    migrationStmts c'.trace =
      migrationStmts c.trace ++ (pendingMigrations ms c.db).map (fun m => m.sql) ∧
    c'.db.schema = c.db.schema ++ (pendingMigrations ms c.db).map (fun m => m.sql) ∧
    c'.db.ledgerRows =
      c.db.ledgerRows ++ (pendingMigrations ms c.db).map (ledgerRowOf env) ∧
    (∀ env2 : ApplyEnv,
      (sqlite_sram_apply_migrations env2 ms c').2.db = c'.db ∧
      migrationStmts (sqlite_sram_apply_migrations env2 ms c').2.trace =
        migrationStmts c'.trace ∧
      (env2.create_fails = false → (∀ m ∈ ms, (env2.faults m.name).query_fails = false) →
        (sqlite_sram_apply_migrations env2 ms c').1 = true)) := by
  have hcreate : env.create_fails = false := by
    cases hcf : env.create_fails
    · rfl
    · rw [apply_migrations_create_fails env ms c hcf] at h
      simp at h
  obtain ⟨g1, g2, g3, g4⟩ := apply_migrations_plan env ms c htx hnd hcreate
  rw [h] at g1 g2 g3 g4
  simp only at g1 g2 g3 g4
  obtain ⟨p1, p2⟩ := loopPlan_ok env c.db.ledgerNames (orderedMigrations ms) g1.symm
  have happ : (loopPlan env c.db.ledgerNames (orderedMigrations ms)).applied =
      pendingMigrations ms c.db := p1
  rw [p2, happ] at g4
  rw [happ] at g3
  have hsch : c'.db.schema =
      c.db.schema ++ (pendingMigrations ms c.db).map (fun m => m.sql) := by rw [g3]
  have hled : c'.db.ledger = some
      (c.db.ledgerRows ++ (pendingMigrations ms c.db).map (ledgerRowOf env)) := by rw [g3]
  have hrows : c'.db.ledgerRows =
      c.db.ledgerRows ++ (pendingMigrations ms c.db).map (ledgerRowOf env) := by
    simp [Db.ledgerRows, hled]
  refine ⟨pendingMigrations_sorted ms c.db hnd, mem_pendingMigrations ms c.db, g4, hsch,
    hrows, ?_⟩
  intro env2
  -- every name is in the ledger now
  have hall : ∀ m ∈ orderedMigrations ms, m.name ∈ c'.db.ledgerNames := by
    intro m hm
    have hm' : m ∈ ms := (orderedMigrations_perm ms).mem_iff.1 hm
    by_cases hold : m.name ∈ c.db.ledgerNames
    · have : m.name ∈ (c.db.ledgerRows).map (fun r => r.name) := hold
      simp only [Db.ledgerNames, hled, Option.getD_some, List.map_append, List.mem_append]
      exact Or.inl this
    · have hp := (mem_pendingMigrations ms c.db m).2 ⟨hm', hold⟩
      simp only [Db.ledgerNames, hled, Option.getD_some, List.map_append, List.mem_append]
      exact Or.inr (List.mem_map.2 ⟨ledgerRowOf env m, List.mem_map.2 ⟨m, hp, rfl⟩, rfl⟩)
  cases hcf : env2.create_fails
  · obtain ⟨k1, k2, k3, k4⟩ := apply_migrations_plan env2 ms c' g2 hnd hcf
    obtain ⟨q1, q2, q3⟩ := loopPlan_all_recorded env2 c'.db.ledgerNames
      (orderedMigrations ms) hall
    rw [q1] at k3
    rw [q2] at k4
    refine ⟨?_, by simpa using k4, ?_⟩
    · rw [k3]
      cases hd : c'.db with
      | mk s l t =>
        rw [hd] at hled
        simp only at hled
        simp [Db.ledgerRows, hled]
    · intro _ hq
      rw [k1]
      exact q3 (fun m hm => hq m ((orderedMigrations_perm ms).mem_iff.1 hm))
  · rw [apply_migrations_create_fails env2 ms c' hcf]
    refine ⟨rfl, ?_, fun h0 => absurd h0 (by simp)⟩
    simp [migrationStmts_append, migrationStmts]

/-! ## C6 -/

/-- C6: when two entries of the migration list share a name, wherever they stand,
`sqlite_sram_apply_migrations` returns failure; the only statement it passes to the engine
is the one that creates the ledger table, so no migration SQL runs, and the schema and the
rows of the ledger are the same as before, both as committed and as seen on the
connection. -/
theorem C6_duplicate_names_abort (env : ApplyEnv) (ms : List sqlite_sram_migration_t)
    (c : Conn) (hdup : ¬ (ms.map (fun m => m.name)).Nodup) :
    (sqlite_sram_apply_migrations env ms c).1 = false ∧
    (sqlite_sram_apply_migrations env ms c).2.trace = c.trace ++ [.create_ledger] ∧
    migrationStmts (sqlite_sram_apply_migrations env ms c).2.trace =
      migrationStmts c.trace ∧
    (sqlite_sram_apply_migrations env ms c).2.db.schema = c.db.schema ∧
    (sqlite_sram_apply_migrations env ms c).2.db.ledgerRows = c.db.ledgerRows ∧
    (sqlite_sram_apply_migrations env ms c).2.view.schema = c.view.schema ∧
    (sqlite_sram_apply_migrations env ms c).2.view.ledgerRows = c.view.ledgerRows := by
  have hd : hasDuplicateName (orderedMigrations ms) = true :=
    (hasDuplicateName_ordered ms).2 hdup
  have hcl : migrationStmts [Stmt.create_ledger] = [] := rfl
  obtain ⟨⟨sch, led, snaps⟩, txn, tr⟩ := c
  cases hcf : env.create_fails
  · cases txn with
    | none =>
      cases led <;>
        simp [sqlite_sram_apply_migrations, sqlite_sram_exec, hcf, hd, Conn.view, Conn.write,
          Db.ledgerRows, migrationStmts_append, hcl]
    | some d =>
      obtain ⟨s2, l2, t2⟩ := d
      cases l2 <;>
        simp [sqlite_sram_apply_migrations, sqlite_sram_exec, hcf, hd, Conn.view, Conn.write,
          Db.ledgerRows, migrationStmts_append, hcl]
  · simp [sqlite_sram_apply_migrations, sqlite_sram_exec, hcf, Conn.view,
      migrationStmts_append, hcl]

/-! ## C7 -/

/-- C7: on a connection outside a transaction and with pairwise distinct names, a run of
`sqlite_sram_apply_migrations` ends, whatever fails, outside a transaction with the SQL of
an initial segment of the pending migrations committed and exactly the ledger rows of
that same segment added (so a migration is recorded iff its SQL is committed), the whole
pending list when it returns success.  If `m` is the first migration in name order to meet
a failure, in one of the calls that apply it, the run returns failure, what is committed
and recorded beyond the old content is the pending migrations before `m`, `m` is not
recorded, every name recorded before stays, and the migration SQL passed to the engine is
that of those earlier migrations and, unless `BEGIN` failed, of `m`: no later one. -/
theorem C7_migration_atomic_fail_fast (env : ApplyEnv) (ms : List sqlite_sram_migration_t)
    (c : Conn) (htx : c.txn = none) (hnd : (ms.map (fun m => m.name)).Nodup) :
    (∃ done, done <+: pendingMigrations ms c.db ∧
      (sqlite_sram_apply_migrations env ms c).2.txn = none ∧
      (sqlite_sram_apply_migrations env ms c).2.db.schema =
        c.db.schema ++ done.map (fun m => m.sql) ∧
      (sqlite_sram_apply_migrations env ms c).2.db.ledgerRows =
        c.db.ledgerRows ++ done.map (ledgerRowOf env) ∧
      ((sqlite_sram_apply_migrations env ms c).1 = true →
        done = pendingMigrations ms c.db)) ∧
    (∀ pre m post, orderedMigrations ms = pre ++ m :: post →
      env.create_fails = false →
      m.name ∉ c.db.ledgerNames →
      (env.faults m.name).query_fails = false →
      (env.faults m.name).any_step = true →
      (∀ x ∈ pre, (env.faults x.name).query_fails = false ∧
        (x.name ∉ c.db.ledgerNames → (env.faults x.name).any_step = false)) →
      (sqlite_sram_apply_migrations env ms c).1 = false ∧
      (sqlite_sram_apply_migrations env ms c).2.db.schema = c.db.schema ++
        (pre.filter (fun x => !(c.db.ledgerNames.contains x.name))).map (fun x => x.sql) ∧
      (sqlite_sram_apply_migrations env ms c).2.db.ledgerRows = c.db.ledgerRows ++
        (pre.filter (fun x => !(c.db.ledgerNames.contains x.name))).map (ledgerRowOf env) ∧
      m.name ∉ (sqlite_sram_apply_migrations env ms c).2.db.ledgerNames ∧
      (∀ n ∈ c.db.ledgerNames, n ∈ (sqlite_sram_apply_migrations env ms c).2.db.ledgerNames) ∧
      migrationStmts (sqlite_sram_apply_migrations env ms c).2.trace =
        migrationStmts c.trace ++
          (pre.filter (fun x => !(c.db.ledgerNames.contains x.name))).map (fun x => x.sql) ++
          (if (env.faults m.name).begin_fails then [] else [m.sql])) := by
  constructor
  · cases hcf : env.create_fails
    · obtain ⟨g1, g2, g3, g4⟩ := apply_migrations_plan env ms c htx hnd hcf
      refine ⟨(loopPlan env c.db.ledgerNames (orderedMigrations ms)).applied,
        loopPlan_applied_prefix env _ _, g2, by rw [g3], by rw [g3]; simp [Db.ledgerRows], ?_⟩
      intro hok
      rw [g1] at hok
      exact (loopPlan_ok env _ _ hok).1
    · rw [apply_migrations_create_fails env ms c hcf]
      exact ⟨[], List.nil_prefix, htx, by simp, by simp, fun h0 => absurd h0 (by simp)⟩
  · intro pre m post hsplit hcf hm hq hstep hpre
    obtain ⟨g1, g2, g3, g4⟩ := apply_migrations_plan env ms c htx hnd hcf
    obtain ⟨p1, p2, p3⟩ := loopPlan_first_failure env c.db.ledgerNames m post hq hm hstep
      pre hpre
    rw [← hsplit] at p1 p2 p3
    rw [p1] at g1
    rw [p2] at g3
    rw [p3] at g4
    have hrows : (sqlite_sram_apply_migrations env ms c).2.db.ledgerRows = c.db.ledgerRows ++
        (pre.filter (fun x => !(c.db.ledgerNames.contains x.name))).map (ledgerRowOf env) := by
      rw [g3]; simp [Db.ledgerRows]
    have hnames : (sqlite_sram_apply_migrations env ms c).2.db.ledgerNames =
        c.db.ledgerNames ++
          (pre.filter (fun x => !(c.db.ledgerNames.contains x.name))).map (fun x => x.name) := by
      have : (sqlite_sram_apply_migrations env ms c).2.db.ledgerNames =
          ((sqlite_sram_apply_migrations env ms c).2.db.ledgerRows).map (fun r => r.name) := rfl
      rw [this, hrows, List.map_append, List.map_map]
      rfl
    have hnd' : ((orderedMigrations ms).map (fun m => m.name)).Nodup :=
      ((orderedMigrations_perm ms).map _).nodup_iff.2 hnd
    rw [hsplit, List.map_append, List.map_cons, List.nodup_append] at hnd'
    refine ⟨g1, by rw [g3], hrows, ?_, ?_, ?_⟩
    · rw [hnames, List.mem_append]
      rintro (h1 | h1)
      · exact hm h1
      · obtain ⟨x, hx, hxe⟩ := List.mem_map.1 h1
        exact hnd'.2.2 (List.mem_map.2 ⟨x, (List.mem_filter.1 hx).1, hxe⟩)
          (List.mem_cons_self _ _)
    · intro n hn
      rw [hnames]
      exact List.mem_append_left _ hn
    · rw [g4, List.map_append, List.append_assoc]
      cases (env.faults m.name).begin_fails <;> simp

/-- C5 at a concrete input: the two generated migrations, listed in reverse, are applied
to a fresh database; a second run leaves the database as it is. -/
theorem C5_witness :
    (sqlite_sram_apply_migrations ApplyEnv.none g_sqlite_sram_migrations.reverse
      (sqlite_sram_apply_migrations ApplyEnv.none g_sqlite_sram_migrations.reverse
        (Conn.onDb Db.empty)).2).2.db =
    (sqlite_sram_apply_migrations ApplyEnv.none g_sqlite_sram_migrations.reverse
        (Conn.onDb Db.empty)).2.db :=
  ((C5_apply_migrations_idempotent ApplyEnv.none g_sqlite_sram_migrations.reverse
    (Conn.onDb Db.empty) _ rfl (by decide) (by decide)).2.2.2.2.2 ApplyEnv.none).1

/-- C6 at a concrete input: `duplicateMigrations` is refused. -/
theorem C6_witness :
    (sqlite_sram_apply_migrations ApplyEnv.none duplicateMigrations
      (Conn.onDb Db.empty)).1 = false :=
  (C6_duplicate_names_abort ApplyEnv.none duplicateMigrations (Conn.onDb Db.empty)
    (by decide)).1

/-- C7 at a concrete input: with the `COMMIT` of `002_b` failing, `001_a` stays applied
and recorded, `002_b` is neither, and the SQL of `003_c` never reaches the engine. -/
theorem C7_witness :
    (sqlite_sram_apply_migrations commitFailsAtB exampleMigrations
      (Conn.onDb Db.empty)).1 = false ∧
    (sqlite_sram_apply_migrations commitFailsAtB exampleMigrations
      (Conn.onDb Db.empty)).2.db.schema = ["A"] ∧
    migrationStmts (sqlite_sram_apply_migrations commitFailsAtB exampleMigrations
      (Conn.onDb Db.empty)).2.trace = ["A", "B"] :=
  have h := (C7_migration_atomic_fail_fast commitFailsAtB exampleMigrations
    (Conn.onDb Db.empty) rfl (by decide)).2
    [⟨cstr "001_a", "A"⟩] ⟨cstr "002_b", "B"⟩ [⟨cstr "003_c", "C"⟩]
    (by decide) rfl (by decide) (by decide) (by decide) (by decide)
  ⟨h.1, h.2.1, h.2.2.2.2.2⟩

theorem g_sqlite_sram_migrations_nodup :
    (g_sqlite_sram_migrations.map (fun m => m.name)).Nodup := by decide

/-- Running the migrations never touches the rows of `snapshots`. -/
theorem apply_migrations_snapshots (env : ApplyEnv) (c : Conn) (htx : c.txn = none) :
    (sqlite_sram_apply_migrations env g_sqlite_sram_migrations c).2.txn = none ∧
    (sqlite_sram_apply_migrations env g_sqlite_sram_migrations c).2.db.snapshots =
      c.db.snapshots := by
  cases hcf : env.create_fails
  · obtain ⟨-, g2, g3, -⟩ := apply_migrations_plan env g_sqlite_sram_migrations c htx
      g_sqlite_sram_migrations_nodup hcf
    exact ⟨g2, by rw [g3]⟩
  · rw [apply_migrations_create_fails env _ c hcf]
    exact ⟨htx, rfl⟩

theorem exec_pragma (fails : Bool) (c : Conn) (text : String) :
    sqlite_sram_exec fails c (.pragma text) =
      (!fails, { c with trace := c.trace ++ [.pragma text] }) := rfl

/-- Preparing a connection never touches the rows of `snapshots`. -/
theorem prepare_db_snapshots (f : OpenFaults) (c : Conn) (htx : c.txn = none) :
    (sqlite_sram_prepare_db f c).2.txn = none ∧
    (sqlite_sram_prepare_db f c).2.db.snapshots = c.db.snapshots := by
  unfold sqlite_sram_prepare_db
  simp only [exec_pragma]
  cases f.pragma_fails 0
  · cases f.pragma_fails 1
    · cases f.pragma_fails 2
      · cases f.pragma_fails 3
        · cases f.pragma_fails 4
          · simp only [Bool.not_false, Bool.not_true, Bool.false_eq_true, if_false]
            exact apply_migrations_snapshots f.apply _ htx
          · simpa using htx
        · simpa using htx
      · simpa using htx
    · simpa using htx
  · simpa using htx

/-- Opening the database never touches the rows of `snapshots`; a connection it returns is
outside a transaction and shows the content the file has after the call. -/
theorem open_db_snapshots (f : OpenFaults) (file : Option Db) (db_path : CStr) :
    ((sqlite_sram_open_db f file db_path).2.getD Db.empty).snapshots =
      (file.getD Db.empty).snapshots ∧
    (∀ db, (sqlite_sram_open_db f file db_path).1 = some db →
      db.txn = none ∧ (sqlite_sram_open_db f file db_path).2 = some db.db ∧
      db.db.snapshots = (file.getD Db.empty).snapshots) := by
  have hp := prepare_db_snapshots f (Conn.onDb (file.getD Db.empty)) rfl
  unfold sqlite_sram_open_db
  by_cases h0 : db_path.length = 0
  · simp [h0]
  · cases f.open_fails
    · cases h1 : (sqlite_sram_prepare_db f (Conn.onDb (file.getD Db.empty))).1
      · simp only [h0, if_false, Bool.false_eq_true, h1, Bool.not_false, if_true,
          Option.getD_some]
        exact ⟨hp.2, fun db hdb => by simp at hdb⟩
      · simp only [h0, if_false, Bool.false_eq_true, h1, Bool.not_true, Option.getD_some]
        refine ⟨hp.2, fun db hdb => ?_⟩
        simp only [Option.some.injEq] at hdb
        subst hdb
        exact ⟨hp.1, rfl, hp.2⟩
    · simp [h0]

/-- The slot record after one flush attempt on a slot that is enabled, dirty and bound. -/
theorem try_flush_slot (env : Env) (f : FlushFaults) (w : World) (slot : Nat)
    (hslot : slot < SQLITE_SRAM_MAX_SLOTS) (hen : (w.g_slots slot).enabled = true)
    (hdirty : (w.g_slots slot).dirty = true) (himg : (w.g_slots slot).img.isSome = true) :
    (sqlite_sram_try_flush env f w slot).g_slots slot =
      if flush_steps_ok f w slot = true
      then { w.g_slots slot with dirty := false, flush_timer := 0 }
      else retryLater env (w.g_slots slot) := by
  have hs : ¬ slot ≥ SQLITE_SRAM_MAX_SLOTS := by omega
  have hi : (w.g_slots slot).img.isNone = false := by
    cases h : (w.g_slots slot).img <;> simp_all
  unfold sqlite_sram_try_flush flush_steps_ok flush_read flush_open
  simp only [hs, if_false, hen, hdirty, hi, Bool.not_true, Bool.or_self]
  cases hrd : (sqlite_sram_read_image f.read (w.g_slots slot).img).1
  · simp [World.setSlot]
  · simp only [Bool.not_true, Bool.false_eq_true, if_false]
    cases ho : (sqlite_sram_open_db f.opening (w.files (w.g_slots slot).db_path)
        (w.g_slots slot).db_path).1 with
    | none => simp [World.setSlot, World.setFile]
    | some db =>
      simp only
      split <;> split <;> simp_all [World.setSlot, World.setFile]

/-! ## C8 -/

/-- C8: one `sqlite_sram_try_flush` attempt on an enabled, dirty slot with a bound backing
store.  If reading the image fails, or opening the database fails, or the comparison with
the latest row fails, or the insert fails, the slot keeps `dirty = true` and its
`flush_timer` becomes `GetTimer(60000)`; if every step succeeds (with or without an
insert) the slot gets `dirty = false` and `flush_timer = 0`.  A failed attempt followed by
one in which every step succeeds ends with `dirty = false` and `flush_timer = 0`. -/
theorem C8_flush_outcome (env : Env) (f : FlushFaults) (w : World) (slot : Nat)
    (hslot : slot < SQLITE_SRAM_MAX_SLOTS) (hen : (w.g_slots slot).enabled = true)
    (hdirty : (w.g_slots slot).dirty = true) (himg : (w.g_slots slot).img.isSome = true) :
    (retryLater env (w.g_slots slot)).dirty = true ∧
    (retryLater env (w.g_slots slot)).flush_timer = env.GetTimer 60000 % 2 ^ 32 ∧
    ((flush_read f w slot).1 = false →
      (sqlite_sram_try_flush env f w slot).g_slots slot = retryLater env (w.g_slots slot)) ∧
    ((flush_read f w slot).1 = true → (flush_open f w slot).1 = none →
      (sqlite_sram_try_flush env f w slot).g_slots slot = retryLater env (w.g_slots slot)) ∧
    (∀ db, (flush_read f w slot).1 = true → (flush_open f w slot).1 = some db →
      (sqlite_sram_latest_matches f.compare db (flush_read f w slot).2).1 = false →
      (sqlite_sram_try_flush env f w slot).g_slots slot = retryLater env (w.g_slots slot)) ∧
    (∀ db, (flush_read f w slot).1 = true → (flush_open f w slot).1 = some db →
      sqlite_sram_latest_matches f.compare db (flush_read f w slot).2 = (true, false) →
      (sqlite_sram_insert f.insert f.now db (flush_read f w slot).2).1 = false →
      (sqlite_sram_try_flush env f w slot).g_slots slot = retryLater env (w.g_slots slot)) ∧
    (∀ db, (flush_read f w slot).1 = true → (flush_open f w slot).1 = some db →
      sqlite_sram_latest_matches f.compare db (flush_read f w slot).2 = (true, true) →
      (sqlite_sram_try_flush env f w slot).g_slots slot =
        { w.g_slots slot with dirty := false, flush_timer := 0 }) ∧
    (∀ db, (flush_read f w slot).1 = true → (flush_open f w slot).1 = some db →
      sqlite_sram_latest_matches f.compare db (flush_read f w slot).2 = (true, false) →
      (sqlite_sram_insert f.insert f.now db (flush_read f w slot).2).1 = true →
      (sqlite_sram_try_flush env f w slot).g_slots slot =
        { w.g_slots slot with dirty := false, flush_timer := 0 }) ∧
    (∀ (f2 : FlushFaults) (db2 : Conn),
      ((sqlite_sram_try_flush env f w slot).g_slots slot).dirty = true →
      (flush_read f2 (sqlite_sram_try_flush env f w slot) slot).1 = true →
      (flush_open f2 (sqlite_sram_try_flush env f w slot) slot).1 = some db2 →
      (sqlite_sram_latest_matches f2.compare db2
          (flush_read f2 (sqlite_sram_try_flush env f w slot) slot).2 = (true, true) ∨
        (sqlite_sram_latest_matches f2.compare db2
            (flush_read f2 (sqlite_sram_try_flush env f w slot) slot).2 = (true, false) ∧
          (sqlite_sram_insert f2.insert f2.now db2
            (flush_read f2 (sqlite_sram_try_flush env f w slot) slot).2).1 = true)) →
      ((sqlite_sram_try_flush env f2 (sqlite_sram_try_flush env f w slot) slot).g_slots
          slot).dirty = false ∧
      ((sqlite_sram_try_flush env f2 (sqlite_sram_try_flush env f w slot) slot).g_slots
          slot).flush_timer = 0) := by
  have key := try_flush_slot env f w slot hslot hen hdirty himg
  refine ⟨hdirty, rfl, ?_, ?_, ?_, ?_, ?_, ?_, ?_⟩
  · intro h
    rw [key]
    simp [flush_steps_ok, h]
  · intro h1 h2
    rw [key]
    simp [flush_steps_ok, h1, h2]
  · intro db h1 h2 h3
    rw [key]
    simp [flush_steps_ok, h1, h2, h3]
  · intro db h1 h2 h3 h4
    rw [key]
    simp [flush_steps_ok, h1, h2, h3, h4]
  · intro db h1 h2 h3
    rw [key]
    simp [flush_steps_ok, h1, h2, h3]
  · intro db h1 h2 h3 h4
    rw [key]
    simp [flush_steps_ok, h1, h2, h3, h4]
  · intro f2 db2 hd h1 h2 h3
    -- a failed attempt leaves the record as it was, but for the timer
    have hretry : (sqlite_sram_try_flush env f w slot).g_slots slot =
        retryLater env (w.g_slots slot) := by
      rw [key] at hd ⊢
      split at hd
      · simp at hd
      · simp [*]
    have hen' : ((sqlite_sram_try_flush env f w slot).g_slots slot).enabled = true := by
      rw [hretry]; exact hen
    have himg' : ((sqlite_sram_try_flush env f w slot).g_slots slot).img.isSome = true := by
      rw [hretry]; exact himg
    have key2 := try_flush_slot env f2 (sqlite_sram_try_flush env f w slot) slot hslot hen'
      hd himg'
    rw [key2]
    rcases h3 with h3 | ⟨h3, h4⟩
    · simp [flush_steps_ok, h1, h2, h3]
    · simp [flush_steps_ok, h1, h2, h3, h4]

/-- A read that succeeds returns the image, whatever else could have failed. -/
theorem read_image_data (f g : ReadFaults) (img : Option fileTYPE)
    (hf : (sqlite_sram_read_image f img).1 = true)
    (hg : (sqlite_sram_read_image g img).1 = true) :
    (sqlite_sram_read_image f img).2 = (sqlite_sram_read_image g img).2 := by
  obtain ⟨fs, fr⟩ := f
  obtain ⟨gs, gr⟩ := g
  cases img with
  | none => simp [sqlite_sram_read_image] at hf
  | some im =>
    unfold sqlite_sram_read_image at hf hg ⊢
    cases fs <;> cases fr <;> cases gs <;> cases gr <;>
      simp_all [FileReadAdv] <;> (repeat' split) <;> simp_all

/-- A match reported on some rows is reported again by every comparison on the same rows
that runs without failure and gets the blob. -/
theorem latest_matches_rows (f g : MatchFaults) (c c' : Conn) (data : Bytes)
    (hv : c.view.snapshots = c'.view.snapshots)
    (hf : sqlite_sram_latest_matches f c data = (true, true))
    (hgb : g.blob_null = false)
    (hg : (sqlite_sram_latest_matches g c' data).1 = true) :
    sqlite_sram_latest_matches g c' data = (true, true) := by
  obtain ⟨f1, f2, f3⟩ := f
  obtain ⟨g1, g2, g3⟩ := g
  simp only at hgb
  subst hgb
  unfold sqlite_sram_latest_matches at hf hg ⊢
  rw [← hv] at hg ⊢
  cases f1
  · cases f2
    · cases g1
      · cases g2
        · simp only [Bool.false_eq_true, if_false] at hf hg ⊢
          generalize (orderByIdDesc c.view.snapshots).head? = o at hf hg ⊢
          cases o with
          | none => simp at hf
          | some r =>
            simp only at hf ⊢
            split at hf
            · rename_i hc
              obtain ⟨hc1, hc2, hc3⟩ := hc
              refine if_pos ⟨hc1, hc2, ?_⟩
              rcases hc3 with hc3 | hc3
              · exact Or.inl hc3
              · exact Or.inr ⟨trivial, hc3.2⟩
            · simp at hf
        · simp at hg
      · simp at hg
    · simp at hf
  · simp at hf

/-- Right after a successful insert of `data` into a table none of whose rows has the
largest row id, the comparison with the latest row, when it gets the blob, finds a match
for `data`. -/
theorem latest_matches_after_insert {f : InsertFaults} {now : Int} {c c' : Conn}
    {data : Bytes} (hins : sqlite_sram_insert f now c data = (true, c'))
    (hb : RowIdsBelowMax c.db.snapshots)
    (g : MatchFaults) (c2 : Conn) (hv : c2.view.snapshots = c'.db.snapshots)
    (hgb : g.blob_null = false)
    (hg : (sqlite_sram_latest_matches g c2 data).1 = true) :
    sqlite_sram_latest_matches g c2 data = (true, true) := by
  obtain ⟨tl, htl⟩ := insert_newest hins hb
  obtain ⟨g1, g2, g3⟩ := g
  simp only at hgb
  subst hgb
  unfold sqlite_sram_latest_matches at hg ⊢
  rw [hv, htl] at hg ⊢
  cases g1 <;> cases g2 <;>
    simp_all [storedCrc_insertedRow]
  simp [insertedRow]

/-- The world after a flush attempt in which every step succeeds: the database file is
the one the connection leaves, untouched if the latest row matched and with the committed
insert otherwise, and the slot is clean. -/
theorem try_flush_ok (env : Env) (f : FlushFaults) (w : World) (slot : Nat)
    (hslot : slot < SQLITE_SRAM_MAX_SLOTS) (hen : (w.g_slots slot).enabled = true)
    (hdirty : (w.g_slots slot).dirty = true) (himg : (w.g_slots slot).img.isSome = true)
    (hok : flush_steps_ok f w slot = true) :
    (flush_read f w slot).1 = true ∧
    ∃ db, (flush_open f w slot).1 = some db ∧
      ((sqlite_sram_latest_matches f.compare db (flush_read f w slot).2 = (true, true) ∧
          sqlite_sram_try_flush env f w slot =
            (w.setFile (w.g_slots slot).db_path (some db.db)).setSlot slot
              { w.g_slots slot with dirty := false, flush_timer := 0 }) ∨
        (sqlite_sram_latest_matches f.compare db (flush_read f w slot).2 = (true, false) ∧
          ∃ c', sqlite_sram_insert f.insert f.now db (flush_read f w slot).2 = (true, c') ∧
            sqlite_sram_try_flush env f w slot =
              (w.setFile (w.g_slots slot).db_path (some c'.db)).setSlot slot
                { w.g_slots slot with dirty := false, flush_timer := 0 })) := by
  have hs : ¬ slot ≥ SQLITE_SRAM_MAX_SLOTS := by omega
  have hi : (w.g_slots slot).img.isNone = false := by
    cases h : (w.g_slots slot).img <;> simp_all
  unfold flush_steps_ok at hok
  rw [Bool.and_eq_true] at hok
  obtain ⟨hrd, hrest⟩ := hok
  refine ⟨hrd, ?_⟩
  cases ho : (flush_open f w slot).1 with
  | none => rw [ho] at hrest; simp at hrest
  | some db =>
    rw [ho] at hrest
    simp only at hrest
    refine ⟨db, rfl, ?_⟩
    have hrd' := hrd
    have ho' := ho
    unfold flush_read at hrd'
    unfold flush_open at ho'
    rcases hlm : sqlite_sram_latest_matches f.compare db (flush_read f w slot).2 with ⟨a, b⟩
    have hlm' := hlm
    unfold flush_read at hlm'
    rw [hlm] at hrest
    cases a
    · simp at hrest
    · cases b
      · right
        simp only [Bool.not_false, Bool.and_self, if_true] at hrest
        rcases hins : sqlite_sram_insert f.insert f.now db (flush_read f w slot).2 with ⟨r, c'⟩
        rw [hins] at hrest
        simp only at hrest
        subst hrest
        have hins' := hins
        unfold flush_read at hins'
        refine ⟨rfl, c', rfl, ?_⟩
        unfold sqlite_sram_try_flush
        simp [hs, hen, hdirty, hi, hrd', ho', hlm', hins']
      · left
        refine ⟨rfl, ?_⟩
        unfold sqlite_sram_try_flush
        simp [hs, hen, hdirty, hi, hrd', ho', hlm']

theorem mark_save_dirty_after_flush (env : Env) (w : World) (slot : Nat)
    (hslot : slot < SQLITE_SRAM_MAX_SLOTS) (hrt : sqlite_sram_runtime_enabled env = true)
    (hen : (w.g_slots slot).enabled = true) :
    (sqlite_sram_mark_save_dirty env w slot).files = w.files ∧
    ((sqlite_sram_mark_save_dirty env w slot).g_slots slot).enabled = true ∧
    ((sqlite_sram_mark_save_dirty env w slot).g_slots slot).dirty = true ∧
    ((sqlite_sram_mark_save_dirty env w slot).g_slots slot).img = (w.g_slots slot).img ∧
    ((sqlite_sram_mark_save_dirty env w slot).g_slots slot).db_path =
      (w.g_slots slot).db_path := by
  have hs : ¬ slot ≥ SQLITE_SRAM_MAX_SLOTS := by omega
  simp [sqlite_sram_mark_save_dirty, hrt, hs, hen, World.setSlot]

/-! ## C4 -/

/-- C4 (amended): for an enabled, dirty slot with a bound backing store whose snapshot
table has no row with the largest row id `2^63 - 1`, two successful flush attempts in a
row on the same content, the slot being marked dirty in between, `sqlite3_column_blob`
not returning a null pointer to the second comparison: the second attempt reads the same
bytes, finds `sqlite_sram_latest_matches` true and so performs no insert, leaves the rows
of `snapshots` as the first attempt left them, and clears `dirty` and `flush_timer`.  The
first attempt compared the content with the newest row of the table: when it reported a
match it left the table as it was, so no row is added in total; when it reported none it
wrote exactly one new row (followed by the trim), so exactly one row is added in
total. -/
theorem C4_second_flush_deduplicated (env : Env) (f1 f2 : FlushFaults) (w : World)
    (slot : Nat) (hslot : slot < SQLITE_SRAM_MAX_SLOTS)
    (hen : (w.g_slots slot).enabled = true) (hdirty : (w.g_slots slot).dirty = true)
    (himg : (w.g_slots slot).img.isSome = true)
    (hrt : sqlite_sram_runtime_enabled env = true)
    (hbelow : RowIdsBelowMax (w.snapshotsAt (w.g_slots slot).db_path))
    (hblob : f2.compare.blob_null = false)
    (h1 : ((sqlite_sram_try_flush env f1 w slot).g_slots slot).dirty = false)
    (h2 : ((flushTwice env f1 f2 w slot).g_slots slot).dirty = false) :
    (flush_read f2 (sqlite_sram_mark_save_dirty env (sqlite_sram_try_flush env f1 w slot)
        slot) slot).2 = (flush_read f1 w slot).2 ∧
    (∃ db2, (flush_open f2 (sqlite_sram_mark_save_dirty env
          (sqlite_sram_try_flush env f1 w slot) slot) slot).1 = some db2 ∧
      sqlite_sram_latest_matches f2.compare db2 (flush_read f1 w slot).2 = (true, true)) ∧
    (flushTwice env f1 f2 w slot).snapshotsAt (w.g_slots slot).db_path =
      (sqlite_sram_try_flush env f1 w slot).snapshotsAt (w.g_slots slot).db_path ∧
    ((flushTwice env f1 f2 w slot).g_slots slot).dirty = false ∧
    ((flushTwice env f1 f2 w slot).g_slots slot).flush_timer = 0 ∧
    (∃ db1, (flush_open f1 w slot).1 = some db1 ∧
      db1.view.snapshots = w.snapshotsAt (w.g_slots slot).db_path ∧
      (sqlite_sram_latest_matches f1.compare db1 (flush_read f1 w slot).2 = (true, true) ∨
        sqlite_sram_latest_matches f1.compare db1 (flush_read f1 w slot).2 =
          (true, false)) ∧
      (sqlite_sram_latest_matches f1.compare db1 (flush_read f1 w slot).2 = (true, true) →
        (flushTwice env f1 f2 w slot).snapshotsAt (w.g_slots slot).db_path =
          w.snapshotsAt (w.g_slots slot).db_path) ∧
      (sqlite_sram_latest_matches f1.compare db1 (flush_read f1 w slot).2 = (true, false) →
        (flushTwice env f1 f2 w slot).snapshotsAt (w.g_slots slot).db_path =
          trimRows SQLITE_SRAM_HISTORY_LIMIT
            (w.snapshotsAt (w.g_slots slot).db_path ++
              [insertedRow f1.now (w.snapshotsAt (w.g_slots slot).db_path)
                (flush_read f1 w slot).2]) ∧
        insertedRow f1.now (w.snapshotsAt (w.g_slots slot).db_path)
            (flush_read f1 w slot).2 ∈
          (flushTwice env f1 f2 w slot).snapshotsAt (w.g_slots slot).db_path ∧
        insertedRow f1.now (w.snapshotsAt (w.g_slots slot).db_path)
            (flush_read f1 w slot).2 ∉ w.snapshotsAt (w.g_slots slot).db_path ∧
        ∀ r ∈ (flushTwice env f1 f2 w slot).snapshotsAt (w.g_slots slot).db_path,
          r ∈ w.snapshotsAt (w.g_slots slot).db_path ∨
          r = insertedRow f1.now (w.snapshotsAt (w.g_slots slot).db_path)
            (flush_read f1 w slot).2)) := by
  -- the first attempt
  have hok1 : flush_steps_ok f1 w slot = true := by
    have key := try_flush_slot env f1 w slot hslot hen hdirty himg
    rw [key] at h1
    by_contra hc
    simp only [hc, Bool.false_eq_true, if_false] at h1
    simp [retryLater, hdirty] at h1
  obtain ⟨hrd1, db1, ho1, hcase1⟩ := try_flush_ok env f1 w slot hslot hen hdirty himg hok1
  obtain ⟨hsn1, hdb1⟩ := open_db_snapshots f1.opening (w.files (w.g_slots slot).db_path)
    (w.g_slots slot).db_path
  obtain ⟨htx1, -, hrows1⟩ := hdb1 db1 ho1
  have hbelow1 : RowIdsBelowMax db1.db.snapshots := by
    rw [hrows1]; exact hbelow
  -- the world after the first attempt: file content `X`, slot clean
  have hw1 : ∃ X : Db, sqlite_sram_try_flush env f1 w slot =
        (w.setFile (w.g_slots slot).db_path (some X)).setSlot slot
          { w.g_slots slot with dirty := false, flush_timer := 0 } ∧
      ((sqlite_sram_latest_matches f1.compare db1 (flush_read f1 w slot).2 = (true, true) ∧
          X = db1.db) ∨
        (sqlite_sram_latest_matches f1.compare db1 (flush_read f1 w slot).2 =
            (true, false) ∧
          ∃ c', sqlite_sram_insert f1.insert f1.now db1 (flush_read f1 w slot).2 =
              (true, c') ∧
            X = c'.db)) := by
    rcases hcase1 with ⟨hm, hw⟩ | ⟨hm, c', hins, hw⟩
    · exact ⟨db1.db, hw, Or.inl ⟨hm, rfl⟩⟩
    · exact ⟨c'.db, hw, Or.inr ⟨hm, c', hins, rfl⟩⟩
  obtain ⟨X, hw1, hX⟩ := hw1
  have hfile1 : (sqlite_sram_try_flush env f1 w slot).files (w.g_slots slot).db_path =
      some X := by
    rw [hw1]; simp [World.setSlot, World.setFile]
  have hslot1 : (sqlite_sram_try_flush env f1 w slot).g_slots slot =
      { w.g_slots slot with dirty := false, flush_timer := 0 } := by
    rw [hw1]; simp [World.setSlot]
  -- marking dirty
  obtain ⟨md1, md2, md3, md4, md5⟩ := mark_save_dirty_after_flush env
    (sqlite_sram_try_flush env f1 w slot) slot hslot hrt (by rw [hslot1]; exact hen)
  rw [hslot1] at md4 md5
  simp only at md4 md5
  -- the second attempt
  have himg2 : ((sqlite_sram_mark_save_dirty env (sqlite_sram_try_flush env f1 w slot)
      slot).g_slots slot).img.isSome = true := by rw [md4]; exact himg
  have hok2 : flush_steps_ok f2 (sqlite_sram_mark_save_dirty env
      (sqlite_sram_try_flush env f1 w slot) slot) slot = true := by
    have key := try_flush_slot env f2 _ slot hslot md2 md3 himg2
    unfold flushTwice at h2
    rw [key] at h2
    by_contra hc
    simp only [hc, Bool.false_eq_true, if_false] at h2
    simp [retryLater, md3] at h2
  obtain ⟨hrd2, db2, ho2, hcase2⟩ := try_flush_ok env f2 _ slot hslot md2 md3 himg2 hok2
  have hdata : (flush_read f2 (sqlite_sram_mark_save_dirty env
      (sqlite_sram_try_flush env f1 w slot) slot) slot).2 = (flush_read f1 w slot).2 := by
    unfold flush_read at hrd1 hrd2 ⊢
    rw [md4] at hrd2 ⊢
    exact read_image_data _ _ _ hrd2 hrd1
  have ho2' := ho2
  unfold flush_open at ho2'
  rw [md1, md5, hfile1] at ho2'
  obtain ⟨-, hdb2⟩ := open_db_snapshots f2.opening (some X) (w.g_slots slot).db_path
  obtain ⟨htx2, -, hrows2⟩ := hdb2 db2 ho2'
  simp only [Option.getD_some] at hrows2
  have hview2 : db2.view.snapshots = X.snapshots := by
    simp [Conn.view, htx2, hrows2]
  rw [hdata] at hcase2
  -- the second attempt finds the match
  have hmatch2 : sqlite_sram_latest_matches f2.compare db2 (flush_read f1 w slot).2 =
      (true, true) := by
    have hfst : (sqlite_sram_latest_matches f2.compare db2 (flush_read f1 w slot).2).1 =
        true := by
      rcases hcase2 with ⟨hm, -⟩ | ⟨hm, -⟩ <;> rw [hm]
    rcases hX with ⟨hm1, rfl⟩ | ⟨-, c', hins, rfl⟩
    · refine latest_matches_rows _ _ _ _ _ ?_ hm1 hblob hfst
      simp [Conn.view, htx1, htx2, hrows2]
    · exact latest_matches_after_insert hins hbelow1 _ _ hview2 hblob hfst
  have hw2 : flushTwice env f1 f2 w slot =
      ((sqlite_sram_mark_save_dirty env (sqlite_sram_try_flush env f1 w slot) slot).setFile
          ((sqlite_sram_mark_save_dirty env (sqlite_sram_try_flush env f1 w slot)
            slot).g_slots slot).db_path (some db2.db)).setSlot slot
        { (sqlite_sram_mark_save_dirty env (sqlite_sram_try_flush env f1 w slot)
            slot).g_slots slot with dirty := false, flush_timer := 0 } := by
    rcases hcase2 with ⟨-, hw⟩ | ⟨hm, -⟩
    · exact hw
    · rw [hmatch2] at hm
      simp at hm
  have hsame : (flushTwice env f1 f2 w slot).snapshotsAt (w.g_slots slot).db_path =
      (sqlite_sram_try_flush env f1 w slot).snapshotsAt (w.g_slots slot).db_path := by
    rw [hw2, md5]
    simp [World.snapshotsAt, World.setSlot, World.setFile, hfile1, hrows2]
  have hT0 : db1.db.snapshots = w.snapshotsAt (w.g_slots slot).db_path := hrows1
  have hview1 : db1.view.snapshots = w.snapshotsAt (w.g_slots slot).db_path := by
    simp [Conn.view, htx1, hrows1, World.snapshotsAt]
  refine ⟨hdata, ⟨db2, ho2, hmatch2⟩, hsame, ?_, ?_, db1, ho1, hview1, ?_, ?_, ?_⟩
  · rw [hw2]; simp [World.setSlot]
  · rw [hw2]; simp [World.setSlot]
  · rcases hX with ⟨hm, -⟩ | ⟨hm, -⟩
    · exact Or.inl hm
    · exact Or.inr hm
  · intro hm
    rw [hsame]
    rcases hX with ⟨-, rfl⟩ | ⟨hm2, -⟩
    · simp [World.snapshotsAt, hfile1, hrows1]
    · rw [hm] at hm2
      simp at hm2
  · intro hm
    rw [hsame]
    rcases hX with ⟨hm2, -⟩ | ⟨-, c', hins, rfl⟩
    · rw [hm] at hm2
      simp at hm2
    · obtain ⟨-, hc'⟩ := insert_ok hins hbelow1
      have hsn : (sqlite_sram_try_flush env f1 w slot).snapshotsAt (w.g_slots slot).db_path =
          trimRows SQLITE_SRAM_HISTORY_LIMIT
            (w.snapshotsAt (w.g_slots slot).db_path ++
              [insertedRow f1.now (w.snapshotsAt (w.g_slots slot).db_path)
                (flush_read f1 w slot).2]) := by
        simp only [World.snapshotsAt, hfile1, Option.getD_some]
        rw [hc']
        simp only
        rw [hT0]
        rfl
      refine ⟨hsn, ?_, ?_, ?_⟩
      · rw [hsn]
        exact mem_trimRows_of_max (by decide) (by simp) rfl (insertedRow_id_max _ _ _)
      · intro hmem
        have := lt_sequentialRowId hmem
        simp [insertedRow] at this
      · intro r hr
        rw [hsn] at hr
        have := trimRows_subset _ _ hr
        simpa using this

/-- C4 as stated fails, in two ways.  In `restoredWorld` slot 0 is enabled and dirty and
the newest row already matches the content; both flush attempts run and succeed in every
step, and the two flushes together add no snapshot row at all (the table is the same list
of rows as before), not exactly one.  In `saturatedWorld` the only row has the largest row
id `2^63 - 1`, so the engine gives the inserted rows unused ids picked at random, here `5`
and `6`: after the first flush the old row is still the newest, the comparison of the
second flush reports no match, and the two flushes together add two rows.  And in
`exampleWorld`, when `sqlite3_column_blob` returns a null pointer to the comparison of the
second flush, that comparison reports no match although the newest row holds the content,
and the two flushes together add two rows. -/
theorem C4_counterexample :
    ((restoredWorld.g_slots 0).enabled = true ∧ (restoredWorld.g_slots 0).dirty = true ∧
      flush_steps_ok FlushFaults.none restoredWorld 0 = true ∧
      flush_steps_ok FlushFaults.none
        (sqlite_sram_mark_save_dirty exampleEnv
          (sqlite_sram_try_flush exampleEnv FlushFaults.none restoredWorld 0) 0) 0 = true ∧
      ((sqlite_sram_try_flush exampleEnv FlushFaults.none restoredWorld 0).g_slots 0).dirty
        = false ∧
      ((flushTwice exampleEnv FlushFaults.none FlushFaults.none restoredWorld 0).g_slots
        0).dirty = false ∧
      (flushTwice exampleEnv FlushFaults.none FlushFaults.none restoredWorld
        0).snapshotsAt (cstr "game.sav.sqlite3") =
        restoredWorld.snapshotsAt (cstr "game.sav.sqlite3")) ∧
    ((saturatedWorld.g_slots 0).enabled = true ∧ (saturatedWorld.g_slots 0).dirty = true ∧
      flush_steps_ok (flushPicking 5) saturatedWorld 0 = true ∧
      flush_steps_ok (flushPicking 6)
        (sqlite_sram_mark_save_dirty exampleEnv
          (sqlite_sram_try_flush exampleEnv (flushPicking 5) saturatedWorld 0) 0) 0 = true ∧
      ((sqlite_sram_try_flush exampleEnv (flushPicking 5) saturatedWorld 0).g_slots 0).dirty
        = false ∧
      ((flushTwice exampleEnv (flushPicking 5) (flushPicking 6) saturatedWorld 0).g_slots
        0).dirty = false ∧
      ((sqlite_sram_try_flush exampleEnv (flushPicking 5) saturatedWorld 0).files
          (cstr "game.sav.sqlite3")).map
        (fun d => sqlite_sram_latest_matches MatchFaults.none (Conn.onDb d) [1, 2, 3]) =
          some (true, false) ∧
      (flushTwice exampleEnv (flushPicking 5) (flushPicking 6) saturatedWorld
        0).snapshotsAt (cstr "game.sav.sqlite3") =
        saturatedWorld.snapshotsAt (cstr "game.sav.sqlite3") ++
          [insertedRowAt 5 0 [1, 2, 3], insertedRowAt 6 0 [1, 2, 3]]) ∧
    (flush_steps_ok FlushFaults.none exampleWorld 0 = true ∧
      flush_steps_ok blobNullFlush
        (sqlite_sram_mark_save_dirty exampleEnv
          (sqlite_sram_try_flush exampleEnv FlushFaults.none exampleWorld 0) 0) 0 = true ∧
      ((flushTwice exampleEnv FlushFaults.none blobNullFlush exampleWorld 0).g_slots
        0).dirty = false ∧
      (flushTwice exampleEnv FlushFaults.none blobNullFlush exampleWorld
        0).snapshotsAt (cstr "game.sav.sqlite3") =
        [insertedRowAt 1 0 [1, 2, 3], insertedRowAt 2 0 [1, 2, 3]]) := by
  decide

/-- C4 (amended) at a concrete input: flushing `exampleWorld` twice leaves the one row
the first flush wrote. -/
theorem C4_witness :
    (flushTwice exampleEnv FlushFaults.none FlushFaults.none exampleWorld 0).snapshotsAt
        (exampleWorld.g_slots 0).db_path =
      (sqlite_sram_try_flush exampleEnv FlushFaults.none exampleWorld 0).snapshotsAt
        (exampleWorld.g_slots 0).db_path :=
  (C4_second_flush_deduplicated exampleEnv FlushFaults.none FlushFaults.none exampleWorld 0
    (by decide) rfl rfl rfl rfl (by decide) rfl (by decide) (by decide)).2.2.1

/-- C8 at a concrete input: a failed read leaves slot 0 of `exampleWorld` dirty with the
retry armed, and a following attempt without failures clears it. -/
theorem C8_witness :
    (sqlite_sram_try_flush exampleEnv readFails exampleWorld 0).g_slots 0 =
      retryLater exampleEnv (exampleWorld.g_slots 0) ∧
    ((sqlite_sram_try_flush exampleEnv FlushFaults.none
      (sqlite_sram_try_flush exampleEnv readFails exampleWorld 0) 0).g_slots 0).dirty
      = false :=
  have h := C8_flush_outcome exampleEnv readFails exampleWorld 0 (by decide) rfl rfl rfl
  ⟨h.2.2.1 (by decide),
    (h.2.2.2.2.2.2.2.2 FlushFaults.none _ (by decide) (by decide) rfl
      (Or.inr ⟨by decide, by decide⟩)).1⟩

/-- The inner loop succeeds exactly when the needle, in lower case, is an initial segment
of the text, in lower case. -/
theorem ci_match_here_iff : ∀ (text needle : CStr),
    ci_match_here text needle = true ↔ (needle.map tolower) <+: (text.map tolower)
  | _, [] => by simp [ci_match_here]
  | [], n :: ns => by simp [ci_match_here]
  | t :: ts, n :: ns => by
    have ih := ci_match_here_iff ts ns
    simp only [ci_match_here, List.map_cons, List.cons_prefix_cons]
    by_cases h : tolower t = tolower n
    · simp only [h, if_true, ih, true_and]
    · simp only [h, if_false, Bool.false_eq_true, false_iff, not_and]
      intro h'
      exact absurd h'.symm h

/-- The outer loop succeeds exactly when a non-empty needle is a substring of the text,
case ignored. -/
theorem ci_scan_iff (needle : CStr) (hn : needle ≠ []) : ∀ (text : CStr),
    ci_scan needle text = true ↔ ciSubstring text needle
  | [] => by
    simp [ci_scan, ciSubstring, hn]
  | t :: ts => by
    have ih := ci_scan_iff needle hn ts
    unfold ciSubstring at ih ⊢
    rw [List.map_cons, List.infix_cons_iff, ← ih, ← List.map_cons, ← ci_match_here_iff]
    simp only [ci_scan]
    by_cases h : ci_match_here (t :: ts) needle = true
    · simp [h]
    · simp [h]

theorem ci_contains_eq (text needle : CStr) (hn : needle ≠ []) :
    sqlite_sram_ci_contains text needle = decide (ciSubstring text needle) := by
  have hl : ¬ needle.length = 0 := by
    intro h
    exact hn (List.length_eq_zero.1 h)
  rw [Bool.eq_iff_iff]
  simp only [sqlite_sram_ci_contains, hl, if_false, decide_eq_true_eq]
  exact ci_scan_iff needle hn text

theorem add_if_eq (c : Bool) (k s : Int) : add_if c k s = s + (if c = true then k else 0) := by
  unfold add_if
  split <;> simp

theorem ite_neg_weight (P : Prop) [Decidable P] :
    (if P then (-80 : Int) else 0) = -(if P then (80 : Int) else 0) := by
  split <;> simp

theorem cstr_ne_nil_of_length (s : String) (h : (cstr s).length ≠ 0) : cstr s ≠ [] := by
  intro h0
  exact h (by rw [h0]; rfl)

/-! ## C9 -/

/-- C9: for every label `sqlite_sram_export_trigger_score` returns what the stated rule
gives, all thirteen tests being case-insensitive substring tests: `-1000` if the label
contains "load" or "restore", or neither "save" nor "write", or none of the storage
words, and otherwise the sum of the weights.  So "Save SRAM" (130) scores above "Save
State" (rejected), "Load SRAM" is rejected, and "Save NVRAM" (130) scores above "Write
Backup RAM" (110). -/
theorem C9_score_matches_rule :
    (∀ label : CStr, sqlite_sram_export_trigger_score label = scoreRule label) ∧
    (∀ text needle : CStr, needle ≠ [] →
      (sqlite_sram_ci_contains text needle = true ↔ ciSubstring text needle)) ∧
    sqlite_sram_export_trigger_score (cstr "Save State") <
      sqlite_sram_export_trigger_score (cstr "Save SRAM") ∧
    sqlite_sram_export_trigger_score (cstr "Load SRAM") = -1000 ∧
    sqlite_sram_export_trigger_score (cstr "Write Backup RAM") <
      sqlite_sram_export_trigger_score (cstr "Save NVRAM") := by
  refine ⟨?_, ?_, by decide, by decide, by decide⟩
  · intro label
    by_cases hl : label.length = 0
    · have : label = [] := List.length_eq_zero.1 hl
      subst this
      decide
    · unfold sqlite_sram_export_trigger_score scoreRule
      simp only [hl, if_false]
      simp only [ci_contains_eq _ _ (cstr_ne_nil_of_length "load" (by decide)),
        ci_contains_eq _ _ (cstr_ne_nil_of_length "restore" (by decide)),
        ci_contains_eq _ _ (cstr_ne_nil_of_length "save" (by decide)),
        ci_contains_eq _ _ (cstr_ne_nil_of_length "write" (by decide)),
        ci_contains_eq _ _ (cstr_ne_nil_of_length "sram" (by decide)),
        ci_contains_eq _ _ (cstr_ne_nil_of_length "nvram" (by decide)),
        ci_contains_eq _ _ (cstr_ne_nil_of_length "backup ram" (by decide)),
        ci_contains_eq _ _ (cstr_ne_nil_of_length "memory card" (by decide)),
        ci_contains_eq _ _ (cstr_ne_nil_of_length "memcard" (by decide)),
        ci_contains_eq _ _ (cstr_ne_nil_of_length "save ram" (by decide)),
        ci_contains_eq _ _ (cstr_ne_nil_of_length "state" (by decide)),
        ci_contains_eq _ _ (cstr_ne_nil_of_length "setting" (by decide)),
        ci_contains_eq _ _ (cstr_ne_nil_of_length "config" (by decide))]
      simp only [add_if_eq]
      by_cases h1 : ciSubstring label (cstr "load") ∨ ciSubstring label (cstr "restore")
      · rcases h1 with h | h <;> simp [h]
      · by_cases h2 : ciSubstring label (cstr "save") ∨ ciSubstring label (cstr "write")
        · by_cases h3 : ciSubstring label (cstr "sram") ∨
              ciSubstring label (cstr "nvram") ∨ ciSubstring label (cstr "backup ram") ∨
              ciSubstring label (cstr "memory card") ∨ ciSubstring label (cstr "memcard") ∨
              ciSubstring label (cstr "save ram")
          · have c1 : (decide (ciSubstring label (cstr "load")) ||
                decide (ciSubstring label (cstr "restore"))) = false := by
              simpa using h1
            have c2 : (decide (ciSubstring label (cstr "save")) ||
                decide (ciSubstring label (cstr "write"))) = true := by
              simpa using h2
            have c3 : (decide (ciSubstring label (cstr "sram")) ||
                decide (ciSubstring label (cstr "nvram")) ||
                decide (ciSubstring label (cstr "backup ram")) ||
                (decide (ciSubstring label (cstr "memory card")) ||
                  decide (ciSubstring label (cstr "memcard"))) ||
                decide (ciSubstring label (cstr "save ram")) ||
                decide (ciSubstring label (cstr "sram")) ||
                decide (ciSubstring label (cstr "nvram"))) = true := by
              simp only [Bool.or_eq_true, decide_eq_true_eq]
              tauto
            simp only [c1, c2, c3, h1, h2, h3, Bool.false_eq_true, if_false, Bool.not_true,
              not_true_eq_false, decide_eq_true_eq, Bool.or_eq_true, ite_neg_weight]
            ring
          · have c3 : (decide (ciSubstring label (cstr "sram")) ||
                decide (ciSubstring label (cstr "nvram")) ||
                decide (ciSubstring label (cstr "backup ram")) ||
                (decide (ciSubstring label (cstr "memory card")) ||
                  decide (ciSubstring label (cstr "memcard"))) ||
                decide (ciSubstring label (cstr "save ram")) ||
                decide (ciSubstring label (cstr "sram")) ||
                decide (ciSubstring label (cstr "nvram"))) = false := by
              rw [← Bool.not_eq_true]
              simp only [Bool.or_eq_true, decide_eq_true_eq]
              tauto
            have c1 : (decide (ciSubstring label (cstr "load")) ||
                decide (ciSubstring label (cstr "restore"))) = false := by
              simpa using h1
            simp only [c1, c3, h1, h2, h3, Bool.false_eq_true, if_false, Bool.not_false,
              not_true_eq_false, not_false_eq_true, if_true, ite_self]
        · have c1 : (decide (ciSubstring label (cstr "load")) ||
              decide (ciSubstring label (cstr "restore"))) = false := by
            simpa using h1
          have c2 : (decide (ciSubstring label (cstr "save")) ||
              decide (ciSubstring label (cstr "write"))) = false := by
            simpa using h2
          simp only [c1, c2, h1, h2, Bool.false_eq_true, if_false, Bool.not_false,
            not_false_eq_true, if_true]
  · intro text needle hn
    rw [ci_contains_eq text needle hn, decide_eq_true_eq]

/-- Every candidate the loop extracts has a label the scoring rule accepts, carries that
label's score, and has a non-empty option id. -/
theorem trigger_candidate_passes {substrcpy : CStr → Nat → CStr} {entry : CStr} {c : Best}
    (h : trigger_candidate substrcpy entry = some c) :
    c.score = sqlite_sram_export_trigger_score c.label ∧ -1000 < c.score ∧ c.opt ≠ [] := by
  unfold trigger_candidate at h
  simp only at h
  split at h
  · simp at h
  · split at h
    · simp at h
    · next hs =>
      split at h
      · simp at h
      · next ho =>
        simp only [Option.some.injEq] at h
        subst h
        refine ⟨rfl, by simpa using hs, ?_⟩
        intro h0
        apply ho
        simp only at h0
        rw [h0]
        rfl

/-- The record the loop keeps for a candidate that becomes the best. -/
theorem trigger_fold (substrcpy : CStr → Nat → CStr) : ∀ (entries : List CStr) (b : Best),
    ((∀ c ∈ entries.filterMap (trigger_candidate substrcpy), c.score ≤ b.score) ∧
      entries.foldl (trigger_step substrcpy) b = b) ∨
    (∃ pre c post, entries.filterMap (trigger_candidate substrcpy) = pre ++ c :: post ∧
      b.score < c.score ∧ (∀ x ∈ pre, x.score < c.score) ∧ (∀ x ∈ post, x.score ≤ c.score) ∧
      entries.foldl (trigger_step substrcpy) b =
        ⟨c.score, snprintf_s 32 c.opt, snprintf_s 96 c.label, c.ex⟩)
  | [], b => Or.inl ⟨by simp, rfl⟩
  | e :: es, b => by
    cases hc : trigger_candidate substrcpy e with
    | none =>
      have hstep : trigger_step substrcpy b e = b := by simp [trigger_step, hc]
      simp only [List.foldl_cons, hstep, List.filterMap_cons, hc]
      exact trigger_fold substrcpy es b
    | some c0 =>
      simp only [List.foldl_cons, List.filterMap_cons, hc]
      by_cases hle : c0.score ≤ b.score
      · have hstep : trigger_step substrcpy b e = b := by simp [trigger_step, hc, hle]
        rw [hstep]
        rcases trigger_fold substrcpy es b with ⟨hall, hb⟩ | ⟨pre, c, post, hsp, hlt, hpre, hpost, hb⟩
        · left
          refine ⟨?_, hb⟩
          intro x hx
          rcases List.mem_cons.1 hx with rfl | hx
          · exact hle
          · exact hall x hx
        · right
          refine ⟨c0 :: pre, c, post, by rw [hsp]; rfl, hlt, ?_, hpost, hb⟩
          intro x hx
          rcases List.mem_cons.1 hx with rfl | hx
          · exact lt_of_le_of_lt hle hlt
          · exact hpre x hx
      · have hstep : trigger_step substrcpy b e =
            ⟨c0.score, snprintf_s 32 c0.opt, snprintf_s 96 c0.label, c0.ex⟩ := by
          simp [trigger_step, hc, hle]
        rw [hstep]
        rcases trigger_fold substrcpy es
            ⟨c0.score, snprintf_s 32 c0.opt, snprintf_s 96 c0.label, c0.ex⟩ with
          ⟨hall, hb⟩ | ⟨pre, c, post, hsp, hlt, hpre, hpost, hb⟩
        · right
          exact ⟨[], c0, _, rfl, lt_of_not_le hle, by simp, hall, hb⟩
        · right
          refine ⟨c0 :: pre, c, post, by rw [hsp]; rfl, lt_trans (lt_of_not_le hle) hlt, ?_,
            hpost, hb⟩
          intro x hx
          rcases List.mem_cons.1 hx with rfl | hx
          · exact hlt
          · exact hpre x hx

theorem snprintf_s_fits (size : Nat) (s : CStr) (h : s.length ≤ size - 1) :
    snprintf_s size s = s := by
  unfold snprintf_s
  exact List.take_of_length_le h

/-! ## C10 -/

/-- C10 (amended): `sqlite_sram_find_export_trigger` reports not-found exactly when the
list has no passing candidate (a candidate being what the loop does not skip: a
`T`/`t`/`R`/`r` descriptor whose label the scoring rule accepts and whose option id is not
empty).  Otherwise it returns the data of the first candidate in list order whose score is
the maximum (every earlier candidate scores strictly less, every later one at most as
much): its exclusive flag, its option id (an option id fits the 32-byte buffer it is
extracted into) and its label cut to the buffers it is copied through (`best_label` of 96
bytes, then `label_size`), so with the caller's size 96 the first 95 bytes of the label.
The label of a candidate is never one the scoring rule rejects. -/
theorem C10_trigger_selection (substrcpy : CStr → Nat → CStr) (entries : List CStr)
    (opt_size label_size : Nat) :
    (sqlite_sram_find_export_trigger substrcpy entries opt_size label_size = none ↔
      triggerCandidates substrcpy entries = []) ∧
    (∀ t, sqlite_sram_find_export_trigger substrcpy entries opt_size label_size = some t →
      ∃ pre c post, triggerCandidates substrcpy entries = pre ++ c :: post ∧
        (∀ x ∈ pre, x.score < c.score) ∧ (∀ x ∈ post, x.score ≤ c.score) ∧
        t.opt = snprintf_s opt_size (snprintf_s 32 c.opt) ∧ t.ex = c.ex ∧
        t.label = snprintf_s label_size (snprintf_s 96 c.label) ∧
        (opt_size = 32 → c.opt.length ≤ 31 → t.opt = c.opt) ∧
        (label_size = 96 → t.label = c.label.take 95) ∧
        (label_size = 96 → c.label.length ≤ 95 → t.label = c.label)) ∧
    (∀ c ∈ triggerCandidates substrcpy entries,
      c.score = sqlite_sram_export_trigger_score c.label ∧ -1000 < c.score ∧ c.opt ≠ []) := by
  have hpass : ∀ c ∈ triggerCandidates substrcpy entries,
      c.score = sqlite_sram_export_trigger_score c.label ∧ -1000 < c.score ∧ c.opt ≠ [] := by
    intro c hc
    obtain ⟨e, -, he⟩ := List.mem_filterMap.1 hc
    exact trigger_candidate_passes he
  have hfold := trigger_fold substrcpy entries ⟨-1000, [], [], false⟩
  refine ⟨?_, ?_, hpass⟩
  · unfold sqlite_sram_find_export_trigger
    rcases hfold with ⟨hall, hb⟩ | ⟨pre, c, post, hsp, hlt, -, -, hb⟩
    · simp only [hb, le_refl, if_true, true_iff]
      cases hl : triggerCandidates substrcpy entries with
      | nil => rfl
      | cons c cs =>
        have hc : c ∈ triggerCandidates substrcpy entries := by rw [hl]; simp
        have h1 := (hpass c hc).2.1
        have h2 := hall c hc
        simp only at h2
        omega
    · simp only at hlt
      have hne : ¬ c.score ≤ -1000 := by omega
      simp only [hb, hne, if_false]
      constructor
      · intro h; simp at h
      · intro h
        unfold triggerCandidates at h
        rw [hsp] at h
        simp at h
  · intro t ht
    unfold sqlite_sram_find_export_trigger at ht
    rcases hfold with ⟨-, hb⟩ | ⟨pre, c, post, hsp, hlt, hpre, hpost, hb⟩
    · simp [hb] at ht
    · simp only at hlt
      have hne : ¬ c.score ≤ -1000 := by omega
      simp only [hb, hne, if_false, Option.some.injEq] at ht
      subst ht
      refine ⟨pre, c, post, hsp, hpre, hpost, rfl, rfl, rfl, ?_, ?_, ?_⟩
      · intro ho hco
        subst ho
        simp only [snprintf_s_fits 32 c.opt (by omega)]
      · intro hl
        subst hl
        simp [snprintf_s]
      · intro hl hcl
        subst hl
        simp only [snprintf_s_fits 96 c.label (by omega)]

/-- C10 as stated fails: the descriptor `longEntry` is the only candidate, its label has
100 bytes, and the label the function returns is only the first 95 of them, not the label
of the candidate. -/
theorem C10_counterexample :
    triggerCandidates substrcpy_field [longEntry] = [⟨130, cstr "1", longLabel, false⟩] ∧
    (sqlite_sram_find_export_trigger substrcpy_field [longEntry] 32 96).map
      (fun t => t.label) = some (longLabel.take 95) ∧
    longLabel.take 95 ≠ longLabel := by
  decide

/-! ## Mount: writes to the backing store -/

theorem writeAt_append (c b : Bytes) : writeAt c c.length b = c ++ b := by
  simp [writeAt]

theorem FileWriteAdv_append (img : fileTYPE) (buf : Bytes)
    (h : img.offset = (img.content.length : Int)) :
    FileWriteAdv false img buf =
      ((buf.length : Int), { img with
        content := img.content ++ buf
        offset := img.offset + buf.length
        size := max img.size (img.offset + buf.length) }) := by
  simp [FileWriteAdv, h, writeAt_append]

theorem FileWriteAdv_fails (img : fileTYPE) (buf : Bytes) :
    FileWriteAdv true img buf = (-1, img) := by
  simp [FileWriteAdv]

theorem ff_loop_zero (wf : Nat → Bool) (fuel k : Nat) (img : fileTYPE) :
    ff_loop wf fuel k img 0 = (true, img) := by
  cases fuel <;> simp [ff_loop]

theorem ff_loop_succ (wf : Nat → Bool) (fuel k : Nat) (img : fileTYPE) (remaining : Nat)
    (h : 0 < remaining) :
    ff_loop wf (fuel + 1) k img remaining =
      if (FileWriteAdv (wf k) img (List.replicate (min remaining FF_BUF_SIZE) 255)).1 ≠
          ((min remaining FF_BUF_SIZE : Nat) : Int) then
        (false, (FileWriteAdv (wf k) img (List.replicate (min remaining FF_BUF_SIZE) 255)).2)
      else
        ff_loop wf fuel (k + 1)
          (FileWriteAdv (wf k) img (List.replicate (min remaining FF_BUF_SIZE) 255)).2
          (remaining - min remaining FF_BUF_SIZE) := by
  have hm : (if remaining > FF_BUF_SIZE then FF_BUF_SIZE else remaining) =
      min remaining FF_BUF_SIZE := by
    split <;> omega
  simp only [ff_loop, if_pos h, hm]

theorem chunk_bounds (remaining : Nat) (h : 0 < remaining) :
    0 < min remaining FF_BUF_SIZE ∧ min remaining FF_BUF_SIZE ≤ remaining := by
  simp [FF_BUF_SIZE]; omega

/-- A chunk loop that reports success at the end of the file has appended exactly
`remaining` bytes `0xFF`, and left the rest of the handle alone. -/
theorem ff_loop_appends (wf : Nat → Bool) :
    ∀ (fuel k : Nat) (img : fileTYPE) (remaining : Nat), remaining ≤ fuel →
      img.offset = (img.content.length : Int) →
      (ff_loop wf fuel k img remaining).1 = true →
      (ff_loop wf fuel k img remaining).2.content =
          img.content ++ List.replicate remaining 255 ∧
        (ff_loop wf fuel k img remaining).2.type = img.type ∧
        (ff_loop wf fuel k img remaining).2.filp = img.filp := by
  intro fuel
  induction fuel with
  | zero =>
    intro k img remaining hle _ _
    have : remaining = 0 := by omega
    subst this
    simp [ff_loop]
  | succ n ih =>
    intro k img remaining hle hoff hok
    rcases Nat.eq_zero_or_pos remaining with h0 | hpos
    · subst h0
      simp [ff_loop]
    · have hb := chunk_bounds remaining hpos
      rw [ff_loop_succ wf n k img remaining hpos] at hok ⊢
      cases hw : wf k with
      | true =>
        rw [hw, FileWriteAdv_fails] at hok
        have hc : ((-1 : Int) ≠ ((min remaining FF_BUF_SIZE : Nat) : Int)) := by
          omega
        rw [if_pos hc] at hok
        simp at hok
      | false =>
        rw [hw] at hok
        rw [FileWriteAdv_append _ _ hoff] at hok ⊢
        simp only [List.length_replicate, ne_eq, not_true_eq_false, if_false] at hok ⊢
        obtain ⟨h1, h2, h3⟩ := ih (k + 1) _ (remaining - min remaining FF_BUF_SIZE)
          (by omega) (by simp [hoff]) hok
        refine ⟨?_, h2, h3⟩
        rw [h1]
        simp only [List.append_assoc, List.append_cancel_left_eq]
        rw [← List.replicate_add]
        congr 1
        omega

theorem FileSeek_content (b : Bool) (img : fileTYPE) (o : Int) :
    (FileSeek b img o).2.content = img.content := by
  cases b <;> rfl

theorem FileSeek_type (b : Bool) (img : fileTYPE) (o : Int) :
    (FileSeek b img o).2.type = img.type := by
  cases b <;> rfl

theorem FileSeek_offset (b : Bool) (img : fileTYPE) (o : Int)
    (h : (FileSeek b img o).1 = true) : (FileSeek b img o).2.offset = o := by
  cases b
  · rfl
  · simp [FileSeek] at h

theorem write_image_ok (f : WriteFaults) (img : fileTYPE) (data : Bytes)
    (hc : img.content = [])
    (h : (sqlite_sram_write_image f img data).1 = true) :
    (sqlite_sram_write_image f img data).2.content = data ∧
      (sqlite_sram_write_image f img data).2.type = img.type := by
  unfold sqlite_sram_write_image at h ⊢
  cases hf : img.filp
  · simp [hf] at h
  · simp only [hf, Bool.not_true, Bool.false_eq_true, if_false] at h ⊢
    cases hs : (FileSeek f.seek_fails img 0).1
    · simp [hs] at h
    · have ho := FileSeek_offset _ _ _ hs
      have hcs := FileSeek_content f.seek_fails img 0
      have hts := FileSeek_type f.seek_fails img 0
      simp only [hs, Bool.not_true, Bool.false_eq_true, if_false] at h ⊢
      by_cases hd : data.length = 0
      · have : data = [] := List.length_eq_zero.mp hd
        subst this
        simp [FileSeek_content, FileSeek_type, hc]
      · simp only [ne_eq, hd, not_false_eq_true, if_true] at h ⊢
        cases hw : f.write_fails 0
        · simp [hw, FileWriteAdv, FileSeek_content, FileSeek_type, ho, hcs, hc, writeAt]
        · simp [hw, FileWriteAdv] at h

theorem fill_ff_ok (f : WriteFaults) (img : fileTYPE) (p : Int)
    (hc : img.content = [])
    (h : (sqlite_sram_fill_ff f img p).1 = true) :
    (sqlite_sram_fill_ff f img p).2.content = List.replicate p.toNat 255 ∧
      (sqlite_sram_fill_ff f img p).2.type = img.type := by
  unfold sqlite_sram_fill_ff at h ⊢
  by_cases hg : (!img.filp || decide (p ≤ 0)) = true
  · simp [hg] at h
  · rw [if_neg hg] at h ⊢
    cases hs : (FileSeek f.seek_fails img 0).1
    · simp [hs] at h
    · have ho := FileSeek_offset _ _ _ hs
      have hcs := FileSeek_content f.seek_fails img 0
      have hts := FileSeek_type f.seek_fails img 0
      simp only [hs, Bool.not_true, Bool.false_eq_true, if_false] at h ⊢
      cases hl : (ff_loop f.write_fails p.toNat 0 (FileSeek f.seek_fails img 0).2 p.toNat).1
      · simp [hl] at h
      · obtain ⟨h1, h2, _⟩ := ff_loop_appends f.write_fails p.toNat 0
          (FileSeek f.seek_fails img 0).2 p.toNat le_rfl (by simp [ho, hcs, hc]) hl
        simp [FileSeek_content, FileSeek_type, h1, h2, hcs, hc, hts]

theorem mount_done_img (w : World) (slot : Nat) (img : fileTYPE) :
    ((mount_done w slot img).2.g_slots slot).img = some img := by
  simp [mount_done, World.setSlot]

/-- What a successful restore leaves in a handle that was opened empty, by the three cases
of lines 785-843: a non-empty snapshot was loaded, none was and `pre_size` is positive,
none was and `pre_size` is not positive. -/
theorem mount_restore_store (m : MountFaults) (w : World) (slot : Nat) (img : fileTYPE)
    (ld : LoadResult) (p : Int) (hc : img.content = [])
    (h : (mount_restore m w slot img ld p).1 = true) :
    ∃ store, ((mount_restore m w slot img ld p).2.g_slots slot).img = some store ∧
      (ld.found = true ∧ ld.data ≠ [] →
        store.content = ld.data ++ List.replicate (p - ld.data.length).toNat 255 ∧
          store.type = img.type) ∧
      (¬ (ld.found = true ∧ ld.data ≠ []) → 0 < p →
        store.content = List.replicate p.toNat 255 ∧ store.type = img.type) ∧
      (¬ (ld.found = true ∧ ld.data ≠ []) → p ≤ 0 →
        store.content = [] ∧ store.type = 2) := by
  unfold mount_restore at h ⊢
  by_cases hs : ld.found = true ∧ ld.data ≠ []
  · have hhave : (ld.found && !ld.data.isEmpty) = true := by
      obtain ⟨h1, h2⟩ := hs
      cases hd : ld.data with
      | nil => exact absurd hd h2
      | cons a t => simp [h1]
    simp only [hhave, if_true] at h ⊢
    cases hwi : (sqlite_sram_write_image m.restore img ld.data).1
    · simp [hwi, mount_abort] at h
    · obtain ⟨hw1, hw2⟩ := write_image_ok m.restore img ld.data hc hwi
      simp only [hwi, Bool.not_true, Bool.false_eq_true, if_false] at h ⊢
      by_cases hp : p > (ld.data.length : Int)
      · rw [if_pos hp] at h ⊢
        cases hsk : (FileSeek m.pad.seek_fails
            (sqlite_sram_write_image m.restore img ld.data).2 ld.data.length).1
        · simp [hsk, mount_abort] at h
        · have ho := FileSeek_offset _ _ _ hsk
          simp only [hsk, Bool.not_true, Bool.false_eq_true, if_false] at h ⊢
          cases hl : (ff_loop m.pad.write_fails (p - ld.data.length).toNat 0
              (FileSeek m.pad.seek_fails (sqlite_sram_write_image m.restore img ld.data).2
                ld.data.length).2 (p - ld.data.length).toNat).1
          · rw [hl] at h
            simp [mount_abort] at h
          · obtain ⟨h1, h2, _⟩ := ff_loop_appends m.pad.write_fails _ 0 _ _ le_rfl
              (by rw [ho, FileSeek_content, hw1]) hl
            simp only [hl, Bool.not_true, Bool.false_eq_true, if_false]
            refine ⟨_, mount_done_img _ _ _, ?_, ?_, ?_⟩
            · intro _
              rw [FileSeek_content, FileSeek_type, h1, h2, FileSeek_content, FileSeek_type,
                hw1, hw2]
              exact ⟨rfl, rfl⟩
            · intro hn; exact absurd hs hn
            · intro hn; exact absurd hs hn
      · rw [if_neg hp]
        refine ⟨_, mount_done_img _ _ _, ?_, ?_, ?_⟩
        · intro _
          have : (p - (ld.data.length : Int)).toNat = 0 := by omega
          rw [this, hw1, hw2]
          simp
        · intro hn; exact absurd hs hn
        · intro hn; exact absurd hs hn
  · have hhave : (ld.found && !ld.data.isEmpty) = false := by
      cases hf : ld.found
      · simp
      · cases hd : ld.data with
        | nil => simp
        | cons a t => exact absurd ⟨hf, by simp [hd]⟩ hs
    simp only [hhave, Bool.false_eq_true, if_false] at h ⊢
    by_cases hp : p > 0
    · rw [if_pos hp] at h ⊢
      cases hfl : (sqlite_sram_fill_ff m.fill img p).1
      · simp [hfl, mount_abort] at h
      · obtain ⟨h1, h2⟩ := fill_ff_ok m.fill img p hc hfl
        simp only [hfl, Bool.not_true, Bool.false_eq_true, if_false]
        refine ⟨_, mount_done_img _ _ _, ?_, ?_, ?_⟩
        · intro hy; exact absurd hy hs
        · intro _ _; exact ⟨h1, h2⟩
        · intro _ hle; omega
    · rw [if_neg hp]
      refine ⟨_, mount_done_img _ _ _, ?_, ?_, ?_⟩
      · intro hy; exact absurd hy hs
      · intro _ hpos; exact absurd hpos hp
      · intro _ _; exact ⟨hc, rfl⟩

theorem FileWriteAdv_type (b : Bool) (img : fileTYPE) (buf : Bytes) :
    (FileWriteAdv b img buf).2.type = img.type := by
  cases b <;> rfl

theorem write_image_type (f : WriteFaults) (img : fileTYPE) (data : Bytes) :
    (sqlite_sram_write_image f img data).2.type = img.type := by
  unfold sqlite_sram_write_image
  by_cases hd : data.length ≠ 0
  · simp only [hd, if_true]
    split_ifs <;> simp only [FileWriteAdv_type, FileSeek_type]
  · simp only [hd, if_false]
    split_ifs <;> simp only [FileWriteAdv_type, FileSeek_type]

theorem ff_loop_type (wf : Nat → Bool) :
    ∀ (fuel k : Nat) (img : fileTYPE) (remaining : Nat),
      (ff_loop wf fuel k img remaining).2.type = img.type := by
  intro fuel
  induction fuel with
  | zero => intro k img remaining; rfl
  | succ n ih =>
    intro k img remaining
    rcases Nat.eq_zero_or_pos remaining with h0 | hpos
    · subst h0
      rw [ff_loop_zero]
    · rw [ff_loop_succ wf n k img remaining hpos]
      split
      · exact FileWriteAdv_type _ _ _
      · rw [ih, FileWriteAdv_type]

theorem fill_ff_type (f : WriteFaults) (img : fileTYPE) (p : Int) :
    (sqlite_sram_fill_ff f img p).2.type = img.type := by
  unfold sqlite_sram_fill_ff
  split
  · rfl
  · dsimp only
    split
    · exact FileSeek_type _ _ _
    · split
      · rw [ff_loop_type, FileSeek_type]
      · rw [FileSeek_type, ff_loop_type, FileSeek_type]

theorem mount_abort_img (w : World) (slot : Nat) (img : fileTYPE)
    (hs : slot < SQLITE_SRAM_MAX_SLOTS) :
    ((mount_abort w slot img).2.g_slots slot).img = some (FileClose img) := by
  have : ¬ slot ≥ SQLITE_SRAM_MAX_SLOTS := by omega
  simp [mount_abort, sqlite_sram_configure_slot, this, World.setSlot]

/-- Whether the restore step marks the handle as dynamically sized: it does exactly when
no non-empty snapshot was loaded and `pre_size` is not positive; otherwise the type of the
handle stays what it was. -/
theorem mount_restore_type (m : MountFaults) (w : World) (slot : Nat) (img : fileTYPE)
    (ld : LoadResult) (p : Int) (hs : slot < SQLITE_SRAM_MAX_SLOTS) :
    ∃ store, ((mount_restore m w slot img ld p).2.g_slots slot).img = some store ∧
      store.type =
        if ¬ (ld.found = true ∧ ld.data ≠ []) ∧ p ≤ 0 then 2 else img.type := by
  unfold mount_restore
  by_cases hsn : ld.found = true ∧ ld.data ≠ []
  · have hhave : (ld.found && !ld.data.isEmpty) = true := by
      obtain ⟨h1, h2⟩ := hsn
      cases hd : ld.data with
      | nil => exact absurd hd h2
      | cons a t => simp [h1]
    have hcond : ¬ (¬ (ld.found = true ∧ ld.data ≠ []) ∧ p ≤ 0) := fun hh => hh.1 hsn
    rw [if_neg hcond]
    simp only [hhave, if_true]
    split
    · exact ⟨_, mount_abort_img _ _ _ hs, by simp [FileClose, write_image_type]⟩
    · split
      · split
        · exact ⟨_, mount_abort_img _ _ _ hs,
            by simp [FileClose, FileSeek_type, write_image_type]⟩
        · split
          · exact ⟨_, mount_abort_img _ _ _ hs,
              by simp [FileClose, ff_loop_type, FileSeek_type, write_image_type]⟩
          · exact ⟨_, mount_done_img _ _ _,
              by simp [ff_loop_type, FileSeek_type, write_image_type]⟩
      · exact ⟨_, mount_done_img _ _ _, write_image_type _ _ _⟩
  · have hhave : (ld.found && !ld.data.isEmpty) = false := by
      cases hf : ld.found
      · simp
      · cases hd : ld.data with
        | nil => simp
        | cons a t => exact absurd ⟨hf, by simp [hd]⟩ hsn
    simp only [hhave, Bool.false_eq_true, if_false]
    by_cases hp : p > 0
    · have hcond : ¬ (¬ (ld.found = true ∧ ld.data ≠ []) ∧ p ≤ 0) := fun hh => by omega
      rw [if_neg hcond, if_pos hp]
      split
      · exact ⟨_, mount_abort_img _ _ _ hs, by simp [FileClose, fill_ff_type]⟩
      · exact ⟨_, mount_done_img _ _ _, fill_ff_type _ _ _⟩
    · have hcond : ¬ (ld.found = true ∧ ld.data ≠ []) ∧ p ≤ 0 := ⟨hsn, by omega⟩
      rw [if_pos hcond, if_neg hp]
      exact ⟨_, mount_done_img _ _ _, rfl⟩

/-- A mount that is enabled, has valid arguments and opens its temporary file goes
through the restore step on a handle that was opened empty as a regular file. -/
theorem mount_opened (env : Env) (m : MountFaults) (w : World) (slot : Nat)
    (path : CStr) (p : Int) (im : fileTYPE)
    (hr : sqlite_sram_runtime_enabled env = true) (hs : slot < SQLITE_SRAM_MAX_SLOTS)
    (hp : path ≠ []) (ho : m.open_tmp_fails = false) :
    ∃ w2 im1, im1.content = [] ∧ im1.type = 0 ∧
      sqlite_sram_mount_virtual env m w slot (some path) p (some im) =
        mount_restore m w2 slot im1 (mount_latest m w path) p := by
  unfold sqlite_sram_mount_virtual
  have hg : ¬ (slot ≥ SQLITE_SRAM_MAX_SLOTS ∨ path.length = 0) := by
    intro hh
    rcases hh with hh | hh
    · omega
    · exact hp (List.length_eq_zero.mp hh)
  simp only [hr, Bool.not_true, Bool.false_eq_true, if_false]
  rw [if_neg hg]
  exact ⟨(sqlite_sram_configure_slot w slot (some im) (some path)).setFile
      ((sqlite_sram_configure_slot w slot (some im) (some path)).g_slots slot).db_path
      (mount_prepared_file m w path),
    { (FileOpenEx_trunc false im).2 with
      path := snprintf_s 64 (cstr "/tmp/mister_sram_slot_" ++ decimal slot ++ cstr ".bin") },
    rfl, rfl, by rw [ho]; rfl⟩

/-! ## C11 -/

/-- C12 as stated fails.  In `emptySnapshotWorld` the newest row holds a blob of length
zero with a matching checksum: `sqlite_sram_load_latest` reports it as found, yet a mount
with size zero succeeds without taking the restore branch and marks the backing store as
dynamically sized.  And with no snapshot at all a mount with the negative size `-1`
marks the backing store as dynamically sized although the size is not zero. -/
theorem C12_counterexample :
    mount_latest MountFaults.none emptySnapshotWorld (cstr "game.sav") = ⟨true, true, []⟩ ∧
    (sqlite_sram_mount_virtual exampleEnv MountFaults.none emptySnapshotWorld 0
      (some (cstr "game.sav")) 0 (some exampleImage)).1 = true ∧
    (((sqlite_sram_mount_virtual exampleEnv MountFaults.none emptySnapshotWorld 0
      (some (cstr "game.sav")) 0 (some exampleImage)).2.g_slots 0).img.map fileTYPE.type) =
        some 2 ∧
    (mount_latest MountFaults.none exampleWorld (cstr "game.sav")).found = false ∧
    (sqlite_sram_mount_virtual exampleEnv MountFaults.none exampleWorld 0
      (some (cstr "game.sav")) (-1) (some exampleImage)).1 = true ∧
    (((sqlite_sram_mount_virtual exampleEnv MountFaults.none exampleWorld 0
      (some (cstr "game.sav")) (-1) (some exampleImage)).2.g_slots 0).img.map fileTYPE.type) =
        some 2 := by
  decide

/-- C12, amended: a mount that is enabled, has valid arguments and opens its temporary
file marks the backing store as dynamically sized (`type = 2`) exactly when
`sqlite_sram_load_latest` found no non-empty valid snapshot and the size is not positive.
Whenever a non-empty valid snapshot was found the mount takes the restore branch: it
does not mark the store as dynamically sized, and if it succeeds the store begins with
the snapshot's bytes. -/
theorem C12_mount_case_split (env : Env) (m : MountFaults) (w : World) (slot : Nat)
    (path : CStr) (p : Int) (im : fileTYPE)
    (hr : sqlite_sram_runtime_enabled env = true) (hs : slot < SQLITE_SRAM_MAX_SLOTS)
    (hp : path ≠ []) (ho : m.open_tmp_fails = false) :
    ∃ store,
      ((sqlite_sram_mount_virtual env m w slot (some path) p (some im)).2.g_slots slot).img =
        some store ∧
      (store.type = 2 ↔
        ¬ ((mount_latest m w path).found = true ∧ (mount_latest m w path).data ≠ []) ∧
          p ≤ 0) ∧
      ((mount_latest m w path).found = true ∧ (mount_latest m w path).data ≠ [] →
        store.type ≠ 2 ∧
        ((sqlite_sram_mount_virtual env m w slot (some path) p (some im)).1 = true →
          (mount_latest m w path).data <+: store.content)) := by
  obtain ⟨w2, im1, hc, ht, heq⟩ := mount_opened env m w slot path p im hr hs hp ho
  rw [heq]
  obtain ⟨store, hst, hty⟩ := mount_restore_type m w2 slot im1 (mount_latest m w path) p hs
  refine ⟨store, hst, ?_, ?_⟩
  · rw [hty, ht]
    split
    · simp_all
    · simp_all
  · intro hsn
    refine ⟨?_, ?_⟩
    · rw [hty, ht, if_neg (fun hh => hh.1 hsn)]
      decide
    · intro hok
      obtain ⟨store2, hst2, h1, _, _⟩ :=
        mount_restore_store m w2 slot im1 (mount_latest m w path) p hc hok
      rw [hst] at hst2
      cases hst2
      rw [(h1 hsn).1]
      exact List.prefix_append _ _

/-- C12 at concrete inputs: mounting slot 0 of `restoredWorld`, whose newest snapshot is
`[1, 2, 3]`, with size zero. -/
theorem C12_witness :
    ∃ store,
      ((sqlite_sram_mount_virtual exampleEnv MountFaults.none restoredWorld 0
        (some (cstr "game.sav")) 0 (some exampleImage)).2.g_slots 0).img = some store ∧
      (store.type = 2 ↔
        ¬ ((mount_latest MountFaults.none restoredWorld (cstr "game.sav")).found = true ∧
            (mount_latest MountFaults.none restoredWorld (cstr "game.sav")).data ≠ []) ∧
          (0 : Int) ≤ 0) ∧
      ((mount_latest MountFaults.none restoredWorld (cstr "game.sav")).found = true ∧
          (mount_latest MountFaults.none restoredWorld (cstr "game.sav")).data ≠ [] →
        store.type ≠ 2 ∧
        ((sqlite_sram_mount_virtual exampleEnv MountFaults.none restoredWorld 0
          (some (cstr "game.sav")) 0 (some exampleImage)).1 = true →
          (mount_latest MountFaults.none restoredWorld (cstr "game.sav")).data <+:
            store.content)) :=
  C12_mount_case_split exampleEnv MountFaults.none restoredWorld 0 (cstr "game.sav") 0
    exampleImage (by decide) (by decide) (by decide) rfl

/-! ## C13 -/

/-- What a reported match says about the first row of `ORDER BY id DESC`: it holds exactly
the bytes compared, and its stored CRC is the CRC of those bytes. -/
theorem latest_matches_true {f : MatchFaults} {c : Conn} {B : Bytes}
    (h : sqlite_sram_latest_matches f c B = (true, true)) :
    ∃ r tl, orderByIdDesc c.view.snapshots = r :: tl ∧ r.sram = B ∧
      storedCrc r = sqlite_sram_crc32 B := by
  obtain ⟨f1, f2, f3⟩ := f
  unfold sqlite_sram_latest_matches at h
  cases f1
  · cases f2
    · simp only [Bool.false_eq_true, if_false] at h
      cases hl : orderByIdDesc c.view.snapshots with
      | nil => rw [hl] at h; simp at h
      | cons r tl =>
        rw [hl] at h
        simp only [List.head?_cons] at h
        split at h
        · next hc =>
          obtain ⟨h1, h2, h3⟩ := hc
          refine ⟨r, tl, rfl, ?_, h1⟩
          rcases h3 with h3 | h3
          · have hr : r.sram = [] := List.length_eq_zero.1 h3
            have hb : B = [] := List.length_eq_zero.1 (by omega)
            rw [hr, hb]
          · obtain ⟨-, h3⟩ := h3
            rw [List.take_of_length_le (le_refl _), h2,
              List.take_of_length_le (le_refl _)] at h3
            exact h3
        · simp at h
    · simp at h
  · simp at h

/-- C13: whenever `sqlite_sram_latest_matches` reports a match for the bytes `B` on the
table a connection sees, the newest row of that table holds exactly `B` and passes its own
CRC check, and `sqlite_sram_load_latest` on that table, when opening the file, preparing
the query and reading the first row do not fail, returns success with `found = true` and
exactly `B`. -/
theorem C13_dedup_sound_for_recovery (f : MatchFaults) (lf : LoadFaults) (c : Conn)
    (B : Bytes) (h : sqlite_sram_latest_matches f c B = (true, true))
    (hopen : lf.open_fails = false) (hprepare : lf.prepare_fails = false)
    (hstep : lf.step_fails 0 = false) (hblob : lf.blob_null 0 = false) :
    (∃ r tl, orderByIdDesc c.view.snapshots = r :: tl ∧ r.sram = B ∧ r.intact) ∧
    sqlite_sram_load_latest lf (some c.view) = ⟨true, true, B⟩ := by
  obtain ⟨r, tl, hl, hB, hcrc⟩ := latest_matches_true h
  have hint : r.intact := by
    unfold Snapshot.intact
    rw [hcrc, hB]
  have hint2 : sqlite_sram_crc32 r.sram = storedCrc r := hint
  refine ⟨⟨r, tl, hl, hB, hint⟩, ?_⟩
  have hs : load_scan lf 0 (orderByIdDesc c.view.snapshots) = ⟨true, some r⟩ := by
    rw [hl]
    simp [load_scan, hstep, hblob, hint2]
  simp only [sqlite_sram_load_latest, hs]
  simp [hopen, hprepare, hB]

/-- C13 at a concrete input: on a table whose only row holds `[1, 2, 3]` with its CRC the
comparison reports a match for these three bytes, and the load returns them. -/
theorem C13_witness :
    sqlite_sram_load_latest LoadFaults.none
      (some (Conn.onDb ⟨[], some [], [⟨1, 0, 1438416925, [1, 2, 3], none⟩]⟩).view) =
        ⟨true, true, [1, 2, 3]⟩ :=
  (C13_dedup_sound_for_recovery MatchFaults.none LoadFaults.none
    (Conn.onDb ⟨[], some [], [⟨1, 0, 1438416925, [1, 2, 3], none⟩]⟩) [1, 2, 3]
    (by decide) rfl rfl rfl rfl).2

/-! ## C14 -/

theorem slotOk_zero : slotOk sqlite_sram_slot_t.zero := by
  simp [slotOk, sqlite_sram_slot_t.zero]

theorem setSlot_ok (w : World) (slot : Nat) (s : sqlite_sram_slot_t)
    (hw : ∀ j, slotOk (w.g_slots j)) (hs : slotOk s) :
    ∀ j, slotOk ((w.setSlot slot s).g_slots j) := by
  intro j
  simp only [World.setSlot]
  split
  · exact hs
  · exact hw j

theorem configure_slot_ok (w : World) (slot : Nat) (img : Option fileTYPE)
    (save_path : Option CStr) (hw : ∀ j, slotOk (w.g_slots j)) :
    ∀ j, slotOk ((sqlite_sram_configure_slot w slot img save_path).g_slots j) := by
  unfold sqlite_sram_configure_slot
  split
  · exact hw
  · cases save_path with
    | none =>
      exact setSlot_ok _ _ _ hw (by simp [slotOk, sqlite_sram_slot_t.zero])
    | some path =>
      dsimp only
      split
      · exact setSlot_ok _ _ _ hw (by simp [slotOk, sqlite_sram_slot_t.zero])
      · exact setSlot_ok _ _ _ hw (by simp [slotOk, sqlite_sram_slot_t.zero])

theorem mark_save_dirty_ok (env : Env) (w : World) (slot : Nat)
    (ht : ∀ offset, env.GetTimer offset % 2 ^ 32 ≠ 0)
    (hw : ∀ j, slotOk (w.g_slots j)) :
    ∀ j, slotOk ((sqlite_sram_mark_save_dirty env w slot).g_slots j) := by
  unfold sqlite_sram_mark_save_dirty
  split
  · exact hw
  · split
    · exact hw
    · dsimp only
      split
      · exact hw
      · rename_i hen
        refine setSlot_ok _ _ _ hw ?_
        have hen2 : (w.g_slots slot).enabled = true := by simpa using hen
        refine ⟨fun _ => hen2, ?_⟩
        dsimp only
        split
        · exact ⟨fun _ => ht _, fun _ => rfl⟩
        · rename_i hne
          exact ⟨fun _ => hne, fun _ => rfl⟩

theorem retryLater_ok (env : Env) (s : sqlite_sram_slot_t)
    (ht : ∀ offset, env.GetTimer offset % 2 ^ 32 ≠ 0)
    (hen : s.enabled = true) (hd : s.dirty = true) : slotOk (retryLater env s) := by
  unfold slotOk retryLater
  exact ⟨fun _ => hen, fun _ => ht _, fun _ => hd⟩

theorem try_flush_slots_ok (env : Env) (f : FlushFaults) (w : World) (slot : Nat)
    (ht : ∀ offset, env.GetTimer offset % 2 ^ 32 ≠ 0)
    (hw : ∀ j, slotOk (w.g_slots j)) :
    ∀ j, slotOk ((sqlite_sram_try_flush env f w slot).g_slots j) := by
  unfold sqlite_sram_try_flush
  split
  · exact hw
  · dsimp only
    split
    · exact hw
    · rename_i hcond
      have hen : (w.g_slots slot).enabled = true ∧ (w.g_slots slot).dirty = true := by
        simp only [Bool.or_eq_true, Bool.not_eq_true', not_or, Bool.not_eq_false] at hcond
        exact ⟨hcond.1.1, hcond.1.2⟩
      have hretry := retryLater_ok env (w.g_slots slot) ht hen.1 hen.2
      have hclear : slotOk { w.g_slots slot with dirty := false, flush_timer := 0 } := by
        simp [slotOk]
      repeat' split
      all_goals first
        | exact setSlot_ok _ _ _ (fun j => hw j) hretry
        | exact setSlot_ok _ _ _ (fun j => hw j) hclear

theorem flush_slot_ok (env : Env) (f : FlushFaults) (w : World) (slot : Nat)
    (ht : ∀ offset, env.GetTimer offset % 2 ^ 32 ≠ 0)
    (hw : ∀ j, slotOk (w.g_slots j)) :
    ∀ j, slotOk ((sqlite_sram_flush_slot env f w slot).g_slots j) := by
  unfold sqlite_sram_flush_slot
  split
  · exact hw
  · split
    · exact hw
    · exact try_flush_slots_ok env f w slot ht hw

theorem unmount_slot_ok (w : World) (slot : Nat) (hw : ∀ j, slotOk (w.g_slots j)) :
    ∀ j, slotOk ((sqlite_sram_unmount_slot w slot).g_slots j) := by
  unfold sqlite_sram_unmount_slot
  split
  · exact hw
  · exact configure_slot_ok _ _ _ _ hw

theorem mount_done_ok (w : World) (slot : Nat) (img : fileTYPE)
    (hw : ∀ j, slotOk (w.g_slots j)) :
    ∀ j, slotOk ((mount_done w slot img).2.g_slots j) := by
  unfold mount_done
  exact setSlot_ok _ _ _ hw (hw slot)

theorem mount_abort_ok (w : World) (slot : Nat) (img : fileTYPE)
    (hw : ∀ j, slotOk (w.g_slots j)) :
    ∀ j, slotOk ((mount_abort w slot img).2.g_slots j) := by
  unfold mount_abort
  exact configure_slot_ok _ _ _ _ hw

theorem mount_restore_ok (m : MountFaults) (w : World) (slot : Nat) (img : fileTYPE)
    (ld : LoadResult) (p : Int) (hw : ∀ j, slotOk (w.g_slots j)) :
    ∀ j, slotOk ((mount_restore m w slot img ld p).2.g_slots j) := by
  unfold mount_restore
  dsimp only
  split_ifs <;> first | exact mount_done_ok _ _ _ hw | exact mount_abort_ok _ _ _ hw

theorem mount_virtual_ok (env : Env) (m : MountFaults) (w : World) (slot : Nat)
    (save_path : Option CStr) (p : Int) (img : Option fileTYPE)
    (hw : ∀ j, slotOk (w.g_slots j)) :
    ∀ j, slotOk ((sqlite_sram_mount_virtual env m w slot save_path p img).2.g_slots j) := by
  unfold sqlite_sram_mount_virtual
  split
  · exact hw
  · split
    · dsimp only
      split
      · exact hw
      · split
        · exact configure_slot_ok _ _ _ _ (configure_slot_ok _ _ _ _ hw)
        · exact mount_restore_ok _ _ _ _ _ _ (fun j => configure_slot_ok _ _ _ _ hw j)
    · exact hw

theorem poll_flush_ok (env : Env) (pe : PollEnv) (w : World)
    (ht : ∀ offset, env.GetTimer offset % 2 ^ 32 ≠ 0)
    (hw : ∀ j, slotOk (w.g_slots j)) :
    ∀ j, slotOk ((sqlite_sram_poll_flush env pe w).g_slots j) := by
  unfold sqlite_sram_poll_flush
  generalize List.range SQLITE_SRAM_MAX_SLOTS = l
  induction l generalizing w with
  | nil => exact hw
  | cons i rest ih =>
    rw [List.foldl_cons]
    apply ih
    unfold poll_flush_step
    dsimp only
    split
    · exact hw
    · split
      · exact hw
      · exact try_flush_slots_ok env _ w i ht hw

theorem poll_export_trigger_world (env : Env) (pe : PollEnv) (s : Machine) :
    (sqlite_sram_poll_export_trigger env pe s).world = s.world := by
  unfold sqlite_sram_poll_export_trigger
  dsimp only
  split_ifs <;> rfl

theorem poll_ok (env : Env) (pe : PollEnv) (s : Machine)
    (ht : ∀ offset, env.GetTimer offset % 2 ^ 32 ≠ 0)
    (hw : ∀ j, slotOk (s.world.g_slots j)) :
    ∀ j, slotOk ((sqlite_sram_poll env pe s).world.g_slots j) := by
  unfold sqlite_sram_poll
  split
  · exact hw
  · dsimp only
    apply poll_flush_ok env pe _ ht
    rw [poll_export_trigger_world]
    exact hw

theorem apply_ok (op : Op) (s : Machine) (ht : op.timerNeverZero)
    (hw : ∀ j, slotOk (s.world.g_slots j)) :
    ∀ j, slotOk ((op.apply s).world.g_slots j) := by
  cases op with
  | reset => intro j; exact slotOk_zero
  | mount env m slot save_path pre_size img => exact mount_virtual_ok _ _ _ _ _ _ _ hw
  | unmount slot => exact unmount_slot_ok _ _ hw
  | mark_dirty env slot => exact mark_save_dirty_ok _ _ _ ht hw
  | flush env f slot => exact flush_slot_ok _ _ _ _ ht hw
  | poll env pe => exact poll_ok _ _ _ ht hw

theorem runOps_ok (ops : List Op) :
    ∀ (s : Machine), (∀ op ∈ ops, op.timerNeverZero) → (∀ j, slotOk (s.world.g_slots j)) →
      ∀ j, slotOk ((runOps ops s).world.g_slots j) := by
  induction ops with
  | nil => intro s _ hw; exact hw
  | cons op rest ih =>
    intro s ht hw
    unfold runOps
    rw [List.foldl_cons]
    exact ih _ (fun o ho => ht o (List.mem_cons_of_mem _ ho))
      (apply_ok op s (ht op (List.mem_cons_self _ _)) hw)

/-- C14: if the timer never hands out the value `0`, then in every state reached from the
all-zero initial state by any sequence of calls of reset, mount, unmount, mark_dirty,
flush and poll, with any arguments and any failures of the calls they make, every slot
below 16 satisfies: dirty implies enabled, and dirty holds exactly when the flush
deadline is armed (`flush_timer ≠ 0`). -/
theorem C14_slot_invariant (ops : List Op) (ht : ∀ op ∈ ops, op.timerNeverZero)
    (slot : Nat) (_hslot : slot < SQLITE_SRAM_MAX_SLOTS) :
    (((runOps ops Machine.zero).world.g_slots slot).dirty = true →
      ((runOps ops Machine.zero).world.g_slots slot).enabled = true) ∧
    (((runOps ops Machine.zero).world.g_slots slot).dirty = true ↔
      ((runOps ops Machine.zero).world.g_slots slot).flush_timer ≠ 0) :=
  runOps_ok ops Machine.zero ht (fun _ => slotOk_zero) slot

/-- C14 at a concrete input: slot 0 is mounted and marked dirty; it is then enabled, dirty
and armed. -/
theorem C14_witness :
    (((runOps [Op.mount steadyEnv MountFaults.none 0 (some (cstr "game.sav")) 3
          (some exampleImage), Op.mark_dirty steadyEnv 0]
        Machine.zero).world.g_slots 0).dirty = true →
      ((runOps [Op.mount steadyEnv MountFaults.none 0 (some (cstr "game.sav")) 3
          (some exampleImage), Op.mark_dirty steadyEnv 0]
        Machine.zero).world.g_slots 0).enabled = true) ∧
    (((runOps [Op.mount steadyEnv MountFaults.none 0 (some (cstr "game.sav")) 3
          (some exampleImage), Op.mark_dirty steadyEnv 0]
        Machine.zero).world.g_slots 0).dirty = true ↔
      ((runOps [Op.mount steadyEnv MountFaults.none 0 (some (cstr "game.sav")) 3
          (some exampleImage), Op.mark_dirty steadyEnv 0]
        Machine.zero).world.g_slots 0).flush_timer ≠ 0) :=
  C14_slot_invariant
    [Op.mount steadyEnv MountFaults.none 0 (some (cstr "game.sav")) 3 (some exampleImage),
      Op.mark_dirty steadyEnv 0]
    (by
      intro op hop
      simp only [List.mem_cons, List.mem_singleton, List.not_mem_nil, or_false] at hop
      rcases hop with rfl | rfl <;> intro offset <;>
        exact (by decide : (1000 : Nat) % 2 ^ 32 ≠ 0))
    0 (by decide)

end SqliteSram
